import Mathlib

/-!
View event dispatch and redraw engine (ggadget `view.cc`).

A shallow embedding of `View::Impl` from `trunk/ggadget/view.cc`.

* The view's member variables are the fields of `View`.
* `BasicElement`, `Elements`, the canvas and the host are collaborators whose
  source is not part of `view.cc`.  Everything they do is a field of `Env`:
  a handler receives the element world `W` and returns its result together
  with the new world.  Handlers may disable, hide or destroy any element.
* An `ElementHolder` is a weak reference: it reads null once its element has
  been destroyed.  After every call into a collaborator the holders are
  re-synchronised with the new world (`holderSync`).
* `clip_region_` is the list of its rectangles: `IsEmpty()` is emptiness of the
  list and `Clear()` empties it; the other `ClipRegion` operations and the
  constants of missing headers are fields of `Env`.
* Every call the view makes into a collaborator is recorded, in order, in the
  ghost field `View.log`.
* Re-entrant calls of the view's own entry points from inside a handler are
  outside the model.
* Coordinates and sizes (`double` in the source) are carried as integers; the
  view only stores, compares and forwards them.
* `OnMouseEvent` calls itself for the mouse-over and mouse-out events it
  synthesizes; the embedding bounds the depth of these calls and
  `OnMouseEvent_total` shows that the bound is never reached.

The timers of the view (`TimerWatchCallback`) are embedded apart from the view
state: `int` values wrap at 32 bits, clock readings are `uint64_t`, and the
`double` progress of an animation is carried exactly, as a fraction over the
duration.

The image cache (`tags/0.10.2/ggadget/image_cache.cc`) is embedded as the four
maps of `ImageCache::Impl` over a heap of `SharedImage` objects; file managers
and the decoder of the graphics backend are fields of `CacheEnv`. The reference
count of a `SharedImage` is an `int` and wraps at 32 bits like the timer values.

Further parts, each embedded on its own:

* the zoom of `CairoGraphics` and the drawing of a `Texture`, over a type
  `Double` that keeps what comparisons of `double` values can tell apart
  (not-a-number, the infinities, finite values);
* the string converters of `converter.cc`, over the answers of the script
  engine (`ConverterEnv`);
* the JSON encoder and the validation loop of `JSONDecode` (`json.cc`): texts
  are lists of characters, and the loop is a recursion on the text from the
  cursor on, so it is total;
* `ParsePluginsXML` of the gadget manager, whose two nested loops share one
  iterator and are embedded as one recursion on the entries from the iterator
  on;
* `ImgElement::DoDraw`, in exact rational arithmetic.
-/

namespace ggadget

/-- Identity of a `BasicElement` (its address in the source). -/
abbrev ElementId := Nat

/-- Result code of every dispatch function (`EventResult`). -/
inductive EventResult where
  | EVENT_RESULT_UNHANDLED
  | EVENT_RESULT_HANDLED
  | EVENT_RESULT_CANCELED
  deriving DecidableEq, Repr

/-- The event types used by `view.cc` (`Event::Type`). -/
inductive EventType where
  | EVENT_MOUSE_DOWN
  | EVENT_MOUSE_UP
  | EVENT_MOUSE_CLICK
  | EVENT_MOUSE_DBLCLICK
  | EVENT_MOUSE_RCLICK
  | EVENT_MOUSE_RDBLCLICK
  | EVENT_MOUSE_MOVE
  | EVENT_MOUSE_OUT
  | EVENT_MOUSE_OVER
  | EVENT_MOUSE_WHEEL
  | EVENT_FOCUS_IN
  | EVENT_FOCUS_OUT
  | EVENT_SIZE
  | EVENT_DRAG_DROP
  | EVENT_DRAG_OUT
  | EVENT_DRAG_OVER
  | EVENT_DRAG_MOTION
  deriving DecidableEq, Repr

/-- A `MouseEvent`: type, position, wheel deltas, button mask and modifier. -/
structure MouseEvent where
  type : EventType
  x : Int
  y : Int
  wheel_delta_x : Int
  wheel_delta_y : Int
  button : Nat
  modifier : Nat
  deriving DecidableEq, Repr

/-- A `DragEvent`: type, position and the dragged files. -/
structure DragEvent where
  type : EventType
  x : Int
  y : Int
  drag_files : List String
  deriving DecidableEq, Repr

/-- A rectangle of the clip region. -/
structure Rectangle where
  x : Int
  y : Int
  w : Int
  h : Int
  deriving DecidableEq, Repr

/-- What a mouse handler hands back: the result, the two output parameters
`fired_element` and `in_element`, and the element world it leaves behind. -/
structure MouseDispatch (W : Type) where
  result : EventResult
  fired_element : Option ElementId
  in_element : Option ElementId
  world : W

/-- Identity of a canvas (`CanvasInterface *`). -/
abbrev CanvasId := Nat

/-- One call made by the view into a collaborator, in the order made. -/
inductive Action where
  | ElementOnMouseEvent (element : ElementId) (event : MouseEvent) (direct : Bool)
  | ChildrenOnMouseEvent (event : MouseEvent)
  | ElementOnOtherEvent (element : ElementId) (type : EventType)
  | ElementOnPopupOff (element : ElementId)
  | ElementQueueDraw (element : ElementId)
  | HostSetCursor (type : Int)
  | HostSetTooltip (tooltip : Option String)
  | HostQueueResize
  | HostQueueDraw
  | ChildrenLayout
  | ChildrenDraw (target : CanvasId)
  | PopupDraw (element : ElementId) (target : CanvasId)
  | FireOnSize
  | FirePostedSizeEvents
  | CacheDestroy (cache : CanvasId)
  | NewCanvas (width height : Int)
  | PushState (target : CanvasId)
  | PopState (target : CanvasId)
  | IntersectGeneralClipRegion (target : CanvasId) (region : List Rectangle)
  | ClearRect (target : CanvasId) (x y w h : Int)
  | PopupTransform (target : CanvasId) (element : ElementId)
  | DrawCanvas (dest : CanvasId) (x y : Int) (img : CanvasId)
  | ElementOnDragEvent (element : ElementId) (event : DragEvent) (direct : Bool)
  | ChildrenOnDragEvent (event : DragEvent)
  | FireViewEvent (event : MouseEvent)
  | HostShowContextMenu (button : Nat)
  | GadgetSetInUserInteraction (flag : Bool)
  deriving DecidableEq, Repr

/-- The collaborators of the view, over an element world `W`, and the
constants of headers that `view.cc` includes. -/
structure Env (W : Type) where
  /-- `MouseEvent::BUTTON_LEFT` (bit mask, `event.h`). -/
  BUTTON_LEFT : Nat
  /-- `BasicElement::FLIP_HORIZONTAL` (bit mask, `basic_element.h`). -/
  FLIP_HORIZONTAL : Nat
  /-- `BasicElement::FLIP_VERTICAL` (bit mask, `basic_element.h`). -/
  FLIP_VERTICAL : Nat
  /-- `ViewInterface::HT_TRANSPARENT` (`view_interface.h`). -/
  HT_TRANSPARENT : Nat
  /-- `CURSOR_DEFAULT` (`view_interface.h`). -/
  CURSOR_DEFAULT : Int
  /-- The element still exists (an `ElementHolder` on it reads non-null). -/
  alive : W → ElementId → Bool
  /-- `BasicElement::IsReallyEnabled`. -/
  IsReallyEnabled : W → ElementId → Bool
  /-- `BasicElement::IsReallyVisible`. -/
  IsReallyVisible : W → ElementId → Bool
  /-- `BasicElement::ViewCoordToSelfCoord`. -/
  ViewCoordToSelfCoord : W → ElementId → Int → Int → Int × Int
  /-- `BasicElement::GetFlip`. -/
  GetFlip : W → ElementId → Nat
  /-- `BasicElement::IsPointIn`, in the element's own coordinates. -/
  IsPointIn : W → ElementId → Int → Int → Bool
  /-- `BasicElement::GetHitTest`. -/
  GetHitTest : W → ElementId → Int → Int → Nat
  /-- `BasicElement::GetCursor`. -/
  GetCursor : W → ElementId → Int
  /-- `BasicElement::GetTooltip`. -/
  GetTooltip : W → ElementId → String
  /-- `BasicElement::OnMouseEvent(event, direct, &fired, &in)`. -/
  ElementOnMouseEvent : ElementId → MouseEvent → Bool → W → MouseDispatch W
  /-- `Elements::OnMouseEvent(event, &fired, &in)` on the top-level children. -/
  ChildrenOnMouseEvent : MouseEvent → W → MouseDispatch W
  /-- `BasicElement::OnOtherEvent(SimpleEvent(type))`. -/
  ElementOnOtherEvent : ElementId → EventType → W → EventResult × W
  /-- `BasicElement::OnPopupOff`. -/
  ElementOnPopupOff : ElementId → W → W
  /-- `BasicElement::GetExtentsInView`. -/
  GetExtentsInView : W → ElementId → Rectangle
  /-- `BasicElement::IsFullyOpaque`. -/
  IsFullyOpaque : W → ElementId → Bool
  /-- The test `fmod(popup_rotation, 90) == 0` on the rotation summed over the
  popup element and its ancestors. -/
  PopupAxisAligned : W → ElementId → Bool
  /-- `Elements::Layout` on the top-level children: the new world and the
  damage rectangles the elements queued meanwhile. -/
  ChildrenLayout : W → W × List Rectangle
  /-- `Elements::Draw(target)` on the top-level children. -/
  ChildrenDraw : CanvasId → W → W
  /-- `BasicElement::Draw(target)` of the popup element. -/
  PopupDraw : ElementId → CanvasId → W → W
  /-- The handlers connected to `onsize_event_`. -/
  FireOnSize : W → W
  /-- The handlers of the posted element size events. -/
  FirePostedSizeEvents : W → W
  /-- `ClipRegion::AddRectangle` (insert, then merge). -/
  ClipAddRectangle : List Rectangle → Rectangle → List Rectangle
  /-- `ClipRegion::Integerize`. -/
  ClipIntegerize : List Rectangle → List Rectangle
  /-- `ClipRegion::IsInside`. -/
  ClipIsInside : List Rectangle → Rectangle → Bool
  /-- `GraphicsInterface::NewCanvas(width, height)`; null on failure. -/
  NewCanvas : Int → Int → Option CanvasId
  /-- `MouseEvent::BUTTON_NONE` (`event.h`). -/
  BUTTON_NONE : Nat
  /-- `MouseEvent::BUTTON_RIGHT` (`event.h`). -/
  BUTTON_RIGHT : Nat
  /-- `MouseEvent::MOD_NONE` (`event.h`). -/
  MOD_NONE : Nat
  /-- The return value a new `ScriptableEvent` carries before any handler has
  run (`scriptable_event.h`). -/
  INITIAL_RETURN_VALUE : EventResult
  /-- `BasicElement::GetName`. -/
  GetName : W → ElementId → String
  /-- `element->IsInstanceOf(ContentAreaElement::CLASS_ID)`. -/
  IsContentArea : W → ElementId → Bool
  /-- `HasActiveConnections` of the view's signal for a mouse event type. -/
  HasActiveConnections : EventType → W → Bool
  /-- The handlers connected to the view's signal for the event: the return
  value they leave in the event, which is `EVENT_RESULT_HANDLED` when they are
  called, and the world afterwards. -/
  FireViewEvent : MouseEvent → W → EventResult × W
  /-- `CanvasInterface::GetPointValue(x, y, NULL, &opacity)` on the canvas
  cache: none when it returns false, else the opacity, of which only the
  comparison with 0 is used. -/
  GetPointValue : W → CanvasId → Int → Int → Option Nat
  /-- `ViewHostInterface::ShowContextMenu(button)`. -/
  ShowContextMenu : Nat → Bool
  /-- `BasicElement::OnDragEvent(event, direct, &fired)`; the view discards the
  output parameter of its direct calls. -/
  ElementOnDragEvent : ElementId → DragEvent → Bool → W → EventResult × W
  /-- `Elements::OnDragEvent(event, &fired)` on the top-level children: the
  fired element and the world afterwards; the view discards the result. -/
  ChildrenOnDragEvent : DragEvent → W → Option ElementId × W

/-- The member variables of `View::Impl` that the dispatch and the paint
protocol read or write, the element world, and the call log. -/
structure View (W : Type) where
  world : W
  focused_element_ : Option ElementId
  mouseover_element_ : Option ElementId
  grabmouse_element_ : Option ElementId
  dragover_element_ : Option ElementId
  tooltip_element_ : Option ElementId
  popup_element_ : Option ElementId
  mouse_over_ : Bool
  hittest_ : Nat
  last_cursor_type_ : Int
  view_host_ : Bool
  clip_region_ : List Rectangle
  clip_region_enabled_ : Bool
  canvas_cache_ : Option CanvasId
  graphics_ : Bool
  enable_cache_ : Bool
  need_redraw_ : Bool
  draw_queued_ : Bool
  width_ : Int
  height_ : Int
  default_width_ : Int
  default_height_ : Int
  events_enabled_ : Bool
  all_elements_ : String → Option ElementId
  content_area_element_ : Option ElementId
  dragover_result_ : EventResult
  gadget_ : Bool
  in_user_interaction_ : Bool
  log : List Action

variable {W : Type}

/-- The test `event.GetButton() & MouseEvent::BUTTON_LEFT`. -/
def leftDown (env : Env W) (event : MouseEvent) : Bool :=
  event.button &&& env.BUTTON_LEFT != 0

/-- Modelled from the spec: `ElementHolder` (declared outside `view.cc`) is a
weak reference that clears itself when the referenced element is destroyed.
This is the holder seen from world `w`: null once its element is gone. -/
def holderSync (env : Env W) (w : W) (holder : Option ElementId) : Option ElementId :=
  match holder with
  | some e => if env.alive w e then some e else none
  | none => none

/-- Return from a call into a collaborator: record the call, install the world
it left behind and let every element tracker of the view observe it. -/
def View.afterCall (env : Env W) (s : View W) (a : Action) (w : W) : View W :=
  { s with
    world := w
    focused_element_ := holderSync env w s.focused_element_
    mouseover_element_ := holderSync env w s.mouseover_element_
    grabmouse_element_ := holderSync env w s.grabmouse_element_
    dragover_element_ := holderSync env w s.dragover_element_
    tooltip_element_ := holderSync env w s.tooltip_element_
    popup_element_ := holderSync env w s.popup_element_
    log := s.log ++ [a] }

/-- `View::Impl::MapChildMouseEvent` (view.cc 320-339): position mapped into
the child's space, wheel deltas negated along the flipped axes. -/
def MapChildMouseEvent (env : Env W) (w : W) (org_event : MouseEvent)
    (child : ElementId) (new_event : MouseEvent) : MouseEvent :=
  let p := env.ViewCoordToSelfCoord w child org_event.x org_event.y
  let e1 := { new_event with x := p.1, y := p.2 }
  let flip := env.GetFlip w child
  let e2 := if flip &&& env.FLIP_HORIZONTAL != 0
    then { e1 with wheel_delta_x := - org_event.wheel_delta_x } else e1
  if flip &&& env.FLIP_VERTICAL != 0
    then { e2 with wheel_delta_y := - org_event.wheel_delta_y } else e2

/-- `View::SetCursor` (view.cc 1716-1721). -/
def View.SetCursor (s : View W) (type : Int) : View W :=
  if s.view_host_ && s.last_cursor_type_ != type then
    { s with last_cursor_type_ := type, log := s.log ++ [Action.HostSetCursor type] }
  else s

/-- `View::SetTooltip` (view.cc 1711-1714). -/
def View.SetTooltip (s : View W) (tooltip : Option String) : View W :=
  if s.view_host_ then { s with log := s.log ++ [Action.HostSetTooltip tooltip] } else s

/-- `View::QueueDraw` (view.cc 1676-1681). -/
def View.QueueDraw (s : View W) : View W :=
  if !s.draw_queued_ && s.view_host_ then
    { s with draw_queued_ := true, log := s.log ++ [Action.HostQueueDraw] }
  else s

/-- `View::AddElementToClipRegion(element, NULL)` (view.cc 1577-1584). -/
def View.AddElementToClipRegion (env : Env W) (s : View W) (element : ElementId) : View W :=
  if s.clip_region_enabled_ && s.enable_cache_ then
    { s with clip_region_ :=
        env.ClipAddRectangle s.clip_region_ (env.GetExtentsInView s.world element) }
  else s

/-- Modelled from the spec: `BasicElement::QueueDraw`, which is not in
`view.cc`; the element registers its extents as damage with its view and asks
the view to queue a draw. -/
def ElementQueueDraw (env : Env W) (s : View W) (element : ElementId) : View W :=
  View.QueueDraw (View.AddElementToClipRegion env
    { s with log := s.log ++ [Action.ElementQueueDraw element] } element)

/-- `View::Impl::SetPopupElement` (view.cc 1149-1157). -/
def View.SetPopupElement (env : Env W) (s : View W) (element : Option ElementId) : View W :=
  let s1 := match s.popup_element_ with
    | some p => s.afterCall env (Action.ElementOnPopupOff p) (env.ElementOnPopupOff p s.world)
    | none => s
  let s2 := { s1 with popup_element_ := element }
  match element with
  | some e => ElementQueueDraw env s2 e
  | none => s2

/-- The body of the grab branch of `SendMouseEventToChildren`
(view.cc 360-373): the event is handed directly to the grabbing element `g`. -/
def routeToGrab (env : Env W) (s : View W) (g : ElementId) (event : MouseEvent) :
    EventResult × View W :=
  let new_event := MapChildMouseEvent env s.world event g event
  let d := env.ElementOnMouseEvent g new_event true s.world
  let s1 := s.afterCall env (Action.ElementOnMouseEvent g new_event true) d.world
  -- Set correct mouse cursor.
  let s2 := match s1.grabmouse_element_ with
    | some g1 => s1.SetCursor (env.GetCursor s1.world g1)
    | none => s1
  -- Release the grabbing on EVENT_MOUSE_CLICK not EVENT_MOUSE_UP,
  -- otherwise the click event may be sent to wrong element.
  let s3 := if event.type == EventType.EVENT_MOUSE_CLICK
    then { s2 with grabmouse_element_ := none } else s2
  (d.result, s3)

/-- The grab branch of `SendMouseEventToChildren` (view.cc 355-378).  `inl` is
the `return result` of line 373; `inr` is the fall-through to the normal path,
taken with the grab released when an element was grabbing. -/
def grabDispatch (env : Env W) (s : View W) (event : MouseEvent) :
    (EventResult × View W) ⊕ View W :=
  let type := event.type
  match s.grabmouse_element_ with
  | some g =>
    if env.IsReallyEnabled s.world g && leftDown env event &&
        (type == EventType.EVENT_MOUSE_MOVE || type == EventType.EVENT_MOUSE_UP ||
         type == EventType.EVENT_MOUSE_CLICK) then
      Sum.inl (routeToGrab env s g event)
    else
      -- Release the grabbing on any mouse event without left button down.
      Sum.inr { s with grabmouse_element_ := none }
  | none => Sum.inr s

/-- The `EVENT_MOUSE_OUT` branch of `SendMouseEventToChildren`
(view.cc 380-390). -/
def mouseOutDispatch (env : Env W) (s : View W) (event : MouseEvent) :
    EventResult × View W :=
  match s.mouseover_element_ with
  | some m =>
    let new_event := MapChildMouseEvent env s.world event m event
    let d := env.ElementOnMouseEvent m new_event true s.world
    let s1 := s.afterCall env (Action.ElementOnMouseEvent m new_event true) d.world
    (d.result, { s1 with mouseover_element_ := none })
  | none => (EventResult.EVENT_RESULT_UNHANDLED, s)

/-- The popup part of the dispatch of `SendMouseEventToChildren`
(view.cc 398-414): `outside_popup`, the result, `fired_element`, `in_element`
and the view. -/
def popupDispatch (env : Env W) (s : View W) (event : MouseEvent) :
    Bool × EventResult × Option ElementId × Option ElementId × View W :=
  match s.popup_element_ with
  | some p =>
    if env.IsReallyVisible s.world p then
      let new_event := MapChildMouseEvent env s.world event p event
      if env.IsPointIn s.world p new_event.x new_event.y then
        let d := env.ElementOnMouseEvent p new_event false s.world
        (false, d.result, d.fired_element, d.in_element,
          s.afterCall env (Action.ElementOnMouseEvent p new_event false) d.world)
      else (true, EventResult.EVENT_RESULT_UNHANDLED, none, none, s)
    else (true, EventResult.EVENT_RESULT_UNHANDLED, none, none, s.SetPopupElement env none)
  | none => (true, EventResult.EVENT_RESULT_UNHANDLED, none, none, s)

/-- The popup / children dispatch of `SendMouseEventToChildren`
(view.cc 392-422): the result, `fired_element`, `in_element` and the view. -/
def childrenDispatch (env : Env W) (s : View W) (event : MouseEvent) :
    EventResult × Option ElementId × Option ElementId × View W :=
  let r := popupDispatch env s event
  if r.1 then
    let s1 := r.2.2.2.2
    let d := env.ChildrenOnMouseEvent event s1.world
    let s2 := s1.afterCall env (Action.ChildrenOnMouseEvent event) d.world
    let s3 := if event.type == EventType.EVENT_MOUSE_DOWN &&
        d.result != EventResult.EVENT_RESULT_CANCELED
      then s2.SetPopupElement env none else s2
    (d.result, d.fired_element, d.in_element, s3)
  else (r.2.1, r.2.2.1, r.2.2.2.1, r.2.2.2.2)

/-- The constructor call `MouseEvent(type, event.GetX(), event.GetY(),
event.GetWheelDeltaX(), event.GetWheelDeltaY(), event.GetButton(),
event.GetModifier())` of view.cc 447-452 and 462-467. -/
def synthesized (type : EventType) (event : MouseEvent) : MouseEvent :=
  { type := type, x := event.x, y := event.y,
    wheel_delta_x := event.wheel_delta_x, wheel_delta_y := event.wheel_delta_y,
    button := event.button, modifier := event.modifier }

/-- The mouse-over bookkeeping of `SendMouseEventToChildren` (view.cc 440-472),
given `fired_element_holder.Get()`. -/
def mouseOverTransition (env : Env W) (s : View W) (event : MouseEvent)
    (fired : Option ElementId) : View W :=
  if fired != s.mouseover_element_ then
    let old_mouseover_element := s.mouseover_element_
    -- Store it early to prevent crash if fired_element is removed in the
    -- mouseout handler.
    let s1 := { s with mouseover_element_ := fired }
    let s2 := match old_mouseover_element with
      | some o =>
        let mouseout_event := MapChildMouseEvent env s1.world event o
          (synthesized EventType.EVENT_MOUSE_OUT event)
        let d := env.ElementOnMouseEvent o mouseout_event true s1.world
        s1.afterCall env (Action.ElementOnMouseEvent o mouseout_event true) d.world
      | none => s1
    match s2.mouseover_element_ with
    | some m =>
      -- Always fire the mouse over event even if the element's visibility
      -- and enabled state changed during the above mouse out.
      let mouseover_event := MapChildMouseEvent env s2.world event m
        (synthesized EventType.EVENT_MOUSE_OVER event)
      let d := env.ElementOnMouseEvent m mouseover_event true s2.world
      s2.afterCall env (Action.ElementOnMouseEvent m mouseover_event true) d.world
    | none => s2
  else s

/-- The hit-test, cursor and tooltip update of `SendMouseEventToChildren`
(view.cc 474-496), given `in_element_holder.Get()`. -/
def hitTestUpdate (env : Env W) (s : View W) (event : MouseEvent)
    (in_element : Option ElementId) : View W :=
  match in_element with
  | some i =>
    let p := env.ViewCoordToSelfCoord s.world i event.x event.y
    let s1 := { s with hittest_ := env.GetHitTest s.world i p.1 p.2 }
    let s2 := s1.SetCursor (env.GetCursor s1.world i)
    if event.type == EventType.EVENT_MOUSE_MOVE && some i != s2.tooltip_element_ then
      let s3 := { s2 with tooltip_element_ := some i }
      s3.SetTooltip (some (env.GetTooltip s3.world i))
    else s2
  | none =>
    let s1 := { s with hittest_ := env.HT_TRANSPARENT }
    let s2 := s1.SetCursor env.CURSOR_DEFAULT
    { s2 with tooltip_element_ := none }

/-- The tail of `SendMouseEventToChildren` (view.cc 424-496), entered when the
popup / children dispatch has returned `fired_element` and `in_element`. -/
def finishDispatch (env : Env W) (s2 : View W) (event : MouseEvent)
    (fired_element in_element : Option ElementId) : View W :=
  -- If the mouse pointer moves out of the view, just return the result.
  if !s2.mouse_over_ then s2
  else
    let fired_element_holder := holderSync env s2.world fired_element
    let in_element_holder := holderSync env s2.world in_element
    let s3 := if fired_element_holder.isSome &&
        event.type == EventType.EVENT_MOUSE_DOWN && leftDown env event
      -- Start grabbing.
      then { s2 with grabmouse_element_ := fired_element_holder } else s2
    let s4 := mouseOverTransition env s3 event fired_element_holder
    hitTestUpdate env s4 event (holderSync env s4.world in_element_holder)

/-- `View::Impl::SendMouseEventToChildren` (view.cc 341-510). -/
def SendMouseEventToChildren (env : Env W) (s : View W) (event : MouseEvent) :
    EventResult × View W :=
  let type := event.type
  if type == EventType.EVENT_MOUSE_OVER then
    -- View's EVENT_MOUSE_OVER only applicable to itself.
    (EventResult.EVENT_RESULT_UNHANDLED, s)
  else
    match grabDispatch env s event with
    | Sum.inl r => r
    | Sum.inr s1 =>
      if type == EventType.EVENT_MOUSE_OUT then mouseOutDispatch env s1 event
      else
        let r := childrenDispatch env s1 event
        (r.1, finishDispatch env r.2.2.2 event r.2.1 r.2.2.1)

/-- The revert step of `View::Impl::SetFocus` (view.cc 1135-1142): focus goes
back to `old_focused_element.Get()`, whose `EVENT_FOCUS_IN` is retried. -/
def focusRevert (env : Env W) (s : View W) (old_focused_element : Option ElementId) :
    View W :=
  let s1 := { s with focused_element_ := old_focused_element }
  match s1.focused_element_ with
  | some o =>
    let r := env.ElementOnOtherEvent o EventType.EVENT_FOCUS_IN s1.world
    let s2 := s1.afterCall env (Action.ElementOnOtherEvent o EventType.EVENT_FOCUS_IN) r.2
    if r.1 == EventResult.EVENT_RESULT_CANCELED then { s2 with focused_element_ := none }
    else s2
  | none => s1

/-- The first step of `View::Impl::SetFocus` (view.cc 1123-1127): the current
focus, if any, is sent `EVENT_FOCUS_OUT`.  Returns whether it was canceled, the
view, and `element_holder.Get()` afterwards. -/
def removeFocus (env : Env W) (s : View W) (element : Option ElementId) :
    Bool × View W × Option ElementId :=
  match s.focused_element_ with
  | some f =>
    let o := env.ElementOnOtherEvent f EventType.EVENT_FOCUS_OUT s.world
    (o.1 == EventResult.EVENT_RESULT_CANCELED,
      s.afterCall env (Action.ElementOnOtherEvent f EventType.EVENT_FOCUS_OUT) o.2,
      holderSync env o.2 element)
  | none => (false, s, element)

/-- `View::Impl::SetFocus` (view.cc 1120-1147). -/
def SetFocus (env : Env W) (s : View W) (element : Option ElementId) : View W :=
  if element != s.focused_element_ &&
      (match element with
       | some e => env.IsReallyEnabled s.world e
       | none => true) then
    -- Remove the current focus first.
    let r := removeFocus env s element
    let s1 := r.2.1
    if !r.1 then
      let old_focused_element := s1.focused_element_
      let s2 := { s1 with focused_element_ := r.2.2 }
      match s2.focused_element_ with
      | some n =>
        -- The enabled or visible state may changed, so check again.
        if !env.IsReallyEnabled s2.world n then focusRevert env s2 old_focused_element
        else
          let i := env.ElementOnOtherEvent n EventType.EVENT_FOCUS_IN s2.world
          let s3 := s2.afterCall env (Action.ElementOnOtherEvent n EventType.EVENT_FOCUS_IN) i.2
          if i.1 == EventResult.EVENT_RESULT_CANCELED then
            -- If the EVENT_FOCUS_IN is canceled, set focus back to the old
            -- focused element.
            focusRevert env s3 (holderSync env i.2 old_focused_element)
          else s3
      | none => s2
    else s1
  else s

/-- Modelled from the spec: one damage request of an element (made by code
outside `view.cc`): an `AddElementToClipRegion` (view.cc 1577-1584) followed by
a `View::QueueDraw` (view.cc 1676-1681), as in `ElementQueueDraw`. -/
def addDamage (env : Env W) (v : View W) (r : Rectangle) : View W :=
  View.QueueDraw (if v.clip_region_enabled_ && v.enable_cache_
    then { v with clip_region_ := env.ClipAddRectangle v.clip_region_ r } else v)

/-- Modelled from the spec: the damage that elements register during
`Elements::Layout`, in order. -/
def applyDamage (env : Env W) (s : View W) (rects : List Rectangle) : View W :=
  rects.foldl (addDamage env) s

/-- The call `children_.Layout()`. -/
def childrenLayout (env : Env W) (s : View W) : View W :=
  let l := env.ChildrenLayout s.world
  applyDamage env (s.afterCall env Action.ChildrenLayout l.1) l.2

/-- `View::Impl::SetSize` (view.cc 798-828). -/
def SetSize (env : Env W) (s : View W) (width height : Int) : View W :=
  if width != s.width_ || height != s.height_ then
    -- Invalidate the canvas cache.
    let s1 := match s.canvas_cache_ with
      | some c => { s with canvas_cache_ := none, log := s.log ++ [Action.CacheDestroy c] }
      | none => s
    -- Store default width and height if the size has not been set before.
    let s2 := if s1.width_ == 0 then { s1 with default_width_ := width } else s1
    let s3 := if s2.height_ == 0 then { s2 with default_height_ := height } else s2
    let s4 := { s3 with width_ := width, height_ := height }
    let s5 := childrenLayout env s4
    let s6 := if s5.events_enabled_
      then s5.afterCall env Action.FireOnSize (env.FireOnSize s5.world) else s5
    if s6.view_host_ then { s6 with log := s6.log ++ [Action.HostQueueResize] } else s6
  else s

/-- The redraw part of `View::Impl::Draw` (view.cc 873-946, release build),
entered when the cached canvas cannot simply be blitted. -/
def redraw (env : Env W) (s2 : View W) (canvas : CanvasId) : View W :=
  let s3 := match s2.popup_element_ with
    | some p => if !env.IsReallyVisible s2.world p then s2.SetPopupElement env none else s2
    | none => s2
  let s4 := if s3.enable_cache_ && s3.canvas_cache_.isNone && s3.graphics_ then
      { s3 with
        canvas_cache_ := env.NewCanvas s3.width_ s3.height_
        need_redraw_ := true
        log := s3.log ++ [Action.NewCanvas s3.width_ s3.height_] }
    else s3
  -- Let posted events be processed after Layout() and before actual Draw().
  let s5 := if s4.events_enabled_
    then s4.afterCall env Action.FirePostedSizeEvents (env.FirePostedSizeEvents s4.world)
    else s4
  let t : CanvasId × View W := match s5.canvas_cache_ with
    | some c =>
      let v := if s5.need_redraw_ || !s5.clip_region_enabled_
        then { s5 with clip_region_ := [] }
        else { s5 with clip_region_ := env.ClipIntegerize s5.clip_region_ }
      (c, { v with log := v.log ++ [Action.PushState c,
        Action.IntersectGeneralClipRegion c v.clip_region_,
        Action.ClearRect c 0 0 v.width_ v.height_] })
    | none => (canvas, { s5 with log := s5.log ++ [Action.PushState canvas] })
  let target := t.1
  let s6 := t.2
  let popup := s6.popup_element_
  -- No need to draw children if there is a popup element and it's fully
  -- opaque and the clip region is inside its extents.
  let covered := s6.canvas_cache_.isSome && s6.clip_region_enabled_ &&
    (match popup with
     | some p => env.IsFullyOpaque s6.world p && env.PopupAxisAligned s6.world p &&
         env.ClipIsInside s6.clip_region_ (env.GetExtentsInView s6.world p)
     | none => false)
  let s7 := if !covered
    then s6.afterCall env (Action.ChildrenDraw target) (env.ChildrenDraw target s6.world)
    else s6
  let s8 := match popup with
    | some p =>
      let v := { s7 with log := s7.log ++ [Action.PopupTransform target p] }
      v.afterCall env (Action.PopupDraw p target) (env.PopupDraw p target v.world)
    | none => s7
  let s9 := { s8 with log := s8.log ++ [Action.PopState target] }
  let s10 := if s9.canvas_cache_ == some target
    then { s9 with log := s9.log ++ [Action.DrawCanvas canvas 0 0 target] } else s9
  { s10 with clip_region_ := [], need_redraw_ := false }

/-- The test of view.cc 864-865: `clip_region_.IsEmpty() &&
clip_region_enabled_ && canvas_cache_ && !need_redraw_`. -/
def blitOnly (s2 : View W) : Bool :=
  s2.clip_region_.isEmpty && s2.clip_region_enabled_ && s2.canvas_cache_.isSome &&
    !s2.need_redraw_

/-- The layout pass of `View::Impl::Draw` (view.cc 855-859): any `QueueDraw()`
called during `Layout()` is ignored, because `draw_queued_` is true. -/
def layoutPass (env : Env W) (s : View W) : View W :=
  { childrenLayout env { s with draw_queued_ := true } with draw_queued_ := false }

/-- `View::Impl::Draw` (view.cc 847-958, release build). -/
def Draw (env : Env W) (s : View W) (canvas : CanvasId) : View W :=
  let s2 := layoutPass env s
  if blitOnly s2 then
    -- The canvas cache is valid, just paint it to the dest canvas.
    match s2.canvas_cache_ with
    | some cache => { s2 with log := s2.log ++ [Action.DrawCanvas canvas 0 0 cache] }
    | none => s2
  else redraw env s2 canvas

/-- The element world of the scene. -/
structure Scene where
  dead : List ElementId
  disabled : List ElementId
  deriving DecidableEq, Repr

/-- The element of the scene under view position `x`, if any. -/
def Scene.at (x : Int) : Option ElementId :=
  if 0 ≤ x ∧ x < 100 then some 1 else if 100 ≤ x ∧ x < 200 then some 2 else none

/-- A handler that returns `EVENT_RESULT_HANDLED` and changes nothing. -/
def Scene.quiet (e : ElementId) (w : Scene) : MouseDispatch Scene :=
  { result := EventResult.EVENT_RESULT_HANDLED, fired_element := some e,
    in_element := some e, world := w }

/-- The scene with handlers that change nothing: every element handles every
event it is given; the children dispatch fires the live, enabled element under
the cursor. -/
def sceneEnv : Env Scene where
  BUTTON_LEFT := 1
  FLIP_HORIZONTAL := 1
  FLIP_VERTICAL := 2
  HT_TRANSPARENT := 1
  CURSOR_DEFAULT := 0
  alive := fun w e => !w.dead.contains e
  IsReallyEnabled := fun w e => !w.dead.contains e && !w.disabled.contains e
  IsReallyVisible := fun w e => !w.dead.contains e
  ViewCoordToSelfCoord := fun _ e x y => (x - 100 * (Int.ofNat e - 1), y)
  GetFlip := fun _ _ => 0
  IsPointIn := fun _ _ x y => decide (0 ≤ x ∧ x < 100 ∧ 0 ≤ y ∧ y < 100)
  GetHitTest := fun _ _ _ _ => 3
  GetCursor := fun _ _ => 0
  GetTooltip := fun _ _ => ""
  ElementOnMouseEvent := fun e _ _ w => Scene.quiet e w
  ChildrenOnMouseEvent := fun ev w =>
    match Scene.at ev.x with
    | some e =>
      if w.dead.contains e then
        { result := EventResult.EVENT_RESULT_UNHANDLED, fired_element := none,
          in_element := none, world := w }
      else if w.disabled.contains e then
        { result := EventResult.EVENT_RESULT_UNHANDLED, fired_element := none,
          in_element := some e, world := w }
      else Scene.quiet e w
    | none =>
      { result := EventResult.EVENT_RESULT_UNHANDLED, fired_element := none,
        in_element := none, world := w }
  ElementOnOtherEvent := fun _ _ w => (EventResult.EVENT_RESULT_HANDLED, w)
  ElementOnPopupOff := fun _ w => w
  GetExtentsInView := fun _ e => { x := 100 * (Int.ofNat e - 1), y := 0, w := 100, h := 100 }
  IsFullyOpaque := fun _ _ => true
  PopupAxisAligned := fun _ _ => true
  ChildrenLayout := fun w => (w, [])
  ChildrenDraw := fun _ w => w
  PopupDraw := fun _ _ w => w
  FireOnSize := fun w => w
  FirePostedSizeEvents := fun w => w
  ClipAddRectangle := fun region r => r :: region
  ClipIntegerize := fun region => region
  ClipIsInside := fun _ _ => false
  NewCanvas := fun _ _ => some 7
  BUTTON_NONE := 0
  BUTTON_RIGHT := 4
  MOD_NONE := 0
  INITIAL_RETURN_VALUE := EventResult.EVENT_RESULT_UNHANDLED
  GetName := fun _ e => if e = 1 then "one" else if e = 2 then "two" else ""
  IsContentArea := fun _ _ => false
  HasActiveConnections := fun _ _ => false
  FireViewEvent := fun _ w => (EventResult.EVENT_RESULT_HANDLED, w)
  GetPointValue := fun _ _ x _ => if x < 0 then none else if x < 200 then some 255 else some 0
  ShowContextMenu := fun _ => false
  ElementOnDragEvent := fun _ _ _ w => (EventResult.EVENT_RESULT_HANDLED, w)
  ChildrenOnDragEvent := fun ev w =>
    match Scene.at ev.x with
    | some e => if w.dead.contains e then (none, w) else (some e, w)
    | none => (none, w)

/-- A freshly constructed 200 x 100 view over the scene (the initial values of
view.cc 171-203), attached to a host, with the mouse over it. -/
def sceneView : View Scene where
  world := { dead := [], disabled := [] }
  focused_element_ := none
  mouseover_element_ := none
  grabmouse_element_ := none
  dragover_element_ := none
  tooltip_element_ := none
  popup_element_ := none
  mouse_over_ := true
  hittest_ := 3
  last_cursor_type_ := -1
  view_host_ := true
  clip_region_ := []
  clip_region_enabled_ := true
  canvas_cache_ := none
  graphics_ := true
  enable_cache_ := true
  need_redraw_ := true
  draw_queued_ := false
  width_ := 200
  height_ := 100
  default_width_ := 320
  default_height_ := 240
  events_enabled_ := true
  all_elements_ := fun _ => none
  content_area_element_ := none
  dragover_result_ := EventResult.EVENT_RESULT_UNHANDLED
  gadget_ := true
  in_user_interaction_ := false
  log := []

/-- A mouse event of the given type at `(x, 50)` with the given button mask. -/
def mouseAt (type : EventType) (x : Int) (button : Nat) : MouseEvent :=
  { type := type, x := x, y := 50, wheel_delta_x := 0, wheel_delta_y := 0,
    button := button, modifier := 0 }

/-- The value of `fired_element_holder.Get()` at view.cc 433 when `event` is
dispatched from `s`: the element on which the event was fired, if the dispatch
reaches the popup / children path. -/
def firedElement (env : Env W) (s : View W) (event : MouseEvent) : Option ElementId :=
  match grabDispatch env s event with
  | Sum.inl _ => none
  | Sum.inr s1 =>
    let r := childrenDispatch env s1 event
    holderSync env r.2.2.2.world r.2.1

/-- A call on the host that only updates the cursor or the tooltip. -/
def Action.isHostHint : Action → Bool
  | Action.HostSetCursor _ => true
  | Action.HostSetTooltip _ => true
  | _ => false

/-- The scene in which the `EVENT_MOUSE_OUT` handler of element `1` removes
element `2` from the view. -/
def removingEnv : Env Scene :=
  { sceneEnv with
    ElementOnMouseEvent := fun e ev _ w =>
      if e == 1 && ev.type == EventType.EVENT_MOUSE_OUT then
        { result := EventResult.EVENT_RESULT_HANDLED, fired_element := some e,
          in_element := some e, world := { w with dead := 2 :: w.dead } }
      else Scene.quiet e w }

/-- The scene view after the mouse has moved over element `1`. -/
def overOneView (env : Env Scene) : View Scene :=
  (SendMouseEventToChildren env sceneView (mouseAt EventType.EVENT_MOUSE_MOVE 10 0)).2

/-- The scene view with the focus on element `1`. -/
def focusOneView : View Scene :=
  { sceneView with focused_element_ := some 1 }

/-- The scene view with the focus on element `1` and element `2` disabled. -/
def focusOneDisabledTwoView : View Scene :=
  { sceneView with focused_element_ := some 1, world := { dead := [], disabled := [2] } }

/-- The scene in which the `EVENT_FOCUS_OUT` handler of element `1` disables
element `2`. -/
def disablingEnv : Env Scene :=
  { sceneEnv with
    ElementOnOtherEvent := fun e t w =>
      if e == 1 && t == EventType.EVENT_FOCUS_OUT then
        (EventResult.EVENT_RESULT_HANDLED, { w with disabled := 2 :: w.disabled })
      else (EventResult.EVENT_RESULT_HANDLED, w) }

/-- The scene in which element `1` cancels `EVENT_FOCUS_OUT`. -/
def vetoEnv : Env Scene :=
  { sceneEnv with
    ElementOnOtherEvent := fun e t w =>
      if e == 1 && t == EventType.EVENT_FOCUS_OUT then
        (EventResult.EVENT_RESULT_CANCELED, w)
      else (EventResult.EVENT_RESULT_HANDLED, w) }

/-- The new element `B` is turned down in world `w1`: it is no longer really
enabled when checked, or it returns CANCELED to `EVENT_FOCUS_IN`
(view.cc 1132-1134). -/
def focusRejected (env : Env W) (w1 : W) (B : ElementId) : Bool :=
  !env.IsReallyEnabled w1 B ||
    (env.ElementOnOtherEvent B EventType.EVENT_FOCUS_IN w1).1
      == EventResult.EVENT_RESULT_CANCELED

/-- The element world at view.cc 1137, when the focus goes back: `w1` if `B`
was not really enabled, else the world left by the `EVENT_FOCUS_IN` handler of
`B`. -/
def revertWorld (env : Env W) (w1 : W) (B : ElementId) : W :=
  if env.IsReallyEnabled w1 B then (env.ElementOnOtherEvent B EventType.EVENT_FOCUS_IN w1).2
  else w1

/-- The events sent to `B` before the focus goes back from world `w1`. -/
def focusInAttempt (env : Env W) (w1 : W) (B : ElementId) : List Action :=
  if env.IsReallyEnabled w1 B then [Action.ElementOnOtherEvent B EventType.EVENT_FOCUS_IN]
  else []

/-- The scene in which element `1` removes itself from the view in its
`EVENT_FOCUS_OUT` handler and element `2` cancels `EVENT_FOCUS_IN`. -/
def selfRemovingEnv : Env Scene :=
  { sceneEnv with
    ElementOnOtherEvent := fun e t w =>
      if e == 1 && t == EventType.EVENT_FOCUS_OUT then
        (EventResult.EVENT_RESULT_HANDLED, { w with dead := 1 :: w.dead })
      else if e == 2 && t == EventType.EVENT_FOCUS_IN then
        (EventResult.EVENT_RESULT_CANCELED, w)
      else (EventResult.EVENT_RESULT_HANDLED, w) }

/-- The scene in which element `2` cancels `EVENT_FOCUS_IN`. -/
def refusingEnv : Env Scene :=
  { sceneEnv with
    ElementOnOtherEvent := fun e t w =>
      if e == 2 && t == EventType.EVENT_FOCUS_IN then
        (EventResult.EVENT_RESULT_CANCELED, w)
      else (EventResult.EVENT_RESULT_HANDLED, w) }

/-- The scene in which element `1` removes itself from the view when the mouse
button is released on it. -/
def closingEnv : Env Scene :=
  { sceneEnv with
    ElementOnMouseEvent := fun e ev _ w =>
      if e == 1 && ev.type == EventType.EVENT_MOUSE_UP then
        { result := EventResult.EVENT_RESULT_HANDLED, fired_element := some e,
          in_element := some e, world := { w with dead := 1 :: w.dead } }
      else Scene.quiet e w }

/-- The scene view with the mouse over element `1`, which grabs the mouse. -/
def grabOneView : View Scene :=
  { sceneView with grabmouse_element_ := some 1, mouseover_element_ := some 1 }

/-- The scene view after a first paint: a canvas cache exists, nothing is
damaged and no redraw is forced. -/
def paintedView : View Scene :=
  { sceneView with canvas_cache_ := some 7, need_redraw_ := false }

/-- The painted scene view with clip regions switched off
(`View::EnableClipRegion(false)`, view.cc 1586-1588). -/
def unclippedView : View Scene :=
  { paintedView with clip_region_enabled_ := false }

/-- The value of `old_focused_element.Get()` at view.cc 1137 when `A` had the
focus, `w1` is the world left by its `EVENT_FOCUS_OUT` handler and the new
element `B` is turned down: `A`, or null if `A` was destroyed meanwhile. -/
def oldFocusAtRevert (env : Env W) (w1 : W) (A B : ElementId) : Option ElementId :=
  holderSync env (revertWorld env w1 B) (holderSync env w1 (some A))

/-! Timers (view.cc, TimerWatchCallback). -/

/-- Identity of a `Slot` object. -/
abbrev SlotId := Nat

/-- Value of a C `int` expression: 32 bits, two's complement, wrapping. -/
def wrapInt32 (x : Int) : Int := (x + 2147483648) % 4294967296 - 2147483648

/-- Subtraction of two `uint64_t` values. -/
def subUInt64 (a b : Nat) : Nat :=
  (a % 18446744073709551616 + 18446744073709551616 - b % 18446744073709551616)
    % 18446744073709551616

/-- Constant `kAnimationInterval` (view.cc 1344). -/
def kAnimationInterval : Nat := 33

/-- Constant `kMinInterval` (view.cc 1345). -/
def kMinInterval : Nat := 5

/-- Numerator of the clamped `progress` of `Call` over the denominator
`duration_` (positive there): `min(1.0, max(0.0, elapsed / duration_))` is the
fraction `progressNum elapsed duration_ / duration_`. The `double` arithmetic
of the source is taken exactly. -/
def progressNum (elapsed : Nat) (duration : Int) : Int :=
  min duration (max 0 (elapsed : Int))

/-- C `round` of the quotient `n / d` for `d > 0`, converted to `int`: the
nearest integer, halfway cases away from zero. -/
def roundDiv (n d : Int) : Int :=
  if 0 ≤ n then (2 * n + d) / (2 * d) else -((2 * (-n) + d) / (2 * d))

/-- Member variables of `TimerWatchCallback` that `Call` reads or writes. -/
structure TimerWatchCallback where
  slot_ : SlotId
  start_ : Int
  end_ : Int
  duration_ : Int
  start_time_ : Nat
  last_finished_time_ : Nat
  last_value_ : Int
  is_event_ : Bool
  deriving DecidableEq, Repr

/-- Constructor of `TimerWatchCallback` (view.cc 80-89). -/
def TimerWatchCallback.new (slot : SlotId) (start end_ duration : Int) (start_time : Nat)
    ( is_event : Bool) : TimerWatchCallback :=
  { slot_ := slot, start_ := start, end_ := end_, duration_ := duration,
    start_time_ := start_time, last_finished_time_ := 0, last_value_ := start,
    is_event_ := is_event }

/-- Outcome of one `Call`: the returned flag, whether the slot was invoked, the
local `value` (the event value handed to the slot) and the callback object
afterwards. -/
structure CallResult where
  ret : Bool
  invoked : Bool
  value : Int
  watch : TimerWatchCallback
  deriving DecidableEq, Repr

/-- The animation branch of `Call` (view.cc 105-112): the local `value`. -/
def TimerWatchCallback.animationValue (w : TimerWatchCallback) (current_time : Nat) : Int :=
  wrapInt32 (w.start_ +
    roundDiv (progressNum (subUInt64 current_time w.start_time_) w.duration_
                * wrapInt32 (w.end_ - w.start_)) w.duration_)

/-- The animation branch of `Call`: `progress < 1.0`. -/
def TimerWatchCallback.progressBelowOne (w : TimerWatchCallback) (current_time : Nat) : Bool :=
  decide (progressNum (subUInt64 current_time w.start_time_) w.duration_ < w.duration_)

/-- Method `TimerWatchCallback::Call` (view.cc 95-137). `current_time` is the
clock reading of line 102 and `finished_time` the one of line 135. -/
def TimerWatchCallback.Call (w : TimerWatchCallback) (current_time finished_time : Nat) :
    CallResult :=
  let fire0 := true
  let ret0 := true
  let value0 : Int := 0
  let (fire, ret, value, w1) :=
    if 0 < w.duration_ then
      let value := w.animationValue current_time
      (decide (value ≠ w.last_value_), w.progressBelowOne current_time, value,
        { w with last_value_ := value })
    else if w.duration_ = 0 then
      (fire0, false, value0, w)
    else
      (fire0, ret0, value0, w)
  let invoked :=
    fire && (decide (w.duration_ = 0) ||
      decide (kMinInterval < subUInt64 current_time w.last_finished_time_))
  { ret := ret, invoked := invoked, value := value,
    watch := { w1 with last_finished_time_ := finished_time } }

/-- Method `View::Impl::BeginAnimation` (view.cc 1159-1173): the callback object
created, none for a null slot. The `unsigned int` duration is converted to the
`int` constructor parameter. -/
def BeginAnimation (slot : Option SlotId) (start_value end_value : Int) (duration : Nat)
    (current_time : Nat) : Option TimerWatchCallback :=
  match slot with
  | none => none
  | some sl =>
    some (TimerWatchCallback.new sl start_value end_value (wrapInt32 duration) current_time true)

/-- Method `View::Impl::SetTimeout` (view.cc 1175-1186). -/
def SetTimeout (slot : Option SlotId) (_duration : Nat) : Option TimerWatchCallback :=
  match slot with
  | none => none
  | some sl => some (TimerWatchCallback.new sl 0 0 0 0 true)

/-- Method `View::Impl::SetInterval` (view.cc 1188-1199). -/
def SetInterval (slot : Option SlotId) (_duration : Nat) : Option TimerWatchCallback :=
  match slot with
  | none => none
  | some sl => some (TimerWatchCallback.new sl 0 0 (-1) 0 true)

/-- A run of successive `Call`s on one callback object, each with its two clock
readings: the object after the run. -/
def runCalls (w : TimerWatchCallback) : List (Nat × Nat) → TimerWatchCallback
  | [] => w
  | (t, f) :: rest => runCalls (w.Call t f).watch rest

/-- An animation from -2000000000 to 2000000000 over one second, begun at
clock reading 1000. -/
def wideAnimation : TimerWatchCallback :=
  TimerWatchCallback.new 1 (-2000000000) 2000000000 1000 1000 true

/-- An animation from 0 to 10 over 100 ms, begun at clock reading 1000. -/
def shortAnimation : TimerWatchCallback :=
  TimerWatchCallback.new 1 0 10 100 1000 true

/-! The image cache (image_cache.cc). -/

/-- Identity of a decoded image, an `ImageInterface` made by the graphics
backend. -/
abbrev ImageId := Nat

/-- Address of a `SharedImage` object. -/
abbrev SharedImageId := Nat

/-- The four maps of the cache: the two members of an `Impl` and the two static
maps shared by the process. -/
inductive ImageMapId where
  | images_
  | mask_images_
  | global_images_
  | global_mask_images_
  deriving DecidableEq, Repr

/-- Type `ImageMap`: a `std::map` from tags to `SharedImage` pointers. -/
abbrev ImageMap := String → Option SharedImageId

/-- Member variables of `SharedImage`. The count `ref_` is a 32-bit `int`
(image_cache.cc 110): it is carried as an integer that `Ref` and `Unref` wrap
with `wrapInt32`. -/
structure SharedImage where
  tag_ : String
  owner_ : Option ImageMapId
  image_ : Option ImageId
  ref_ : Int
  deriving DecidableEq, Repr

/-- Calls that leave the cache. -/
inductive CacheAction where
  | ReadFile (global : Bool) (filename : String)
  | NewImage (filename : String) ( is_mask : Bool)
  | ImageDestroy (image : ImageId)
  deriving DecidableEq, Repr

/-- The collaborators of the cache: the gadget's file manager, the global file
manager (absent when `GetGlobalFileManager` returns null), the decoder of the
graphics backend (null result when the data cannot be decoded) and the sizes of
decoded images. -/
structure CacheEnv where
  ReadFile : String → Option String
  global_fm : Bool
  GlobalReadFile : String → Option String
  NewImage : String → String → Bool → Option ImageId
  ImageWidth : ImageId → Int
  ImageHeight : ImageId → Int

/-- State of one `ImageCache::Impl` with the static maps, the live `SharedImage`
objects, the next free address and the calls made so far. -/
structure ImageCache where
  images_ : ImageMap
  mask_images_ : ImageMap
  global_images_ : ImageMap
  global_mask_images_ : ImageMap
  heap : SharedImageId → Option SharedImage
  next : SharedImageId
  log : List CacheAction

/-- The map behind an `ImageMap` pointer. -/
def ImageCache.map (c : ImageCache) : ImageMapId → ImageMap
  | .images_ => c.images_
  | .mask_images_ => c.mask_images_
  | .global_images_ => c.global_images_
  | .global_mask_images_ => c.global_mask_images_

/-- Assignment through an `ImageMap` pointer. -/
def ImageCache.setMap (c : ImageCache) (m : ImageMapId) (f : ImageMap) : ImageCache :=
  match m with
  | .images_ => { c with images_ := f }
  | .mask_images_ => { c with mask_images_ := f }
  | .global_images_ => { c with global_images_ := f }
  | .global_mask_images_ => { c with global_mask_images_ := f }

/-- Expression `is_mask ? &mask_images_ : &images_`. -/
def localMap ( is_mask : Bool) : ImageMapId :=
  if is_mask then .mask_images_ else .images_

/-- Expression `is_mask ? &global_mask_images_ : &global_images_`. -/
def globalMap ( is_mask : Bool) : ImageMapId :=
  if is_mask then .global_mask_images_ else .global_images_

/-- Method `SharedImage::Ref` (image_cache.cc 44-47): `++ref_` on an `int`. -/
def ImageCache.Ref (c : ImageCache) (id : SharedImageId) : ImageCache :=
  match c.heap id with
  | none => c
  | some o =>
    { c with heap := Function.update c.heap id (some { o with ref_ := wrapInt32 (o.ref_ + 1) }) }

/-- Method `SharedImage::Unref` (image_cache.cc 49-56): `--ref_` on an `int`,
with the destructor run by `delete this` when the count reaches 0. -/
def ImageCache.Unref (c : ImageCache) (id : SharedImageId) : ImageCache :=
  match c.heap id with
  | none => c
  | some o =>
    if wrapInt32 (o.ref_ - 1) = 0 then
      let c1 :=
        match o.owner_ with
        | some m => c.setMap m (Function.update (c.map m) o.tag_ none)
        | none => c
      let c2 :=
        match o.image_ with
        | some img => { c1 with log := c1.log ++ [CacheAction.ImageDestroy img] }
        | none => c1
      { c2 with heap := Function.update c2.heap id none }
    else
      { c with heap := Function.update c.heap id (some { o with ref_ := wrapInt32 (o.ref_ - 1) }) }

/-- Method `SharedImage::Destroy`. -/
def ImageCache.Destroy (c : ImageCache) (id : SharedImageId) : ImageCache :=
  c.Unref id

/-- Method `SharedImage::GetTag`. -/
def ImageCache.GetTag (c : ImageCache) (id : SharedImageId) : Option String :=
  (c.heap id).map (fun o => o.tag_)

/-- Method `SharedImage::GetWidth`. -/
def ImageCache.GetWidth (env : CacheEnv) (c : ImageCache) (id : SharedImageId) : Option Int :=
  (c.heap id).map (fun o => match o.image_ with | some img => env.ImageWidth img | none => 0)

/-- Method `SharedImage::GetHeight`. -/
def ImageCache.GetHeight (env : CacheEnv) (c : ImageCache) (id : SharedImageId) : Option Int :=
  (c.heap id).map (fun o => match o.image_ with | some img => env.ImageHeight img | none => 0)

/-- The reads of `LoadImage` (image_cache.cc 172-193), reached when neither
map holds the tag: the decoded image (null when nothing could be read or
decoded), the map chosen for the new entry and the calls made. -/
def readAndDecode (env : CacheEnv) (fm : Bool) (tag : String) ( is_mask : Bool) :
    Option ImageId × ImageMapId × List CacheAction :=
  match (if fm then env.ReadFile tag else none) with
  | some data =>
    (env.NewImage tag data is_mask, localMap is_mask,
      [CacheAction.ReadFile false tag, CacheAction.NewImage tag is_mask])
  | none =>
    match (if env.global_fm then env.GlobalReadFile tag else none) with
    | some data =>
      (env.NewImage tag data is_mask, globalMap is_mask,
        (if fm then [CacheAction.ReadFile false tag] else [])
          ++ [CacheAction.ReadFile true tag, CacheAction.NewImage tag is_mask])
    | none =>
      (none, localMap is_mask,
        (if fm then [CacheAction.ReadFile false tag] else [])
          ++ (if env.global_fm then [CacheAction.ReadFile true tag] else []))

/-- The end of `LoadImage` (image_cache.cc 195-197): a new `SharedImage` with
count 1 is stored under the tag in the chosen map. -/
def ImageCache.store (c : ImageCache) (tag : String) (image_map : ImageMapId)
    (img : Option ImageId) : SharedImageId × ImageCache :=
  let shared_img := c.next
  let c1 : ImageCache :=
    { c with
      heap := Function.update c.heap shared_img
        (some { tag_ := tag, owner_ := some image_map, image_ := img, ref_ := 1 }),
      next := c.next + 1 }
  (shared_img, c1.setMap image_map (Function.update (c1.map image_map) tag (some shared_img)))

/-- The tail of `LoadImage` (image_cache.cc 172-198): read, decode and store. -/
def ImageCache.loadNew (env : CacheEnv) (c : ImageCache) (fm : Bool) (tag : String)
    ( is_mask : Bool) : Option SharedImageId × ImageCache :=
  let r := readAndDecode env fm tag is_mask
  let s := ({ c with log := c.log ++ r.2.2 } : ImageCache).store tag r.2.1 r.1
  (some s.1, s.2)

/-- Method `ImageCache::Impl::LoadImage` (image_cache.cc 144-198). `gfx` and
`fm` say whether the pointers are non-null; a null `filename` is none. -/
def ImageCache.LoadImage (env : CacheEnv) (c : ImageCache) (gfx : Bool) (fm : Bool)
    (filename : Option String) ( is_mask : Bool) : Option SharedImageId × ImageCache :=
  match filename with
  | none => (none, c)
  | some tag =>
    if !gfx || tag = "" then (none, c)
    else
      match c.map (localMap is_mask) tag with
      | some it => (some it, c.Ref it)
      | none =>
        match c.map (globalMap is_mask) tag with
        | some it => (some it, c.Ref it)
        | none => c.loadNew env fm tag is_mask

/-- A cache with nothing loaded. -/
def ImageCache.empty : ImageCache :=
  { images_ := fun _ => none, mask_images_ := fun _ => none,
    global_images_ := fun _ => none, global_mask_images_ := fun _ => none,
    heap := fun _ => none, next := 1, log := [] }

/-- The state after `k` calls of `LoadImage` with the same arguments. -/
def loadTimes (env : CacheEnv) (gfx fm : Bool) (filename : Option String) ( is_mask : Bool) :
    Nat → ImageCache → ImageCache
  | 0, c => c
  | k + 1, c => loadTimes env gfx fm filename is_mask k (c.LoadImage env gfx fm filename is_mask).2

/-- The state after `j` calls of `Destroy` on the same handle. -/
def destroyTimes (id : SharedImageId) : Nat → ImageCache → ImageCache
  | 0, c => c
  | j + 1, c => destroyTimes id j (c.Destroy id)

/-- Every entry of a map points to a live `SharedImage` that carries the key
as its tag, names that map as its owner and has a count of at least 1 (and, as
an `int`, of at most 2^31 - 1); live objects lie below the next free address. -/
def ImageCache.wellFormed (c : ImageCache) : Prop :=
  (∀ m tag id, c.map m tag = some id →
    ∃ o, c.heap id = some o ∧ o.tag_ = tag ∧ o.owner_ = some m ∧
      1 ≤ o.ref_ ∧ o.ref_ ≤ 2147483647) ∧
  (∀ id o, c.heap id = some o → id < c.next)

/-- A test environment: the gadget holds "a.png", the global file manager
holds "g.png", and every file decodes to image 7. -/
def cacheEnv : CacheEnv :=
  { ReadFile := fun f => if f = "a.png" then some "A" else none,
    global_fm := true,
    GlobalReadFile := fun f => if f = "g.png" then some "G" else none,
    NewImage := fun _ _ _ => some 7,
    ImageWidth := fun _ => 16,
    ImageHeight := fun _ => 16 }

/-- The entry for `tag` of the given kind: handle `h` is stored in map `m`
under `tag`, the object is live with image `img` and count `n`, and when `m` is
the global map the local map of the kind has no entry for the tag. -/
def ImageCache.entryAt (c : ImageCache) (tag : String) ( is_mask : Bool) (m : ImageMapId)
    (h : SharedImageId) (img : Option ImageId) (n : Int) : Prop :=
  (m = localMap is_mask ∨ m = globalMap is_mask) ∧
  c.map m tag = some h ∧
  c.heap h = some { tag_ := tag, owner_ := some m, image_ := img, ref_ := n } ∧
  (m = globalMap is_mask → c.map (localMap is_mask) tag = none)

/-- The cache after "a.png" has been loaded once as an image. -/
def loadedOnce : ImageCache :=
  (ImageCache.empty.LoadImage cacheEnv true true (some "a.png") false).2

/-- The call made by the destructor of a `SharedImage` (image_cache.cc 38-41):
the decoded image, when there is one, is destroyed. -/
def imageDestroyCalls (img : Option ImageId) : List CacheAction :=
  match img with
  | some i => [CacheAction.ImageDestroy i]
  | none => []

/-! Elements by name (view.cc 1082-1118). -/

/-- Method `View::Impl::GetElementByName` (view.cc 1082-1085). -/
def View.GetElementByName (s : View W) (name : String) : Option ElementId :=
  s.all_elements_ name

/-- Method `View::Impl::OnElementAdd` (view.cc 1087-1103): the returned flag and
the view afterwards. -/
def View.OnElementAdd (env : Env W) (s : View W) (element : ElementId) : Bool × View W :=
  if env.IsContentArea s.world element &&
      (holderSync env s.world s.content_area_element_).isSome then
    (false, s)
  else
    let s1 := if env.IsContentArea s.world element
      then { s with content_area_element_ := some element } else s
    let name := env.GetName s1.world element
    -- Don't overwrite the existing element with the same name.
    if name ≠ "" ∧ s1.all_elements_ name = none then
      (true, { s1 with all_elements_ := Function.update s1.all_elements_ name (some element) })
    else (true, s1)

/-- Method `View::Impl::OnElementRemove` (view.cc 1105-1118). -/
def View.OnElementRemove (env : Env W) (s : View W) (element : ElementId) : View W :=
  let s1 := View.AddElementToClipRegion env s element
  let s2 := if s1.tooltip_element_ = some element then s1.SetTooltip none else s1
  let name := env.GetName s2.world element
  if name ≠ "" ∧ s2.all_elements_ name = some element then
    { s2 with all_elements_ := Function.update s2.all_elements_ name none }
  else s2

/-- One step of the life of the element tree as the view sees it: an element is
added, an element is removed, or something else happens that leaves the names
map alone and changes the element world. -/
inductive HookCall (W : Type) where
  | add (element : ElementId)
  | remove (element : ElementId)
  | other (world : W)

/-- A sequence of `OnElementAdd` / `OnElementRemove` calls and other activity. -/
def runHooks (env : Env W) (s : View W) : List (HookCall W) → View W
  | [] => s
  | HookCall.add e :: rest => runHooks env (View.OnElementAdd env s e).2 rest
  | HookCall.remove e :: rest => runHooks env (View.OnElementRemove env s e) rest
  | HookCall.other w :: rest => runHooks env { s with world := w } rest

/-- The step is not `OnElementAdd` of `element`. -/
def HookCall.notAdd (element : ElementId) : HookCall W → Prop
  | HookCall.add e => e ≠ element
  | _ => True

/-- Every entry of the names map is stored under the non-empty name of its
element. -/
def View.namesConsistent (env : Env W) (s : View W) : Prop :=
  ∀ n e, s.all_elements_ n = some e → n ≠ "" ∧ env.GetName s.world e = n

/-- The constructor call `MouseEvent(type, event.GetX(), event.GetY(), 0, 0,
MouseEvent::BUTTON_NONE, MouseEvent::MOD_NONE)` of view.cc 525-527, 548-550
and 609-611. -/
def fakeEvent (env : Env W) (type : EventType) (event : MouseEvent) : MouseEvent :=
  { type := type, x := event.x, y := event.y, wheel_delta_x := 0, wheel_delta_y := 0,
    button := env.BUTTON_NONE, modifier := env.MOD_NONE }

/-- Modelled from the spec: `Gadget::SetInUserInteraction`, which is not in
`view.cc`; it stores the flag in the gadget and returns the flag it replaces. -/
def View.SetInUserInteraction (s : View W) (flag : Bool) : Bool × View W :=
  (s.in_user_interaction_,
    { s with in_user_interaction_ := flag,
             log := s.log ++ [Action.GadgetSetInUserInteraction flag] })

/-- Method `View::Impl::FireEvent` (view.cc 1028-1042) on the view's signal for
the type of `event`, followed by `scriptable_event.GetReturnValue()`. -/
def View.FireEvent (env : Env W) (s : View W) (event : MouseEvent) : EventResult × View W :=
  if s.events_enabled_ && env.HasActiveConnections event.type s.world then
    let r := env.FireViewEvent event s.world
    (r.1, s.afterCall env (Action.FireViewEvent event) r.2)
  else (env.INITIAL_RETURN_VALUE, s)

/-- The test of view.cc 518-520: the event is not `EVENT_MOUSE_OUT`, no element
grabs the mouse, caching is enabled, a canvas cache exists and it reports
opacity 0 at the event position. -/
def transparentAt (env : Env W) (s : View W) (event : MouseEvent) : Bool :=
  event.type != EventType.EVENT_MOUSE_OUT && s.grabmouse_element_.isNone && s.enable_cache_ &&
    (match s.canvas_cache_ with
     | some c => env.GetPointValue s.world c event.x event.y == some 0
     | none => false)

/-- The `switch` of view.cc 573-606 with `GetReturnValue()`: the view's own
handlers for the event. -/
def fireViewLevel (env : Env W) (s : View W) (event : MouseEvent) : EventResult × View W :=
  match event.type with
  | EventType.EVENT_MOUSE_MOVE => s.FireEvent env event
  | EventType.EVENT_MOUSE_DOWN => s.FireEvent env event
  | EventType.EVENT_MOUSE_UP => s.FireEvent env event
  | EventType.EVENT_MOUSE_CLICK => s.FireEvent env event
  | EventType.EVENT_MOUSE_DBLCLICK => s.FireEvent env event
  | EventType.EVENT_MOUSE_RCLICK => s.FireEvent env event
  | EventType.EVENT_MOUSE_RDBLCLICK => s.FireEvent env event
  | EventType.EVENT_MOUSE_OUT => View.FireEvent env { s with mouse_over_ := false } event
  | EventType.EVENT_MOUSE_OVER => View.FireEvent env { s with mouse_over_ := true } event
  | _ => (env.INITIAL_RETURN_VALUE, s)

/-- The hand-over to the elements of view.cc 604-617. -/
def toChildren (env : Env W) (f : EventResult × View W) (event : MouseEvent) :
    EventResult × View W :=
  if f.1 != EventResult.EVENT_RESULT_CANCELED then
    if event.type == EventType.EVENT_MOUSE_OVER then
      -- Translate the mouse over event to a mouse move event, to make sure
      -- that the correct mouseover element will be set.
      SendMouseEventToChildren env f.2 (fakeEvent env EventType.EVENT_MOUSE_MOVE event)
    else SendMouseEventToChildren env f.2 event
  else f

/-- The context menu of view.cc 619-625. -/
def contextMenu (env : Env W) (r : EventResult × View W) (event : MouseEvent) :
    EventResult × View W :=
  if r.2.mouse_over_ && r.1 == EventResult.EVENT_RESULT_UNHANDLED &&
      event.type == EventType.EVENT_MOUSE_RCLICK && event.button == env.BUTTON_RIGHT then
    -- Handle ShowContextMenu event.
    ((if env.ShowContextMenu env.BUTTON_RIGHT then EventResult.EVENT_RESULT_HANDLED else r.1),
      { r.2 with log := r.2.log ++ [Action.HostShowContextMenu env.BUTTON_RIGHT] })
  else r

/-- The end of view.cc 627-629: the user-interaction flag of the gadget is put
back. -/
def restoreInteraction (r : EventResult × View W) (old_interactive : Bool) :
    EventResult × View W :=
  if r.2.gadget_ then (r.1, (r.2.SetInUserInteraction old_interactive).2) else r

/-- The part of `OnMouseEvent` after the early returns and the fake mouse-over
(view.cc 556-632): the view's handlers, then the elements. -/
def viewDispatch (env : Env W) (s : View W) (event : MouseEvent) : EventResult × View W :=
  let type := event.type
  let i := if s.gadget_ && type != EventType.EVENT_MOUSE_MOVE &&
      type != EventType.EVENT_MOUSE_OVER && type != EventType.EVENT_MOUSE_OUT
    then s.SetInUserInteraction true else (false, s)
  restoreInteraction
    (contextMenu env (toChildren env (fireViewLevel env i.2 event) event) event) i.1

/-- Method `View::Impl::OnMouseEvent` (view.cc 512-633) with a bound on the
depth of its calls to itself; none when the bound is reached. -/
def View.OnMouseEventFuel (env : Env W) :
    Nat → View W → MouseEvent → Option (EventResult × View W)
  | 0, _, _ => none
  | fuel + 1, s, event =>
    -- Don't handle the mouse event if the pixel under the mouse pointer is
    -- fully transparent and there is no element grabbing the mouse.
    if transparentAt env s event then
      -- Send out fake mouse out event if the pixel is fully transparent and
      -- the mouse is over the view.
      let s1 := if s.mouse_over_
        then (View.OnMouseEventFuel env fuel s
                (fakeEvent env EventType.EVENT_MOUSE_OUT event)).map Prod.snd
        else some s
      s1.map (fun t => (EventResult.EVENT_RESULT_UNHANDLED,
                        { t with hittest_ := env.HT_TRANSPARENT }))
    else if event.type == EventType.EVENT_MOUSE_OUT && !s.mouse_over_ then
      some (EventResult.EVENT_RESULT_UNHANDLED, s)
    else if event.type == EventType.EVENT_MOUSE_OVER && s.mouse_over_ then
      some (EventResult.EVENT_RESULT_UNHANDLED, s)
    else
      -- Send fake mouse over event if the pixel is not fully transparent and
      -- the mouse over state is not set yet.
      let s1 := if event.type != EventType.EVENT_MOUSE_OVER &&
          event.type != EventType.EVENT_MOUSE_OUT && !s.mouse_over_
        then (View.OnMouseEventFuel env fuel s
                (fakeEvent env EventType.EVENT_MOUSE_OVER event)).map Prod.snd
        else some s
      s1.map (fun t => viewDispatch env t event)

/-- Method `View::Impl::OnMouseEvent`: three levels are enough, because a fake
mouse-out starts no further call and a fake mouse-over starts at most a fake
mouse-out. -/
def View.OnMouseEvent (env : Env W) (s : View W) (event : MouseEvent) :
    Option (EventResult × View W) :=
  View.OnMouseEventFuel env 3 s event

/-- The log of `x` is `l` followed by calls that all satisfy `p`. -/
def logExtends (p : Action → Bool) (l : List Action) (x : View W) : Prop :=
  ∃ c, x.log = l ++ c ∧ ∀ a ∈ c, p a = true

/-- Method `View::Impl::MapChildPositionEvent` (view.cc 320-328), for a drag
event. -/
def MapChildPositionEvent (env : Env W) (w : W) (org_event : DragEvent) (child : ElementId)
    (new_event : DragEvent) : DragEvent :=
  let p := env.ViewCoordToSelfCoord w child org_event.x org_event.y
  { new_event with x := p.1, y := p.2 }

/-- The constructor call `DragEvent(type, event.GetX(), event.GetY(),
event.GetDragFiles())`. -/
def dragEventOf (type : EventType) (event : DragEvent) : DragEvent :=
  { type := type, x := event.x, y := event.y, drag_files := event.drag_files }

/-- The inner block of the leave branch (view.cc 684-698): the local `type`
afterwards, the result and the view. -/
def dragSend (env : Env W) (s : View W) (event : DragEvent) : EventType × EventResult × View W :=
  match s.dragover_element_ with
  | some d =>
    -- If the element rejects the drop, send a EVENT_DRAG_OUT on EVENT_DRAG_DROP.
    let type := if s.dragover_result_ != EventResult.EVENT_RESULT_HANDLED
      then EventType.EVENT_DRAG_OUT else event.type
    let new_event := MapChildPositionEvent env s.world event d (dragEventOf type event)
    let r := env.ElementOnDragEvent d new_event true s.world
    let s1 := s.afterCall env (Action.ElementOnDragEvent d new_event true) r.2
    (type, r.1,
      { s1 with dragover_element_ := none,
                dragover_result_ := EventResult.EVENT_RESULT_UNHANDLED })
  | none => (event.type, EventResult.EVENT_RESULT_UNHANDLED, s)

/-- The `EVENT_DRAG_OUT` / `EVENT_DRAG_DROP` branch of `OnDragEvent`
(view.cc 678-702). -/
def dragLeave (env : Env W) (s : View W) (event : DragEvent) : EventResult × View W :=
  let old_interactive := false
  let i := if s.gadget_ && event.type == EventType.EVENT_DRAG_DROP
    then s.SetInUserInteraction old_interactive else (old_interactive, s)
  let r := dragSend env i.2 event
  let s3 := if r.2.2.gadget_ && r.1 == EventType.EVENT_DRAG_DROP
    then (r.2.2.SetInUserInteraction i.1).2 else r.2.2
  (r.2.1, s3)

/-- The `EVENT_DRAG_MOTION` part of `OnDragEvent` (view.cc 704-744). A holder
reset to a destroyed element reads null. -/
def dragMotion (env : Env W) (s : View W) (event : DragEvent) : EventResult × View W :=
  -- Dispatch the event to children normally.
  let c := env.ChildrenOnDragEvent event s.world
  let s1 := s.afterCall env (Action.ChildrenOnDragEvent event) c.2
  let fired_element := c.1
  if fired_element != s1.dragover_element_ then
    let old_dragover_element := s1.dragover_element_
    -- Store it early to prevent crash if fired_element is removed in the
    -- dragout handler.
    let s2 := { s1 with dragover_result_ := EventResult.EVENT_RESULT_UNHANDLED,
                        dragover_element_ := holderSync env s1.world fired_element }
    let s3 := match old_dragover_element with
      | some o =>
        let dragout_event := MapChildPositionEvent env s2.world event o
          (dragEventOf EventType.EVENT_DRAG_OUT event)
        let r := env.ElementOnDragEvent o dragout_event true s2.world
        s2.afterCall env (Action.ElementOnDragEvent o dragout_event true) r.2
      | none => s2
    let s4 := match s3.dragover_element_ with
      | some d =>
        -- The visible state may change during event handling.
        if !env.IsReallyVisible s3.world d then { s3 with dragover_element_ := none }
        else
          let dragover_event := MapChildPositionEvent env s3.world event d
            (dragEventOf EventType.EVENT_DRAG_OVER event)
          let r := env.ElementOnDragEvent d dragover_event true s3.world
          { s3.afterCall env (Action.ElementOnDragEvent d dragover_event true) r.2 with
            dragover_result_ := r.1 }
      | none => s3
    (s4.dragover_result_, s4)
  else (s1.dragover_result_, s1)

/-- Method `View::Impl::OnDragEvent` (view.cc 676-745). -/
def View.OnDragEvent (env : Env W) (s : View W) (event : DragEvent) : EventResult × View W :=
  if event.type == EventType.EVENT_DRAG_OUT || event.type == EventType.EVENT_DRAG_DROP then
    dragLeave env s event
  else dragMotion env s event

/-- A drag event of the given type at `(x, 50)` carrying one file. -/
def dragAt (type : EventType) (x : Int) : DragEvent :=
  { type := type, x := x, y := 50, drag_files := ["file.txt"] }

/-- The scene in which every element accepts a drag and its `EVENT_DRAG_OVER`
handler removes the element itself from the view. -/
def acceptAndLeaveEnv : Env Scene :=
  { sceneEnv with
    ElementOnDragEvent := fun e ev _ w =>
      if ev.type = EventType.EVENT_DRAG_OVER
      then (EventResult.EVENT_RESULT_HANDLED, { w with dead := e :: w.dead })
      else (EventResult.EVENT_RESULT_HANDLED, w) }

/-- The scene in which every element rejects a drag. -/
def rejectingEnv : Env Scene :=
  { sceneEnv with
    ElementOnDragEvent := fun _ _ _ w => (EventResult.EVENT_RESULT_UNHANDLED, w) }

/-- The calls of the leave branch besides the event itself: the gadget's flag. -/
def Action.isGadgetFlag : Action → Bool
  | Action.GadgetSetInUserInteraction _ => true
  | _ => false

/-- The view after a drag has moved over element 1 of the scene whose elements
accept the drag and leave the view in their `EVENT_DRAG_OVER` handler. -/
def dragStaleView : View Scene :=
  (View.OnDragEvent acceptAndLeaveEnv sceneView (dragAt EventType.EVENT_DRAG_MOTION 50)).2

/-! Zoom of the graphics backend (gtk/cairo_graphics.cc). -/

/-- A `double` as its comparisons see it: not-a-number, an infinity or a
finite value. No arithmetic is done on these values. -/
inductive Double where
  | nan
  | ninf
  | fin (q : ℚ)
  | pinf
  deriving DecidableEq

/-- Comparison `a < b` of two `double`s; false when either is not-a-number. -/
def Double.lt : Double → Double → Bool
  | .nan, _ => false
  | _, .nan => false
  | .ninf, .ninf => false
  | .ninf, _ => true
  | _, .ninf => false
  | .pinf, _ => false
  | .fin _, .pinf => true
  | .fin a, .fin b => decide (a < b)

/-- Comparison `a == b` of two `double`s; false when either is not-a-number. -/
def Double.eq : Double → Double → Bool
  | .ninf, .ninf => true
  | .pinf, .pinf => true
  | .fin a, .fin b => decide (a = b)
  | _, _ => false

/-- Comparison `a <= b` of two `double`s; false when either is not-a-number. -/
def Double.le (a b : Double) : Bool := a.lt b || a.eq b

/-- Comparison `a != b` of two `double`s; true when either is not-a-number. -/
def Double.ne (a b : Double) : Bool := !a.eq b

/-- The `double` constant 0. -/
def Double.zero : Double := .fin 0

/-- The `double` constant 1. -/
def Double.one : Double := .fin 1

/-- Member variable `zoom_` of `CairoGraphics::Impl` and the values sent on
`on_zoom_signal_`, in order. -/
structure CairoGraphics where
  zoom_ : Double
  on_zoom_signal_ : List Double
  deriving DecidableEq

/-- Constructor `CairoGraphics::CairoGraphics(double zoom)` with that of `Impl`
(cairo_graphics.cc 37-46). -/
def CairoGraphics.new (zoom : Double) : CairoGraphics :=
  { zoom_ := if zoom.le Double.zero then Double.one else zoom, on_zoom_signal_ := [] }

/-- Method `CairoGraphics::GetZoom` (cairo_graphics.cc 48-50). -/
def CairoGraphics.GetZoom (g : CairoGraphics) : Double := g.zoom_

/-- Method `CairoGraphics::SetZoom` (cairo_graphics.cc 52-57). -/
def CairoGraphics.SetZoom (g : CairoGraphics) (zoom : Double) : CairoGraphics :=
  if g.zoom_.ne zoom then
    let z := if Double.zero.lt zoom then zoom else Double.one
    { zoom_ := z, on_zoom_signal_ := g.on_zoom_signal_ ++ [z] }
  else g

/-- The value the claim gives for a zoom argument: the argument when it is
greater than 0, else 1. -/
def clampedZoom (z : Double) : Double := if Double.zero.lt z then z else Double.one

/-! Textures (tags/0.10.1/ggadget/texture.cc). -/

/-- A `Color`: red, green and blue. -/
structure Color where
  red : Double
  green : Double
  blue : Double
  deriving DecidableEq

/-- One call of `Texture::Impl::Draw` on the canvas. -/
inductive CanvasCall where
  | PushState
  | PopState
  | MultiplyOpacity (opacity : Double)
  | DrawFilledRect (x y w h : Double) (c : Color)
  | DrawFilledRectWithCanvas (x y w h : Double) (img : ImageId)
  deriving DecidableEq

/-- Member variables of `Texture::Impl` that `Draw` reads. -/
structure Texture where
  image_ : Option ImageId
  color_ : Color
  opacity_ : Double

/-- Constructor `Texture::Impl::Impl(const Color &color, double opacity)`
(texture.cc 35-48), without the name. -/
def Texture.ofColor (color : Color) (opacity : Double) : Texture :=
  { image_ := none, color_ := color, opacity_ := opacity }

/-- Method `Texture::Impl::Draw` (texture.cc 55-70): the calls made on the
canvas, in order. The canvas of an image stands for the image. -/
def Texture.Draw (t : Texture) (x y width height : Double) : List CanvasCall :=
  match t.image_ with
  | some img =>
    -- Don't apply opacity_ here because it is only applicable with color_.
    [CanvasCall.DrawFilledRectWithCanvas x y width height img]
  | none =>
    if Double.zero.lt t.opacity_ then
      (if t.opacity_.ne Double.one
        then [CanvasCall.PushState, CanvasCall.MultiplyOpacity t.opacity_] else [])
      ++ [CanvasCall.DrawFilledRect x x width height t.color_]
      ++ (if t.opacity_.ne Double.one then [CanvasCall.PopState] else [])
    else []

/-! Conversion of script values to native strings
(trunk/ggadget/scripts/smjs/converter.cc). -/

/-- Identity of a `JSString`. -/
abbrev JSStringId := Nat

/-- A `jsval` as the type tests of the converter see it. -/
inductive JSVal where
  | void
  | null
  | boolean (b : Bool)
  | int (i : Int)
  | double (d : Nat)
  | string (s : JSStringId)
  | object (o : Nat)
  deriving DecidableEq, Repr

/-- The types of `Variant::Type` that `ConvertJSToNative` switches on. -/
inductive VariantType where
  | TYPE_VOID
  | TYPE_BOOL
  | TYPE_INT64
  | TYPE_DOUBLE
  | TYPE_STRING
  | TYPE_JSON
  | TYPE_UTF16STRING
  | TYPE_SCRIPTABLE
  | TYPE_CONST_SCRIPTABLE
  | TYPE_SLOT
  | TYPE_ANY
  | TYPE_CONST_ANY
  | TYPE_VARIANT
  deriving DecidableEq, Repr

/-- A `Variant` as the string converters leave it: a UTF-8 string, a UTF-16
string given by a `jschar` pointer (null or the code units), or a value made by
another converter. -/
inductive NativeValue where
  | string (utf8 : String)
  | utf16string (chars : Option (List Nat))
  | other (tag : Nat)
  deriving DecidableEq, Repr

/-- The script engine and the converters of `converter.cc` for the other
types. -/
structure ConverterEnv where
  /-- `JS_ValueToString`; null on failure. -/
  JS_ValueToString : JSVal → Option JSStringId
  /-- `JS_GetStringChars` with `JS_GetStringLength`: the UTF-16 code units, or
  null. -/
  JS_GetStringChars : JSStringId → Option (List Nat)
  /-- `ConvertStringUTF16ToUTF8`. -/
  ConvertStringUTF16ToUTF8 : List Nat → String
  /-- The converters for the other prototype types (void, bool, int64, double,
  JSON, scriptable, slot, variant): the returned flag and `*native_val`. -/
  ConvertOther : VariantType → JSVal → NativeValue → Bool × NativeValue

/-- The type test shared by the two string converters (converter.cc 87-88 and
110-111). -/
def JSVal.isStringConvertible : JSVal → Bool
  | .void => true
  | .boolean _ => true
  | .int _ => true
  | .double _ => true
  | .string _ => true
  | _ => false

/-- Function `ConvertJSToNativeString` (converter.cc 83-104): the returned flag
and `*native_val` afterwards. -/
def ConvertJSToNativeString (env : ConverterEnv) (js_val : JSVal) (native_val : NativeValue) :
    Bool × NativeValue :=
  let result := false
  -- For now don't allow passing NULL to a native string.
  if js_val.isStringConvertible then
    match env.JS_ValueToString js_val with
    | some js_string =>
      match env.JS_GetStringChars js_string with
      | some chars => (true, NativeValue.string (env.ConvertStringUTF16ToUTF8 chars))
      | none => (result, native_val)
    | none => (result, native_val)
  else (result, native_val)

/-- Function `ConvertJSToNativeUTF16String` (converter.cc 106-121): the
returned flag and `*native_val` afterwards. -/
def ConvertJSToNativeUTF16String (env : ConverterEnv) (js_val : JSVal)
    (native_val : NativeValue) : Bool × NativeValue :=
  let result := false
  -- For now don't allow passing NULL to a UTF16String.
  if js_val.isStringConvertible then
    match env.JS_ValueToString js_val with
    | some js_string =>
      (result, NativeValue.utf16string (env.JS_GetStringChars js_string))
    | none => (result, native_val)
  else (result, native_val)

/-- Function `ConvertJSToNative` (converter.cc 208-239), by the type of the
prototype. -/
def ConvertJSToNative (env : ConverterEnv) (prototype : VariantType) (js_val : JSVal)
    (native_val : NativeValue) : Bool × NativeValue :=
  match prototype with
  | .TYPE_STRING => ConvertJSToNativeString env js_val native_val
  | .TYPE_UTF16STRING => ConvertJSToNativeUTF16String env js_val native_val
  | .TYPE_ANY => (false, native_val)
  | .TYPE_CONST_ANY => (false, native_val)
  | t => env.ConvertOther t js_val native_val

/-- An engine in which string 1 is "ab" and every convertible value converts
to string 1. -/
def converterEnv : ConverterEnv :=
  { JS_ValueToString := fun _ => some 1,
    JS_GetStringChars := fun _ => some [97, 98],
    ConvertStringUTF16ToUTF8 := fun _ => "ab",
    ConvertOther := fun _ _ v => (false, v) }

/-! JSON encoding and decoding (ggadget/scripts/smjs/json.cc). -/

mutual
/-- A script value as `AppendJSON` sees it through the engine: a null object,
an array with its elements, an object with its enumerated properties, a string
with its UTF-16 code units (null when `JS_GetStringChars` fails), a number with
the bytes of its string form (null when the conversion fails), a boolean, or a
value of any other type. -/
inductive JSValue where
  | null
  | array (elems : JSValues)
  | object (props : JSProps)
  | string (chars : Option (List Nat))
  | number (bytes : Option (List Char))
  | boolean (b : Bool)
  | other
/-- The elements of an array, in index order. -/
inductive JSValues where
  | nil
  | cons (value : JSValue) (rest : JSValues)
/-- The enumerated properties of an object, in order: the code units of the
key (none when the id is not a string or has no characters), the value, and
whether the property is left out (a method, or equal to the property of the
prototype). -/
inductive JSProps where
  | nil
  | cons (key : Option (List Nat)) (value : JSValue) (skipped : Bool) (rest : JSProps)
end

/-- One upper-case hexadecimal digit. -/
def hexDigit (n : Nat) : Char :=
  "0123456789ABCDEF".toList.getD (n % 16) '0'

/-- The text `snprintf(buf, sizeof(buf), "\\u%04X", c)` writes for a UTF-16 code
unit `c`. -/
def unicodeEscape (c : Nat) : List Char :=
  ['\\', 'u', hexDigit (c / 4096), hexDigit (c / 256), hexDigit (c / 16), hexDigit c]

/-- The body of the loop of `AppendStringToJSON` (json.cc 47-61): the text
appended for one UTF-16 code unit. -/
def escapeChar (c : Nat) : List Char :=
  -- The following special chars are not so complete, but also works.
  if c = 34 then ['\\', '"']
  else if c = 92 then ['\\', '\\']
  else if c = 10 then ['\\', 'n']
  else if c = 13 then ['\\', 'r']
  else if c ≥ 0x7f ∨ c < 0x20 then unicodeEscape c
  else [Char.ofNat c]

/-- Function `AppendStringToJSON` (json.cc 40-64). -/
def AppendStringToJSON (chars : Option (List Nat)) (json : List Char) : List Char :=
  json ++ ['"'] ++
    (match chars with
     | some cs => cs.flatMap escapeChar
     | none => []) ++ ['"']

/-- Function `AppendNumberToJSON` (json.cc 112-124). -/
def AppendNumberToJSON (bytes : Option (List Char)) (json : List Char) : List Char :=
  match bytes with
  | some b =>
    -- Treat Infinity, -Infinity and NaN as zero.
    if b.getD 0 '\x00' ≠ 'I' ∧ b.getD 1 '\x00' ≠ 'I' ∧ b.getD 0 '\x00' ≠ 'N' then json ++ b
    else json ++ ['0']
  | none => json ++ ['0']

/-- The end of `AppendObjectToJSON` (json.cc 104-106): remove the last extra
comma. -/
def dropLastComma (json : List Char) : List Char :=
  if json.getLast? = some ',' then json.dropLast else json

mutual
/-- Function `AppendJSON` (json.cc 126-149). -/
def AppendJSON : JSValue → List Char → List Char
  | .null, json => json ++ "null".toList
  | .array elems, json => AppendArrayElements elems (json ++ ['[']) ++ [']']
  | .object props, json => dropLastComma (AppendObjectProperties props (json ++ ['{'])) ++ ['}']
  | .string chars, json => AppendStringToJSON chars json
  | .number bytes, json => AppendNumberToJSON bytes json
  | .boolean b, json => json ++ (if b then "true".toList else "false".toList)
  | .other, json => json ++ "null".toList
/-- The loop of `AppendArrayToJSON` (json.cc 29-35): the elements, separated
by commas. -/
def AppendArrayElements : JSValues → List Char → List Char
  | .nil, json => json
  | .cons value .nil, json => AppendJSON value json
  | .cons value rest, json => AppendArrayElements rest (AppendJSON value json ++ [','])
/-- The loop of `AppendObjectToJSON` (json.cc 71-103): every property that is
put out is followed by a comma. -/
def AppendObjectProperties : JSProps → List Char → List Char
  | .nil, json => json
  | .cons (some key) value false rest, json =>
    AppendObjectProperties rest
      (AppendJSON value (AppendStringToJSON (some key) json ++ [':']) ++ [','])
  | .cons _ _ _ rest, json => AppendObjectProperties rest json
end

/-- Function `JSONEncode` (json.cc 151-155): the text left in `*json`. -/
def JSONEncode (js_val : JSValue) : List Char := AppendJSON js_val []

/-- Constant `kValidChars` of `JSONDecode`: valid chars in state 0. -/
def kValidChars : List Char := ",:{}[]0123456789.-+eE".toList

/-- The test `*p >= 'a' && *p <= 'z'`. -/
def isLowerLetter (c : Char) : Bool := decide ('a' ≤ c ∧ c ≤ 'z')

/-- The C string that starts at a pointer into the text: the characters up to
the first NUL. -/
def cString (s : List Char) : List Char := s.takeWhile (fun c => c != '\x00')

/-- The word test of state 1: `strncmp("true", word_start, 4) == 0 ||
strncmp("false", word_start, 5) == 0 || strncmp("null", word_start, 4) == 0`. -/
def wordAccepted (word_start : List Char) : Bool :=
  (cString word_start).take 4 == "true".toList ||
  (cString word_start).take 5 == "false".toList ||
  (cString word_start).take 4 == "null".toList

/-- How the validation loop of `JSONDecode` ends: it returns `JS_FALSE`, it
reaches the terminating NUL in the given state, or its cursor passes the
terminating NUL and the loop test reads beyond the text. -/
inductive ScanResult where
  | invalid
  | finished (state : Nat)
  | overread
  deriving DecidableEq, Repr

/-- The validation loop of `JSONDecode` (json.cc 170-203). The list is the
text from the cursor `p` on, ended by the terminating NUL; `word_start` is the
text from the pointer `word_start` on. State: 0: normal; 1: in word; 2: in
string. -/
def scan : List Char → Nat → List Char → ScanResult
  | [], state, _ => ScanResult.finished state
  | c :: rest, state, word_start =>
    if c = '\x00' then ScanResult.finished state
    else
      match state with
      | 0 =>
        if isLowerLetter c then scan rest 1 (c :: rest)
        else if c = '"' then scan rest 2 word_start
        else if !kValidChars.contains c then
          -- Invalid JSON format.
          ScanResult.invalid
        else scan rest 0 word_start
      | 1 =>
        if !isLowerLetter c then
          if !wordAccepted word_start then ScanResult.invalid
          else scan rest 0 word_start
        else scan rest 1 word_start
      | 2 =>
        if c = '\\' then
          -- Omit the next char.  Also works for \uXXXX cases.
          match rest with
          | [] => ScanResult.overread
          | d :: rest2 => if d = '\x00' then ScanResult.overread else scan rest2 2 word_start
        else if c = '"' then scan rest 0 word_start
        else scan rest 2 word_start
      | _ => scan rest state word_start

/-- What `JSONDecode` does with its input. -/
inductive DecodeOutcome where
  /-- It returns `JS_TRUE` with `JSVAL_VOID`, for a null or empty input. -/
  | void
  /-- It returns `JS_FALSE` from the validation loop. -/
  | invalid
  /-- It evaluates the script, the text wrapped in parentheses. -/
  | evaluate (json_script : List Char)
  /-- The validation loop reads beyond the terminating NUL. -/
  | overread
  deriving DecidableEq, Repr

/-- Function `JSONDecode` (json.cc 157-215); a null `json` is none. -/
def JSONDecode (json : Option (List Char)) : DecodeOutcome :=
  match json with
  | none => DecodeOutcome.void
  | some text =>
    if cString text = [] then DecodeOutcome.void
    else
      match scan text 0 text with
      | ScanResult.invalid => DecodeOutcome.invalid
      | ScanResult.finished _ =>
        -- Add '()' around the expression to avoid ambiguity of '{}'.
        DecodeOutcome.evaluate (['('] ++ cString text ++ [')'])
      | ScanResult.overread => DecodeOutcome.overread

/-- A character that may stand inside a string literal of the encoder: it is
printable ASCII and neither a double quote nor a backslash. -/
def plainInString (c : Char) : Bool :=
  decide (0x20 ≤ c.toNat ∧ c.toNat ≤ 0x7E) && c != '"' && c != '\\'

/-- The scene in which elements 1 and 2 are both named "twin". -/
def twinEnv : Env Scene :=
  { sceneEnv with GetName := fun _ e => if e = 1 ∨ e = 2 then "twin" else "" }

/-- The values handed to the slot over a run of `Call`s, in order. -/
def firedValues (w : TimerWatchCallback) : List (Nat × Nat) → List Int
  | [] => []
  | (t, f) :: rest =>
    if (w.Call t f).invoked then (w.Call t f).value :: firedValues (w.Call t f).watch rest
    else firedValues (w.Call t f).watch rest

/-- The flags returned by the `Call`s of a run, in order. -/
def callReturns (w : TimerWatchCallback) : List (Nat × Nat) → List Bool
  | [] => []
  | (t, f) :: rest => (w.Call t f).ret :: callReturns (w.Call t f).watch rest

/-! Cropped images (tags/0.9.3/ggadget/img_element.cc). Sizes and coordinates
are exact rationals. -/

/-- Enumeration `CropMaintainAspect`. -/
inductive CropMaintainAspect where
  | CROP_FALSE
  | CROP_TRUE
  | CROP_PHOTO
  deriving DecidableEq, Repr

/-- An image: `GetWidth()` and `GetHeight()`. -/
structure SourceImage where
  width : ℚ
  height : ℚ

/-- What `DoDraw` reads: the image (null when there is none), the crop mode,
`stretch_middle_` and the pixel size of the element. -/
structure ImgElement where
  image : Option SourceImage
  crop_ : CropMaintainAspect
  stretch_middle_ : Bool
  pxwidth : ℚ
  pxheight : ℚ

/-- One drawing call of `DoDraw`. -/
inductive ImgDrawCall where
  | StretchDraw (x y w h : ℚ)
  | StretchMiddleDrawImage (x y w h left top right bottom : ℚ)

/-- Method `ImgElement::DoDraw` (img_element.cc 155-187): the drawing calls
made. -/
def ImgElement.DoDraw (e : ImgElement) : List ImgDrawCall :=
  match e.image with
  | some image =>
    let pxwidth := e.pxwidth
    let pxheight := e.pxheight
    if e.crop_ = CropMaintainAspect.CROP_FALSE then
      if e.stretch_middle_ then
        [ImgDrawCall.StretchMiddleDrawImage 0 0 pxwidth pxheight (-1) (-1) (-1) (-1)]
      else [ImgDrawCall.StretchDraw 0 0 pxwidth pxheight]
    else
      let imgw := image.width
      let imgh := image.height
      if imgw ≤ 0 ∨ imgh ≤ 0 then []
      else
        let scale := max (pxwidth / imgw) (pxheight / imgh)
        -- Windows also caps the scale to a fixed maximum. This is probably a bug.
        let w := scale * imgw
        let h := scale * imgh
        let x := (pxwidth - w) / 2
        let y := (pxheight - h) / 2
        -- Never crop the top in photo setting.
        let y1 := if e.crop_ = CropMaintainAspect.CROP_PHOTO ∧ y < 0 then 0 else y
        [ImgDrawCall.StretchDraw x y1 w h]
  | none => []

/-- A 100 x 50 image in a 40 x 40 element, in photo mode. -/
def photoElement : ImgElement :=
  { image := some { width := 100, height := 50 }, crop_ := CropMaintainAspect.CROP_PHOTO,
    stretch_middle_ := false, pxwidth := 40, pxheight := 40 }

/-! The plugin list
(tags/0.9.2/extensions/google_gadget_manager/gadgets_metadata.cc). -/

/-- Type `StringMap`, a `std::map` from strings to strings: the entries in
iteration order. -/
abbrev StringMap := List (String × String)

/-- Assignment `table[key] = value`. -/
def StringMap.set (table : StringMap) (key value : String) : StringMap :=
  if table.any (fun e => e.1 == key)
  then table.map (fun e => if e.1 == key then (key, value) else e)
  else table ++ [(key, value)]

/-- Function `GetValue` (gadgets_metadata.cc 72-77): the empty string for a
missing key. -/
def GetValue (table : StringMap) (key : String) : String :=
  (table.lookup key).getD ""

/-- Structure `GadgetInfo`. -/
structure GadgetInfo where
  id : String
  updated_date : Nat
  attributes : StringMap
  titles : StringMap
  descriptions : StringMap
  deriving DecidableEq, Repr

/-- Modelled from the spec: a default-constructed `GadgetInfo`, whose
declaration is in a header that is not among the sources. -/
def GadgetInfo.empty : GadgetInfo :=
  { id := "", updated_date := 0, attributes := [], titles := [], descriptions := [] }

/-- Type `GadgetInfoMap`, a `std::map` from plugin ids to `GadgetInfo`. -/
abbrev GadgetInfoMap := List (String × GadgetInfo)

/-- Expression `temp_plugins[id]`: the entry, default-constructed when
missing. -/
def GadgetInfoMap.at (m : GadgetInfoMap) (id : String) : GadgetInfo :=
  (m.lookup id).getD GadgetInfo.empty

/-- Assignment through `&temp_plugins[id]`. -/
def GadgetInfoMap.set (m : GadgetInfoMap) (id : String) (info : GadgetInfo) : GadgetInfoMap :=
  if m.any (fun e => e.1 == id)
  then m.map (fun e => if e.1 == id then (id, info) else e)
  else m ++ [(id, info)]

/-- The collaborators of `GadgetsMetadata::Impl`: the XML parser (none when
`ParseXMLIntoXPathMap` returns false), the string helpers, `ParseDate` (which
rests on `mktime` and `gmtime`) and the cached plugins file (none when
`ReadFile` fails). -/
structure MetadataEnv where
  ParseXMLIntoXPathMap : String → Option StringMap
  SimpleMatchXPath : String → String → Bool
  /-- `GadgetStrNCmp(a, b, n) == 0`. -/
  GadgetStrNCmpEqual : String → String → Nat → Bool
  ToUpper : String → String
  ToLower : String → String
  ParseDate : String → Nat
  ReadFile : Option String

/-- Member variables `plugins_` and `latest_plugin_time_`. -/
structure GadgetsMetadata where
  plugins_ : GadgetInfoMap
  latest_plugin_time_ : Nat
  deriving DecidableEq, Repr

/-- Function `ParsePluginUpdatedDate` (gadgets_metadata.cc 79-87). -/
def ParsePluginUpdatedDate (env : MetadataEnv) (table : StringMap) (plugin_key : String) : Nat :=
  let updated_date_str := GetValue table (plugin_key ++ "@updated_date")
  let updated_date_str := if updated_date_str = ""
    then GetValue table (plugin_key ++ "@creation_date") else updated_date_str
  if updated_date_str = "" then 0 else env.ParseDate updated_date_str

/-- Function `GetPluginID` (gadgets_metadata.cc 91-97). -/
def GetPluginID (env : MetadataEnv) (table : StringMap) (plugin_key : String) : String :=
  let id := env.ToUpper (GetValue table (plugin_key ++ "@guid"))
  if id = "" then GetValue table (plugin_key ++ "@download_url") else id

/-- One pass of the inner loop of `ParsePluginsXML` (gadgets_metadata.cc
231-263) on the entry under the iterator, for the full record of `plugin_key`
stored under `id`: none for `break`, else `temp_plugins` after `++it`. -/
def innerStep (env : MetadataEnv) (new_plugins : StringMap) (plugin_key id : String)
    (key value : String) (temp_plugins : GadgetInfoMap) : Option GadgetInfoMap :=
  if !env.GadgetStrNCmpEqual key plugin_key plugin_key.length then
    -- Finished parsing data of the current gadget.
    none
  else
    let info := temp_plugins.at id
    let next_char := key.toList.getD plugin_key.length '\x00'
    if next_char = '@' then
      some (temp_plugins.set id
        { info with attributes :=
            info.attributes.set (String.mk (key.toList.drop (plugin_key.length + 1))) value })
    else if next_char = '/' then
      if env.SimpleMatchXPath key "plugin/title" then
        let locale := env.ToLower (GetValue new_plugins (key ++ "@locale"))
        if locale = "" then some temp_plugins
        else some (temp_plugins.set id { info with titles := info.titles.set locale value })
      else if env.SimpleMatchXPath key "plugin/description" then
        let locale := env.ToLower (GetValue new_plugins (key ++ "@locale"))
        if locale = "" then some temp_plugins
        else some (temp_plugins.set id
          { info with descriptions := info.descriptions.set locale value })
      else some temp_plugins
    else
      -- Finished parsing data of the current gadget.
      none

/-- What one pass of the outer loop decides. -/
inductive OuterStep where
  /-- The function returns false; `latest_plugin_time_` is as given. -/
  | fail (latest_plugin_time : Nat)
  /-- The loop goes on, inside the inner loop for a full record (its key and
  id) or not. -/
  | next (record : Option (String × String)) (temp_plugins : GadgetInfoMap)
      (latest_plugin_time : Nat)

/-- One pass of the outer loop of `ParsePluginsXML` (gadgets_metadata.cc
186-229) on the entry `plugin_key` under the iterator, up to the inner loop. -/
def outerStep (env : MetadataEnv) (new_plugins : StringMap) (plugins_ : GadgetInfoMap)
    ( full_update : Bool) (plugin_key : String) (temp_plugins : GadgetInfoMap)
    (latest_plugin_time : Nat) : OuterStep :=
  if !env.SimpleMatchXPath plugin_key "plugin" then
    OuterStep.next none temp_plugins latest_plugin_time
  else
    let id := GetPluginID env new_plugins plugin_key
    if id = "" then OuterStep.next none temp_plugins latest_plugin_time
    -- The id attribute is used only here to detect if the plugin record is
    -- a full record.
    else if GetValue new_plugins (plugin_key ++ "@id") = "" then
      if full_update then OuterStep.fail latest_plugin_time
      else
        match plugins_.lookup id with
        | none =>
          -- This may be caused by corrupted cached plugins.xml file.
          OuterStep.fail latest_plugin_time
        | some org_info =>
          -- This is a partial record which contains only an optional 'rank'
          -- attribute.
          let rank := GetValue new_plugins (plugin_key ++ "@rank")
          let info := if rank ≠ ""
            then { org_info with attributes := org_info.attributes.set "rank" rank }
            else org_info
          OuterStep.next none (temp_plugins.set id info) latest_plugin_time
    else
      -- Otherwise, this is a full record.
      let updated_date := ParsePluginUpdatedDate env new_plugins plugin_key
      let info := { temp_plugins.at id with id := id, updated_date := updated_date }
      OuterStep.next (some (plugin_key, id)) (temp_plugins.set id info)
        (if updated_date > latest_plugin_time then updated_date else latest_plugin_time)

/-- The two nested loops of `ParsePluginsXML` (gadgets_metadata.cc 186-264),
which share the iterator `it`: the list is the entries from `it` on, and
`record` says whether the inner loop is running, and for which full record.
The result is whether the loops ran to the end, `temp_plugins` and
`latest_plugin_time_`. -/
def parseLoop (env : MetadataEnv) (new_plugins : StringMap) (plugins_ : GadgetInfoMap)
    ( full_update : Bool) :
    List (String × String) → Option (String × String) → GadgetInfoMap → Nat →
      Bool × GadgetInfoMap × Nat
  | [], _, temp_plugins, latest => (true, temp_plugins, latest)
  | (key, value) :: rest, record, temp_plugins, latest =>
    match record.bind
        (fun r => innerStep env new_plugins r.1 r.2 key value temp_plugins) with
    | some temp2 => parseLoop env new_plugins plugins_ full_update rest record temp2 latest
    | none =>
      match outerStep env new_plugins plugins_ full_update key temp_plugins latest with
      | OuterStep.fail latest2 => (false, temp_plugins, latest2)
      | OuterStep.next record2 temp2 latest2 =>
        parseLoop env new_plugins plugins_ full_update rest record2 temp2 latest2

/-- Method `ParsePluginsXML` (gadgets_metadata.cc 175-270) after
`EnsureInitialized`. -/
def ParsePluginsXMLBody (env : MetadataEnv) (s : GadgetsMetadata) (contents : String)
    ( full_update : Bool) : Bool × GadgetsMetadata :=
  match env.ParseXMLIntoXPathMap contents with
  | none => (false, s)
  | some new_plugins =>
    -- Update the latest gadget time and plugin index.
    let r := parseLoop env new_plugins s.plugins_ full_update new_plugins none [] 0
    if r.1 then (true, { plugins_ := r.2.1, latest_plugin_time_ := r.2.2 })
    else (false, { s with latest_plugin_time_ := r.2.2 })

/-- Method `EnsureInitialized` with `Init` (gadgets_metadata.cc 52-66). -/
def EnsureInitialized (env : MetadataEnv) (s : GadgetsMetadata) : GadgetsMetadata :=
  if s.plugins_.isEmpty then
    match env.ReadFile with
    | some contents => (ParsePluginsXMLBody env s contents true).2
    | none => s
  else s

/-- Method `GadgetsMetadata::Impl::ParsePluginsXML` (gadgets_metadata.cc
175-270): the returned flag and the state afterwards. -/
def ParsePluginsXML (env : MetadataEnv) (s : GadgetsMetadata) (contents : String)
    ( full_update : Bool) : Bool × GadgetsMetadata :=
  ParsePluginsXMLBody env (if !full_update then EnsureInitialized env s else s) contents
    full_update

/-- A parser that knows three texts: "full" holds one full record of plugin A,
dated "d1"; "partial" holds a full record of plugin C, dated "d2", followed by
a partial record of plugin B; "unknown" holds only a partial record of plugin
B. Every other text fails to parse. Dates "d1" and "d2" are 1000 and 2000. -/
def metadataEnv : MetadataEnv :=
  { ParseXMLIntoXPathMap := fun contents =>
      if contents = "full" then
        some [("plugin", ""), ("plugin@guid", "A"), ("plugin@id", "1"),
              ("plugin@updated_date", "d1")]
      else if contents = "partial" then
        some [("plugin", ""), ("plugin@guid", "C"), ("plugin@id", "3"),
              ("plugin@updated_date", "d2"),
              ("plugin[2]", ""), ("plugin[2]@guid", "B")]
      else if contents = "unknown" then
        some [("plugin", ""), ("plugin@guid", "B")]
      else none,
    SimpleMatchXPath := fun key pattern =>
      if pattern = "plugin" then key = "plugin" || key = "plugin[2]" else false,
    GadgetStrNCmpEqual := fun a b n => a.toList.take n == b.toList.take n,
    ToUpper := fun s => s,
    ToLower := fun s => s,
    ParseDate := fun d => if d = "d1" then 1000 else if d = "d2" then 2000 else 0,
    ReadFile := none }

/-- The state after the text "full" has been parsed as a full update. -/
def loadedMetadata : GadgetsMetadata :=
  (ParsePluginsXML metadataEnv { plugins_ := [], latest_plugin_time_ := 0 } "full" true).2

/-- The cache after "a.png" has been loaded 2^31 - 1 times as an image and
never destroyed. -/
def loadedToIntMax : ImageCache :=
  loadTimes cacheEnv true true (some "a.png") false 2147483647 ImageCache.empty

@[simp] theorem holderSync_none (env : Env W) (w : W) : holderSync env w none = none := rfl

theorem holderSync_some (env : Env W) (w : W) (e : ElementId) :
    holderSync env w (some e) = if env.alive w e then some e else none := rfl

theorem holderSync_cases (env : Env W) (w : W) (h : Option ElementId) :
    holderSync env w h = h ∨ holderSync env w h = none := by
  cases h with
  | none => left; rfl
  | some e =>
    rw [holderSync_some]
    by_cases ha : env.alive w e = true
    · left; simp [ha]
    · right; simp [ha]

theorem holderSync_eq_some (env : Env W) (w : W) (h : Option ElementId) (e : ElementId)
    (hs : holderSync env w h = some e) : h = some e ∧ env.alive w e = true := by
  cases h with
  | none => simp at hs
  | some x =>
    rw [holderSync_some] at hs
    by_cases ha : env.alive w x = true
    · simp [ha] at hs
      subst hs
      exact ⟨rfl, ha⟩
    · simp [ha] at hs

@[simp] theorem SetCursor_grab (s : View W) (t : Int) :
    (s.SetCursor t).grabmouse_element_ = s.grabmouse_element_ := by
  unfold View.SetCursor; split <;> rfl

@[simp] theorem SetCursor_world (s : View W) (t : Int) :
    (s.SetCursor t).world = s.world := by
  unfold View.SetCursor; split <;> rfl

@[simp] theorem SetCursor_mouseover (s : View W) (t : Int) :
    (s.SetCursor t).mouseover_element_ = s.mouseover_element_ := by
  unfold View.SetCursor; split <;> rfl

@[simp] theorem SetCursor_mouse_over (s : View W) (t : Int) :
    (s.SetCursor t).mouse_over_ = s.mouse_over_ := by
  unfold View.SetCursor; split <;> rfl

@[simp] theorem SetTooltip_grab (s : View W) (t : Option String) :
    (s.SetTooltip t).grabmouse_element_ = s.grabmouse_element_ := by
  unfold View.SetTooltip; split <;> rfl

@[simp] theorem SetTooltip_world (s : View W) (t : Option String) :
    (s.SetTooltip t).world = s.world := by
  unfold View.SetTooltip; split <;> rfl

@[simp] theorem SetTooltip_mouseover (s : View W) (t : Option String) :
    (s.SetTooltip t).mouseover_element_ = s.mouseover_element_ := by
  unfold View.SetTooltip; split <;> rfl

/-- The cursor call appends at most one `HostSetCursor` to the log. -/
theorem SetCursor_log (s : View W) (t : Int) :
    ∃ c, (s.SetCursor t).log = s.log ++ c ∧ ∀ a ∈ c, ∃ k, a = Action.HostSetCursor k := by
  unfold View.SetCursor
  split
  · exact ⟨[Action.HostSetCursor t], rfl, by simp⟩
  · exact ⟨[], by simp, by simp⟩

theorem hitTestUpdate_grab (env : Env W) (s : View W) (event : MouseEvent)
    (i : Option ElementId) :
    (hitTestUpdate env s event i).grabmouse_element_ = s.grabmouse_element_ := by
  unfold hitTestUpdate
  cases i with
  | none => simp
  | some i =>
    simp only []
    split <;> simp

theorem mouseOverTransition_grab (env : Env W) (s : View W) (event : MouseEvent)
    (fired : Option ElementId) :
    (mouseOverTransition env s event fired).grabmouse_element_ = s.grabmouse_element_ ∨
    (mouseOverTransition env s event fired).grabmouse_element_ = none := by
  unfold mouseOverTransition
  split
  · cases hm : s.mouseover_element_ with
    | none =>
      simp only []
      cases fired with
      | none => left; rfl
      | some f =>
        simp only [View.afterCall]
        exact holderSync_cases _ _ _
    | some o =>
      simp only [View.afterCall]
      split
      · simp only []
        rcases holderSync_cases env
          (env.ElementOnMouseEvent o (MapChildMouseEvent env s.world event o
            (synthesized EventType.EVENT_MOUSE_OUT event)) true s.world).world
          s.grabmouse_element_ with h | h
        · rw [h]; exact holderSync_cases _ _ _
        · rw [h]; right; rfl
      · exact holderSync_cases _ _ _
  · left; rfl

/-- The grab branch taken: with a grab on a really enabled `g`, the left button
held and a move, up or click event, the event goes to `g` and the dispatch
returns. -/
theorem grabDispatch_routed (env : Env W) (s : View W) (g : ElementId) (e : MouseEvent)
    (hg : s.grabmouse_element_ = some g) (hen : env.IsReallyEnabled s.world g = true)
    (hl : leftDown env e = true)
    (ht : e.type = EventType.EVENT_MOUSE_MOVE ∨ e.type = EventType.EVENT_MOUSE_UP ∨
      e.type = EventType.EVENT_MOUSE_CLICK) :
    grabDispatch env s e = Sum.inl (routeToGrab env s g e) := by
  unfold grabDispatch
  rcases ht with ht | ht | ht <;> simp [hg, hen, hl, ht]

theorem send_of_routed (env : Env W) (s : View W) (e : MouseEvent)
    (r : EventResult × View W) (hne : e.type ≠ EventType.EVENT_MOUSE_OVER)
    (hr : grabDispatch env s e = Sum.inl r) :
    SendMouseEventToChildren env s e = r := by
  unfold SendMouseEventToChildren
  simp [hne, hr]

/-- The cursor update after the grabbing element's handler (view.cc 365-367)
leaves the grab alone and only talks to the host. -/
theorem cursorAfterGrab (env : Env W) (v : View W) :
    (match v.grabmouse_element_ with
      | some g1 => v.SetCursor (env.GetCursor v.world g1)
      | none => v).grabmouse_element_ = v.grabmouse_element_ ∧
    ∃ c, (match v.grabmouse_element_ with
      | some g1 => v.SetCursor (env.GetCursor v.world g1)
      | none => v).log = v.log ++ c ∧ ∀ a ∈ c, ∃ k, a = Action.HostSetCursor k := by
  cases hv : v.grabmouse_element_ with
  | none => exact ⟨hv, [], by simp, by simp⟩
  | some g => exact ⟨(SetCursor_grab _ _).trans hv, SetCursor_log _ _⟩

/-- What routing to the grabbing element `g` does: the result is the handler's,
the log gains the direct delivery and cursor updates, and the grab is released
on a click and otherwise left on `g` as far as `g` still exists. -/
theorem routeToGrab_spec (env : Env W) (s : View W) (g : ElementId) (e : MouseEvent)
    (hg : s.grabmouse_element_ = some g) :
    (routeToGrab env s g e).1 =
      (env.ElementOnMouseEvent g (MapChildMouseEvent env s.world e g e) true s.world).result ∧
    (routeToGrab env s g e).2.grabmouse_element_ =
      (if e.type = EventType.EVENT_MOUSE_CLICK then none
       else holderSync env (env.ElementOnMouseEvent g (MapChildMouseEvent env s.world e g e)
         true s.world).world (some g)) ∧
    ∃ cursor, (routeToGrab env s g e).2.log =
        s.log ++ Action.ElementOnMouseEvent g (MapChildMouseEvent env s.world e g e) true
          :: cursor ∧
      ∀ a ∈ cursor, ∃ k, a = Action.HostSetCursor k := by
  obtain ⟨hgrab, c, hc, hall⟩ := cursorAfterGrab env (s.afterCall env
    (Action.ElementOnMouseEvent g (MapChildMouseEvent env s.world e g e) true)
    (env.ElementOnMouseEvent g (MapChildMouseEvent env s.world e g e) true s.world).world)
  have hsync : (s.afterCall env
      (Action.ElementOnMouseEvent g (MapChildMouseEvent env s.world e g e) true)
      (env.ElementOnMouseEvent g (MapChildMouseEvent env s.world e g e) true
        s.world).world).grabmouse_element_ =
      holderSync env (env.ElementOnMouseEvent g (MapChildMouseEvent env s.world e g e)
        true s.world).world (some g) := by
    simp [View.afterCall, hg]
  have hlog : (s.afterCall env
      (Action.ElementOnMouseEvent g (MapChildMouseEvent env s.world e g e) true)
      (env.ElementOnMouseEvent g (MapChildMouseEvent env s.world e g e) true
        s.world).world).log ++ c =
      s.log ++ Action.ElementOnMouseEvent g (MapChildMouseEvent env s.world e g e) true
        :: c := by
    simp [View.afterCall]
  unfold routeToGrab
  refine ⟨rfl, ?_, c, ?_, hall⟩
  · by_cases hclick : e.type = EventType.EVENT_MOUSE_CLICK
    · simp [hclick]
    · simp only []
      rw [if_neg (by simpa using hclick), if_neg hclick]
      exact hgrab.trans hsync
  · by_cases hclick : e.type = EventType.EVENT_MOUSE_CLICK
    · simp only []
      rw [if_pos (by simpa using hclick)]
      exact hc.trans hlog
    · simp only []
      rw [if_neg (by simpa using hclick)]
      exact hc.trans hlog

theorem grabDispatch_inr_mouse_over (env : Env W) (s s1 : View W) (e : MouseEvent)
    (h : grabDispatch env s e = Sum.inr s1) : s1.mouse_over_ = s.mouse_over_ := by
  unfold grabDispatch at h
  cases hg : s.grabmouse_element_ with
  | none =>
    rw [hg] at h
    simp only [Sum.inr.injEq] at h
    rw [← h]
  | some g =>
    rw [hg] at h
    simp only [] at h
    split at h
    · simp at h
    · simp only [Sum.inr.injEq] at h
      rw [← h]

theorem SetPopupElement_none_mouse_over (env : Env W) (s : View W) :
    (s.SetPopupElement env none).mouse_over_ = s.mouse_over_ := by
  unfold View.SetPopupElement
  cases s.popup_element_ <;> rfl

theorem popupDispatch_mouse_over (env : Env W) (s : View W) (e : MouseEvent) :
    (popupDispatch env s e).2.2.2.2.mouse_over_ = s.mouse_over_ := by
  unfold popupDispatch
  cases s.popup_element_ with
  | none => rfl
  | some p =>
    simp only []
    split
    · split
      · rfl
      · rfl
    · exact SetPopupElement_none_mouse_over env s

theorem childrenDispatch_mouse_over (env : Env W) (s : View W) (e : MouseEvent) :
    (childrenDispatch env s e).2.2.2.mouse_over_ = s.mouse_over_ := by
  unfold childrenDispatch
  simp only []
  split
  · split
    · simp only [SetPopupElement_none_mouse_over]
      exact popupDispatch_mouse_over env s e
    · exact popupDispatch_mouse_over env s e
  · exact popupDispatch_mouse_over env s e

/-- When the left button goes down on a live fired element `A` with the mouse
over the view, the tail of the dispatch leaves the grab on `A` or on nothing. -/
theorem finishDispatch_down_grab (env : Env W) (v : View W) (A : ElementId)
    (down : MouseEvent) (fired in_element : Option ElementId)
    (ht : down.type = EventType.EVENT_MOUSE_DOWN) (hl : leftDown env down = true)
    (hover : v.mouse_over_ = true) (hf : holderSync env v.world fired = some A) :
    (finishDispatch env v down fired in_element).grabmouse_element_ = some A ∨
    (finishDispatch env v down fired in_element).grabmouse_element_ = none := by
  unfold finishDispatch
  rw [if_neg (by simp [hover])]
  simp only [hf, ht, hl, hitTestUpdate_grab]
  exact mouseOverTransition_grab env _ down (some A)

/-- A left-button `EVENT_MOUSE_DOWN` fired on `A` with the mouse over the view
leaves the grab on `A`, or on nothing when `A` was destroyed meanwhile. -/
theorem send_down_grab (env : Env W) (s : View W) (A : ElementId) (down : MouseEvent)
    (ht : down.type = EventType.EVENT_MOUSE_DOWN) (hl : leftDown env down = true)
    (hover : s.mouse_over_ = true) (hf : firedElement env s down = some A) :
    (SendMouseEventToChildren env s down).2.grabmouse_element_ = some A ∨
    (SendMouseEventToChildren env s down).2.grabmouse_element_ = none := by
  unfold firedElement at hf
  unfold SendMouseEventToChildren
  cases hgd : grabDispatch env s down with
  | inl r => rw [hgd] at hf; simp at hf
  | inr s1 =>
    rw [hgd] at hf
    simp only [] at hf
    have hmo : (childrenDispatch env s1 down).2.2.2.mouse_over_ = true := by
      rw [childrenDispatch_mouse_over, grabDispatch_inr_mouse_over env s s1 down hgd, hover]
    simp only [ht]
    rw [if_neg (by decide), if_neg (by decide)]
    exact finishDispatch_down_grab env _ A down _ _ ht hl hmo hf

/-- The log `l2` extends `l1` by cursor and tooltip calls on the host only. -/
theorem hintExt_refl (l : List Action) :
    ∃ c, l = l ++ c ∧ ∀ a ∈ c, a.isHostHint = true :=
  ⟨[], by simp, by simp⟩

theorem hintExt_SetCursor (l : List Action) (x : View W) (t : Int)
    (h : ∃ c, x.log = l ++ c ∧ ∀ a ∈ c, a.isHostHint = true) :
    ∃ c, (x.SetCursor t).log = l ++ c ∧ ∀ a ∈ c, a.isHostHint = true := by
  obtain ⟨c, hc, hall⟩ := h
  unfold View.SetCursor
  split
  · refine ⟨c ++ [Action.HostSetCursor t], ?_, ?_⟩
    · show x.log ++ [Action.HostSetCursor t] = l ++ (c ++ [Action.HostSetCursor t])
      rw [hc, List.append_assoc]
    · intro a ha
      rcases List.mem_append.mp ha with h1 | h1
      · exact hall a h1
      · simp at h1
        rw [h1]; rfl
  · exact ⟨c, hc, hall⟩

theorem hintExt_SetTooltip (l : List Action) (x : View W) (t : Option String)
    (h : ∃ c, x.log = l ++ c ∧ ∀ a ∈ c, a.isHostHint = true) :
    ∃ c, (x.SetTooltip t).log = l ++ c ∧ ∀ a ∈ c, a.isHostHint = true := by
  obtain ⟨c, hc, hall⟩ := h
  unfold View.SetTooltip
  split
  · refine ⟨c ++ [Action.HostSetTooltip t], ?_, ?_⟩
    · show x.log ++ [Action.HostSetTooltip t] = l ++ (c ++ [Action.HostSetTooltip t])
      rw [hc, List.append_assoc]
    · intro a ha
      rcases List.mem_append.mp ha with h1 | h1
      · exact hall a h1
      · simp at h1
        rw [h1]; rfl
  · exact ⟨c, hc, hall⟩

/-- The hit-test update only talks to the host, about cursor and tooltip. -/
theorem hitTestUpdate_log (env : Env W) (s : View W) (event : MouseEvent)
    (i : Option ElementId) :
    ∃ c, (hitTestUpdate env s event i).log = s.log ++ c ∧ ∀ a ∈ c, a.isHostHint = true := by
  unfold hitTestUpdate
  cases i with
  | none =>
    simp only []
    exact hintExt_SetCursor s.log _ _ (hintExt_refl s.log)
  | some i =>
    simp only []
    split
    · apply hintExt_SetTooltip
      exact hintExt_SetCursor s.log _ _ (hintExt_refl s.log)
    · exact hintExt_SetCursor s.log _ _ (hintExt_refl s.log)

theorem hitTestUpdate_mouseover (env : Env W) (s : View W) (event : MouseEvent)
    (i : Option ElementId) :
    (hitTestUpdate env s event i).mouseover_element_ = s.mouseover_element_ := by
  unfold hitTestUpdate
  cases i with
  | none => simp
  | some i =>
    simp only []
    split <;> simp

theorem hitTestUpdate_world (env : Env W) (s : View W) (event : MouseEvent)
    (i : Option ElementId) :
    (hitTestUpdate env s event i).world = s.world := by
  unfold hitTestUpdate
  cases i with
  | none => simp
  | some i =>
    simp only []
    split <;> simp

theorem grabDispatch_none (env : Env W) (s : View W) (e : MouseEvent)
    (h : s.grabmouse_element_ = none) : grabDispatch env s e = Sum.inr s := by
  unfold grabDispatch
  rw [h]

/-- The transition from mouse-over element `A` to the fired element `B`, when
`B` survives the `EVENT_MOUSE_OUT` handler of `A`. -/
theorem mouseOverTransition_swap (env : Env W) (s : View W) (event : MouseEvent)
    (A B : ElementId) (h_cur : s.mouseover_element_ = some A) (h_ne : A ≠ B)
    (h_alive : env.alive (env.ElementOnMouseEvent A (MapChildMouseEvent env s.world event A
      (synthesized EventType.EVENT_MOUSE_OUT event)) true s.world).world B = true) :
    (mouseOverTransition env s event (some B)).log = s.log ++
      [Action.ElementOnMouseEvent A (MapChildMouseEvent env s.world event A
          (synthesized EventType.EVENT_MOUSE_OUT event)) true,
       Action.ElementOnMouseEvent B (MapChildMouseEvent env
          (env.ElementOnMouseEvent A (MapChildMouseEvent env s.world event A
            (synthesized EventType.EVENT_MOUSE_OUT event)) true s.world).world event B
          (synthesized EventType.EVENT_MOUSE_OVER event)) true] ∧
    (mouseOverTransition env s event (some B)).mouseover_element_ =
      holderSync env (mouseOverTransition env s event (some B)).world (some B) := by
  have hne : (some B != some A) = true := by
    simp [bne_iff_ne, Ne.symm h_ne]
  unfold mouseOverTransition
  simp only [h_cur, hne, if_true, View.afterCall, holderSync_some, h_alive]
  simp

/-- The tail of the dispatch when the fired element `B` differs from the
mouse-over element `A` and survives the `EVENT_MOUSE_OUT` handler of `A`. -/
theorem finishDispatch_swap (env : Env W) (v : View W) (event : MouseEvent)
    (fired in_element : Option ElementId) (A B : ElementId)
    (hover : v.mouse_over_ = true) (hf : holderSync env v.world fired = some B)
    (h_cur : v.mouseover_element_ = some A) (h_ne : A ≠ B)
    (h_alive : env.alive (env.ElementOnMouseEvent A (MapChildMouseEvent env v.world event A
      (synthesized EventType.EVENT_MOUSE_OUT event)) true v.world).world B = true) :
    (∃ host, (finishDispatch env v event fired in_element).log = v.log ++
      [Action.ElementOnMouseEvent A (MapChildMouseEvent env v.world event A
          (synthesized EventType.EVENT_MOUSE_OUT event)) true,
       Action.ElementOnMouseEvent B (MapChildMouseEvent env
          (env.ElementOnMouseEvent A (MapChildMouseEvent env v.world event A
            (synthesized EventType.EVENT_MOUSE_OUT event)) true v.world).world event B
          (synthesized EventType.EVENT_MOUSE_OVER event)) true] ++ host ∧
      ∀ a ∈ host, a.isHostHint = true) ∧
    (finishDispatch env v event fired in_element).mouseover_element_ =
      holderSync env (finishDispatch env v event fired in_element).world (some B) := by
  unfold finishDispatch
  rw [if_neg (by simp [hover])]
  simp only [hf, hitTestUpdate_mouseover, hitTestUpdate_world]
  split
  · have h := mouseOverTransition_swap env
      ({ v with grabmouse_element_ := some B }) event A B h_cur h_ne h_alive
    refine ⟨?_, h.2⟩
    obtain ⟨c, hc, hall⟩ := hitTestUpdate_log env (mouseOverTransition env
      ({ v with grabmouse_element_ := some B }) event (some B)) event
      (holderSync env (mouseOverTransition env
        ({ v with grabmouse_element_ := some B }) event (some B)).world
        (holderSync env v.world in_element))
    exact ⟨c, hc.trans (by rw [h.1]), hall⟩
  · have h := mouseOverTransition_swap env v event A B h_cur h_ne h_alive
    refine ⟨?_, h.2⟩
    obtain ⟨c, hc, hall⟩ := hitTestUpdate_log env (mouseOverTransition env v event (some B))
      event (holderSync env (mouseOverTransition env v event (some B)).world
        (holderSync env v.world in_element))
    exact ⟨c, hc.trans (by rw [h.1]), hall⟩

/-- C2 (as amended): for every mouse event dispatched by the normal path (no
grab, event type neither `EVENT_MOUSE_OVER` nor `EVENT_MOUSE_OUT`, mouse over
the view) whose fired element `B` differs from the current mouse-over element
`A`, and provided `B` still exists when the `EVENT_MOUSE_OUT` handler of `A`
returns: `A` receives exactly one synthesized `EVENT_MOUSE_OUT`, then `B`
receives exactly one synthesized `EVENT_MOUSE_OVER`, both directly, whatever
`A`'s handler did to visibility or enabled state; the only later calls are
cursor and tooltip updates on the host; and `mouseover_element_` is `B`
afterwards (a weak reference: null if the handler of `B` destroyed `B`). -/
theorem C2_mouseover_transition (env : Env W) (s : View W) (event : MouseEvent)
    (A B : ElementId)
    (h_nograb : s.grabmouse_element_ = none)
    (h_t1 : event.type ≠ EventType.EVENT_MOUSE_OVER)
    (h_t2 : event.type ≠ EventType.EVENT_MOUSE_OUT)
    (h_over : s.mouse_over_ = true)
    (h_fired : firedElement env s event = some B)
    (h_cur : (childrenDispatch env s event).2.2.2.mouseover_element_ = some A)
    (h_ne : A ≠ B)
    (h_alive : env.alive (env.ElementOnMouseEvent A
      (MapChildMouseEvent env (childrenDispatch env s event).2.2.2.world event A
        (synthesized EventType.EVENT_MOUSE_OUT event)) true
      (childrenDispatch env s event).2.2.2.world).world B = true) :
    (∃ host, (SendMouseEventToChildren env s event).2.log =
      (childrenDispatch env s event).2.2.2.log ++
        [Action.ElementOnMouseEvent A
          (MapChildMouseEvent env (childrenDispatch env s event).2.2.2.world event A
            (synthesized EventType.EVENT_MOUSE_OUT event)) true,
         Action.ElementOnMouseEvent B
          (MapChildMouseEvent env (env.ElementOnMouseEvent A
              (MapChildMouseEvent env (childrenDispatch env s event).2.2.2.world event A
                (synthesized EventType.EVENT_MOUSE_OUT event)) true
              (childrenDispatch env s event).2.2.2.world).world event B
            (synthesized EventType.EVENT_MOUSE_OVER event)) true] ++ host ∧
      ∀ a ∈ host, a.isHostHint = true) ∧
    (SendMouseEventToChildren env s event).2.mouseover_element_ =
      holderSync env (SendMouseEventToChildren env s event).2.world (some B) := by
  unfold firedElement at h_fired
  rw [grabDispatch_none env s event h_nograb] at h_fired
  simp only [] at h_fired
  have hmo : (childrenDispatch env s event).2.2.2.mouse_over_ = true := by
    rw [childrenDispatch_mouse_over, h_over]
  unfold SendMouseEventToChildren
  simp only [grabDispatch_none env s event h_nograb]
  rw [if_neg (by simpa using h_t1), if_neg (by simpa using h_t2)]
  exact finishDispatch_swap env _ event _ _ A B hmo h_fired h_cur h_ne h_alive

/-- C2, witness: in the scene the mouse moves from element `1` to element `2`. -/
theorem C2_mouseover_transition_witness :
    (SendMouseEventToChildren sceneEnv (overOneView sceneEnv)
      (mouseAt EventType.EVENT_MOUSE_MOVE 150 0)).2.mouseover_element_ =
    holderSync sceneEnv (SendMouseEventToChildren sceneEnv (overOneView sceneEnv)
      (mouseAt EventType.EVENT_MOUSE_MOVE 150 0)).2.world (some 2) :=
  (C2_mouseover_transition sceneEnv (overOneView sceneEnv)
    (mouseAt EventType.EVENT_MOUSE_MOVE 150 0) 1 2
    (by decide) (by decide) (by decide) (by decide) (by decide) (by decide) (by decide)
    (by decide)).2

/-- C2, counterexample: the `EVENT_MOUSE_OUT` handler of element `1` removes
element `2`.  The mouse is over `1`, nothing grabs it, and a move to `x = 150`
is fired on `2`; `1` gets its `EVENT_MOUSE_OUT`, but no `EVENT_MOUSE_OVER` is
sent to `2` and `mouseover_element_` ends up null. -/
theorem C2_counterexample :
    (overOneView removingEnv).grabmouse_element_ = none ∧
    (overOneView removingEnv).mouse_over_ = true ∧
    (overOneView removingEnv).mouseover_element_ = some 1 ∧
    firedElement removingEnv (overOneView removingEnv)
      (mouseAt EventType.EVENT_MOUSE_MOVE 150 0) = some 2 ∧
    (SendMouseEventToChildren removingEnv (overOneView removingEnv)
      (mouseAt EventType.EVENT_MOUSE_MOVE 150 0)).2.log =
    (overOneView removingEnv).log ++
      [Action.ChildrenOnMouseEvent (mouseAt EventType.EVENT_MOUSE_MOVE 150 0),
       Action.ElementOnMouseEvent 1 (mouseAt EventType.EVENT_MOUSE_OUT 150 0) true] ∧
    (SendMouseEventToChildren removingEnv (overOneView removingEnv)
      (mouseAt EventType.EVENT_MOUSE_MOVE 150 0)).2.mouseover_element_ = none := by
  decide

/-- C3: for every view whose focused element is `A` and every element `B`
different from `A` that is not really enabled, `SetFocus(B)` changes nothing:
no `EVENT_FOCUS_OUT` goes to `A`, no `EVENT_FOCUS_IN` goes to `B` (the call log
is unchanged) and `focused_element_` is still `A`. -/
theorem C3_focus_disabled_rejected (env : Env W) (s : View W) (A B : ElementId)
    (h_focus : s.focused_element_ = some A) (_h_ne : B ≠ A)
    (h_disabled : env.IsReallyEnabled s.world B = false) :
    SetFocus env s (some B) = s ∧
    (SetFocus env s (some B)).log = s.log ∧
    (SetFocus env s (some B)).focused_element_ = some A := by
  have h : SetFocus env s (some B) = s := by
    unfold SetFocus
    simp [h_disabled]
  rw [h]
  exact ⟨rfl, rfl, h_focus⟩

/-- C3, witness: focus on element `1`, element `2` disabled, `SetFocus(2)`. -/
theorem C3_focus_disabled_rejected_witness :
    SetFocus sceneEnv focusOneDisabledTwoView (some 2) = focusOneDisabledTwoView :=
  (C3_focus_disabled_rejected sceneEnv focusOneDisabledTwoView 1 2 rfl (by decide) rfl).1

theorem focusRevert_log (env : Env W) (x : View W) (old : Option ElementId) :
    ∃ rest, (focusRevert env x old).log = x.log ++ rest := by
  unfold focusRevert
  cases old with
  | none => exact ⟨[], by simp⟩
  | some o =>
    simp only []
    split
    · exact ⟨[Action.ElementOnOtherEvent o EventType.EVENT_FOCUS_IN], rfl⟩
    · exact ⟨[Action.ElementOnOtherEvent o EventType.EVENT_FOCUS_IN], rfl⟩

/-- `SetFocus(B)` when `A` is focused, `B` differs from `A` and is really
enabled: the guard of view.cc 1121-1122 passes and `A` is sent
`EVENT_FOCUS_OUT`. -/
theorem removeFocus_some (env : Env W) (s : View W) (A : ElementId)
    (element : Option ElementId) (h_focus : s.focused_element_ = some A) :
    removeFocus env s element =
      ((env.ElementOnOtherEvent A EventType.EVENT_FOCUS_OUT s.world).1
          == EventResult.EVENT_RESULT_CANCELED,
        s.afterCall env (Action.ElementOnOtherEvent A EventType.EVENT_FOCUS_OUT)
          (env.ElementOnOtherEvent A EventType.EVENT_FOCUS_OUT s.world).2,
        holderSync env (env.ElementOnOtherEvent A EventType.EVENT_FOCUS_OUT s.world).2
          element) := by
  unfold removeFocus
  rw [h_focus]

theorem SetFocus_guard (env : Env W) (s : View W) (A B : ElementId)
    (h_focus : s.focused_element_ = some A) (h_ne : B ≠ A)
    (h_enabled : env.IsReallyEnabled s.world B = true) :
    (some B != s.focused_element_ &&
      (match some B with
       | some e => env.IsReallyEnabled s.world e
       | none => true)) = true := by
  simp [h_focus, h_ne, h_enabled]

/-- C5 (as amended): for `SetFocus(B)` with `A` focused, `B` different from `A`
and really enabled: if the handler of `A` returns CANCELED for
`EVENT_FOCUS_OUT`, that is the only event sent (`B` receives no
`EVENT_FOCUS_IN`) and `focused_element_` stays `A` (a weak reference: null if
the handler destroyed `A`); if it is not CANCELED and `B` still exists and is
still really enabled when the handler returns, the `EVENT_FOCUS_IN` of `B` is
sent right after the `EVENT_FOCUS_OUT` of `A`. -/
theorem C5_focus_veto (env : Env W) (s : View W) (A B : ElementId)
    (h_focus : s.focused_element_ = some A) (h_ne : B ≠ A)
    (h_enabled : env.IsReallyEnabled s.world B = true) :
    ((env.ElementOnOtherEvent A EventType.EVENT_FOCUS_OUT s.world).1
        = EventResult.EVENT_RESULT_CANCELED →
      (SetFocus env s (some B)).log =
        s.log ++ [Action.ElementOnOtherEvent A EventType.EVENT_FOCUS_OUT] ∧
      (SetFocus env s (some B)).focused_element_ = holderSync env
        (env.ElementOnOtherEvent A EventType.EVENT_FOCUS_OUT s.world).2 (some A)) ∧
    ((env.ElementOnOtherEvent A EventType.EVENT_FOCUS_OUT s.world).1
        ≠ EventResult.EVENT_RESULT_CANCELED →
      env.alive (env.ElementOnOtherEvent A EventType.EVENT_FOCUS_OUT s.world).2 B = true →
      env.IsReallyEnabled (env.ElementOnOtherEvent A EventType.EVENT_FOCUS_OUT s.world).2 B
        = true →
      ∃ rest, (SetFocus env s (some B)).log =
        s.log ++ [Action.ElementOnOtherEvent A EventType.EVENT_FOCUS_OUT,
          Action.ElementOnOtherEvent B EventType.EVENT_FOCUS_IN] ++ rest) := by
  constructor
  · intro hc
    unfold SetFocus
    rw [if_pos (SetFocus_guard env s A B h_focus h_ne h_enabled),
      removeFocus_some env s A (some B) h_focus]
    simp only [hc, beq_self_eq_true, Bool.not_true, Bool.false_eq_true, if_false]
    exact ⟨rfl, by simp [View.afterCall, h_focus]⟩
  · intro hc ha he
    unfold SetFocus
    rw [if_pos (SetFocus_guard env s A B h_focus h_ne h_enabled),
      removeFocus_some env s A (some B) h_focus]
    have hc' : ((env.ElementOnOtherEvent A EventType.EVENT_FOCUS_OUT s.world).1
        == EventResult.EVENT_RESULT_CANCELED) = false := by
      simpa using hc
    simp only [hc', Bool.not_false, if_true, holderSync_some, ha]
    simp only [View.afterCall, he, Bool.not_true, Bool.false_eq_true, if_false]
    split
    · obtain ⟨rest, hr⟩ := focusRevert_log env
        (View.afterCall env
          ({ (View.afterCall env s (Action.ElementOnOtherEvent A EventType.EVENT_FOCUS_OUT)
              (env.ElementOnOtherEvent A EventType.EVENT_FOCUS_OUT s.world).2) with
            focused_element_ := some B })
          (Action.ElementOnOtherEvent B EventType.EVENT_FOCUS_IN)
          (env.ElementOnOtherEvent B EventType.EVENT_FOCUS_IN
            (env.ElementOnOtherEvent A EventType.EVENT_FOCUS_OUT s.world).2).2)
        (holderSync env (env.ElementOnOtherEvent B EventType.EVENT_FOCUS_IN
            (env.ElementOnOtherEvent A EventType.EVENT_FOCUS_OUT s.world).2).2
          (holderSync env (env.ElementOnOtherEvent A EventType.EVENT_FOCUS_OUT s.world).2
            s.focused_element_))
      refine ⟨rest, ?_⟩
      refine hr.trans ?_
      simp [View.afterCall]
    · exact ⟨[], by simp⟩

/-- C5, witness: focus on element `1`, which vetoes `EVENT_FOCUS_OUT`;
`SetFocus(2)` sends that single event. -/
theorem C5_focus_veto_witness :
    (SetFocus vetoEnv focusOneView (some 2)).log =
      focusOneView.log ++ [Action.ElementOnOtherEvent 1 EventType.EVENT_FOCUS_OUT] :=
  ((C5_focus_veto vetoEnv focusOneView 1 2 rfl (by decide) rfl).1 rfl).1

/-- C5, counterexample: the `EVENT_FOCUS_OUT` handler of element `1` does not
cancel but disables element `2`.  `SetFocus(2)` then sends no `EVENT_FOCUS_IN`
to `2`: the events are the `EVENT_FOCUS_OUT` of `1` and a retried
`EVENT_FOCUS_IN` of `1`. -/
theorem C5_counterexample :
    focusOneView.focused_element_ = some 1 ∧
    disablingEnv.IsReallyEnabled focusOneView.world 2 = true ∧
    (disablingEnv.ElementOnOtherEvent 1 EventType.EVENT_FOCUS_OUT focusOneView.world).1
      ≠ EventResult.EVENT_RESULT_CANCELED ∧
    (SetFocus disablingEnv focusOneView (some 2)).log =
      [Action.ElementOnOtherEvent 1 EventType.EVENT_FOCUS_OUT,
       Action.ElementOnOtherEvent 1 EventType.EVENT_FOCUS_IN] := by
  decide

/-- The revert step when the old focused element `A` still exists: `A` is sent
`EVENT_FOCUS_IN` again. -/
theorem focusRevert_some (env : Env W) (x : View W) (A : ElementId) :
    (focusRevert env x (some A)).log =
        x.log ++ [Action.ElementOnOtherEvent A EventType.EVENT_FOCUS_IN] ∧
      (focusRevert env x (some A)).focused_element_ =
        (if (env.ElementOnOtherEvent A EventType.EVENT_FOCUS_IN x.world).1
            = EventResult.EVENT_RESULT_CANCELED then none
         else holderSync env (env.ElementOnOtherEvent A EventType.EVENT_FOCUS_IN x.world).2
           (some A)) := by
  unfold focusRevert
  simp only []
  by_cases hc : (env.ElementOnOtherEvent A EventType.EVENT_FOCUS_IN x.world).1
      = EventResult.EVENT_RESULT_CANCELED
  · simp [hc, View.afterCall]
  · simp [hc, View.afterCall]

theorem focusRevert_focus_cases (env : Env W) (x : View W) (old : Option ElementId) :
    (focusRevert env x old).focused_element_ = old ∨
    (focusRevert env x old).focused_element_ = none := by
  cases old with
  | none => left; rfl
  | some A =>
    rw [(focusRevert_some env x A).2]
    split
    · right; rfl
    · exact holderSync_cases _ _ _

/-- After `SetFocus(element)` the focused element is the one focused before,
`element`, or none. -/
theorem SetFocus_focus_cases (env : Env W) (s : View W) (element : Option ElementId) :
    (SetFocus env s element).focused_element_ = s.focused_element_ ∨
    (SetFocus env s element).focused_element_ = element ∨
    (SetFocus env s element).focused_element_ = none := by
  have hsync : ∀ (w : W) (h : Option ElementId) (v : Option ElementId),
      (v = h ∨ v = none) → (holderSync env w v = h ∨ holderSync env w v = none) := by
    intro w h v hv
    rcases hv with hv | hv
    · rw [hv]; exact holderSync_cases _ _ _
    · rw [hv]; right; rfl
  unfold SetFocus
  split
  · -- the guard passed
    have hr1 : (removeFocus env s element).2.1.focused_element_ = s.focused_element_ ∨
        (removeFocus env s element).2.1.focused_element_ = none := by
      unfold removeFocus
      cases hf : s.focused_element_ with
      | none => left; exact hf
      | some f =>
        simp only [View.afterCall, hf]
        exact holderSync_cases _ _ _
    have hr2 : (removeFocus env s element).2.2 = element ∨
        (removeFocus env s element).2.2 = none := by
      unfold removeFocus
      cases s.focused_element_ with
      | none => left; rfl
      | some f => exact holderSync_cases _ _ _
    simp only []
    split
    · cases hn : (removeFocus env s element).2.2 with
      | none => right; right; rfl
      | some n =>
        have hn' : some n = element := by
          rcases hr2 with h | h
          · rw [← h, hn]
          · rw [hn] at h; cases h
        simp only []
        split
        · rcases focusRevert_focus_cases env
            ({ (removeFocus env s element).2.1 with focused_element_ := some n })
            (removeFocus env s element).2.1.focused_element_ with h | h
          · rcases hr1 with h1 | h1
            · left; exact h.trans h1
            · right; right; exact h.trans h1
          · right; right; exact h
        · split
          · rcases focusRevert_focus_cases env
              (View.afterCall env
                ({ (removeFocus env s element).2.1 with focused_element_ := some n })
                (Action.ElementOnOtherEvent n EventType.EVENT_FOCUS_IN)
                (env.ElementOnOtherEvent n EventType.EVENT_FOCUS_IN
                  (removeFocus env s element).2.1.world).2)
              (holderSync env (env.ElementOnOtherEvent n EventType.EVENT_FOCUS_IN
                  (removeFocus env s element).2.1.world).2
                (removeFocus env s element).2.1.focused_element_) with h | h
            · rcases hsync (env.ElementOnOtherEvent n EventType.EVENT_FOCUS_IN
                  (removeFocus env s element).2.1.world).2 s.focused_element_
                (removeFocus env s element).2.1.focused_element_ hr1 with h1 | h1
              · left; exact h.trans h1
              · right; right; exact h.trans h1
            · right; right; exact h
          · rcases holderSync_cases env (env.ElementOnOtherEvent n EventType.EVENT_FOCUS_IN
                (removeFocus env s element).2.1.world).2 (some n) with h | h
            · right; left; exact h.trans hn'
            · right; right; exact h
    · rcases hr1 with h | h
      · left; exact h
      · right; right; exact h
  · left; rfl

theorem afterCall_world (env : Env W) (s : View W) (a : Action) (w : W) :
    (s.afterCall env a w).world = w := rfl

theorem afterCall_focused (env : Env W) (s : View W) (a : Action) (w : W) :
    (s.afterCall env a w).focused_element_ = holderSync env w s.focused_element_ := rfl

theorem afterCall_log (env : Env W) (s : View W) (a : Action) (w : W) :
    (s.afterCall env a w).log = s.log ++ [a] := rfl

theorem focusRevert_none (env : Env W) (x : View W) :
    focusRevert env x none = { x with focused_element_ := none } := rfl

/-- The revert step (view.cc 1137-1142) for an old focused element that is `A`
or null. -/
theorem focusRevert_spec (env : Env W) (x : View W) (A : ElementId)
    (old : Option ElementId) (h : old = some A ∨ old = none) :
    (focusRevert env x old).log = x.log ++
        (if old = some A then [Action.ElementOnOtherEvent A EventType.EVENT_FOCUS_IN]
         else []) ∧
      (focusRevert env x old).focused_element_ =
        (if old = some A then
          (if (env.ElementOnOtherEvent A EventType.EVENT_FOCUS_IN x.world).1
              = EventResult.EVENT_RESULT_CANCELED then none
           else holderSync env (env.ElementOnOtherEvent A EventType.EVENT_FOCUS_IN x.world).2
             (some A))
         else none) := by
  rcases h with h | h
  · rw [h, if_pos rfl, if_pos rfl]
    exact focusRevert_some env x A
  · rw [h, focusRevert_none]
    simp

/-- The view at view.cc 1137, when `A` had the focus, its `EVENT_FOCUS_OUT`
was not canceled and the still existing `B` is turned down. -/
theorem SetFocus_reverts (env : Env W) (s : View W) (A B : ElementId)
    (h_focus : s.focused_element_ = some A) (h_ne : B ≠ A)
    (h_enabled : env.IsReallyEnabled s.world B = true)
    (h_out : (env.ElementOnOtherEvent A EventType.EVENT_FOCUS_OUT s.world).1
      ≠ EventResult.EVENT_RESULT_CANCELED)
    (h_B : env.alive (env.ElementOnOtherEvent A EventType.EVENT_FOCUS_OUT s.world).2 B = true)
    (h_rejected : focusRejected env
      (env.ElementOnOtherEvent A EventType.EVENT_FOCUS_OUT s.world).2 B = true) :
    ∃ x : View W,
      x.world = revertWorld env
        (env.ElementOnOtherEvent A EventType.EVENT_FOCUS_OUT s.world).2 B ∧
      x.log = s.log ++ [Action.ElementOnOtherEvent A EventType.EVENT_FOCUS_OUT] ++
        focusInAttempt env (env.ElementOnOtherEvent A EventType.EVENT_FOCUS_OUT s.world).2 B ∧
      SetFocus env s (some B) = focusRevert env x (oldFocusAtRevert env
        (env.ElementOnOtherEvent A EventType.EVENT_FOCUS_OUT s.world).2 A B) := by
  have hc' : ((env.ElementOnOtherEvent A EventType.EVENT_FOCUS_OUT s.world).1
      == EventResult.EVENT_RESULT_CANCELED) = false := by
    simpa using h_out
  by_cases he : env.IsReallyEnabled
      (env.ElementOnOtherEvent A EventType.EVENT_FOCUS_OUT s.world).2 B = true
  · have hcan : ((env.ElementOnOtherEvent B EventType.EVENT_FOCUS_IN
        (env.ElementOnOtherEvent A EventType.EVENT_FOCUS_OUT s.world).2).1
        == EventResult.EVENT_RESULT_CANCELED) = true := by
      simpa [focusRejected, he] using h_rejected
    refine ⟨View.afterCall env
        ({ (View.afterCall env s (Action.ElementOnOtherEvent A EventType.EVENT_FOCUS_OUT)
            (env.ElementOnOtherEvent A EventType.EVENT_FOCUS_OUT s.world).2) with
          focused_element_ := some B })
        (Action.ElementOnOtherEvent B EventType.EVENT_FOCUS_IN)
        (env.ElementOnOtherEvent B EventType.EVENT_FOCUS_IN
          (env.ElementOnOtherEvent A EventType.EVENT_FOCUS_OUT s.world).2).2, ?_, ?_, ?_⟩
    · simp [View.afterCall, revertWorld, he]
    · simp [View.afterCall, focusInAttempt, he]
    · unfold SetFocus
      rw [if_pos (SetFocus_guard env s A B h_focus h_ne h_enabled),
        removeFocus_some env s A (some B) h_focus]
      simp only [hc', Bool.not_false, if_true, holderSync_some, h_B]
      simp only [afterCall_world, afterCall_focused, h_focus, he, Bool.not_true,
        Bool.false_eq_true, if_false, hcan, if_true, oldFocusAtRevert, revertWorld]
  · have he' : env.IsReallyEnabled
        (env.ElementOnOtherEvent A EventType.EVENT_FOCUS_OUT s.world).2 B = false := by
      simpa using he
    have hidem : holderSync env
        (env.ElementOnOtherEvent A EventType.EVENT_FOCUS_OUT s.world).2
        (holderSync env (env.ElementOnOtherEvent A EventType.EVENT_FOCUS_OUT s.world).2
          (some A)) =
        holderSync env (env.ElementOnOtherEvent A EventType.EVENT_FOCUS_OUT s.world).2
          (some A) := by
      by_cases ha : env.alive
          (env.ElementOnOtherEvent A EventType.EVENT_FOCUS_OUT s.world).2 A = true
      · simp [holderSync_some, ha]
      · simp [holderSync_some, ha]
    refine ⟨({ (View.afterCall env s (Action.ElementOnOtherEvent A EventType.EVENT_FOCUS_OUT)
            (env.ElementOnOtherEvent A EventType.EVENT_FOCUS_OUT s.world).2) with
          focused_element_ := some B }), ?_, ?_, ?_⟩
    · simp [View.afterCall, revertWorld, he']
    · simp [View.afterCall, focusInAttempt, he']
    · unfold SetFocus
      rw [if_pos (SetFocus_guard env s A B h_focus h_ne h_enabled),
        removeFocus_some env s A (some B) h_focus]
      simp only [hc', Bool.not_false, if_true, holderSync_some, h_B]
      simp only [afterCall_world, afterCall_focused, h_focus, he', Bool.not_false,
        if_true, oldFocusAtRevert, revertWorld, Bool.false_eq_true, if_false, hidem]

/-- C4 (as amended): for `SetFocus(B)` with `B` passing the entry check.
With `A` focused, the `EVENT_FOCUS_OUT` of `A` not CANCELED, and `B` (still
existing) either no longer really enabled when checked or returning CANCELED
to `EVENT_FOCUS_IN`: focus is set back to the old focused element as its weak
holder reads at that moment, which is `A` if `A` still exists and null
otherwise; in the first case `A` receives `EVENT_FOCUS_IN` again, as the last
event, and the final focused element is none if that retried event is CANCELED
and `A` otherwise (null if that handler destroyed `A`); in the second case
nothing more is sent and the final focused element is none.  With nothing
focused and `B` returning CANCELED to `EVENT_FOCUS_IN`, the final focused
element is none.  In every case the final focused element is the one focused
before, `B` or none. -/
theorem C4_focus_revert (env : Env W) (s : View W) (B : ElementId)
    (h_enabled : env.IsReallyEnabled s.world B = true) :
    (∀ A : ElementId, s.focused_element_ = some A → B ≠ A →
      (env.ElementOnOtherEvent A EventType.EVENT_FOCUS_OUT s.world).1
        ≠ EventResult.EVENT_RESULT_CANCELED →
      env.alive (env.ElementOnOtherEvent A EventType.EVENT_FOCUS_OUT s.world).2 B = true →
      focusRejected env (env.ElementOnOtherEvent A EventType.EVENT_FOCUS_OUT s.world).2 B
        = true →
      (SetFocus env s (some B)).log =
        s.log ++ [Action.ElementOnOtherEvent A EventType.EVENT_FOCUS_OUT] ++
          focusInAttempt env (env.ElementOnOtherEvent A EventType.EVENT_FOCUS_OUT s.world).2 B ++
          (if oldFocusAtRevert env
              (env.ElementOnOtherEvent A EventType.EVENT_FOCUS_OUT s.world).2 A B = some A
            then [Action.ElementOnOtherEvent A EventType.EVENT_FOCUS_IN] else []) ∧
      (SetFocus env s (some B)).focused_element_ =
        (if oldFocusAtRevert env
            (env.ElementOnOtherEvent A EventType.EVENT_FOCUS_OUT s.world).2 A B = some A
          then
            (if (env.ElementOnOtherEvent A EventType.EVENT_FOCUS_IN (revertWorld env
                  (env.ElementOnOtherEvent A EventType.EVENT_FOCUS_OUT s.world).2 B)).1
                = EventResult.EVENT_RESULT_CANCELED then none
             else holderSync env (env.ElementOnOtherEvent A EventType.EVENT_FOCUS_IN
                (revertWorld env
                  (env.ElementOnOtherEvent A EventType.EVENT_FOCUS_OUT s.world).2 B)).2
                (some A))
          else none) ∧
      (env.alive (env.ElementOnOtherEvent A EventType.EVENT_FOCUS_OUT s.world).2 A = true →
        env.alive (revertWorld env
          (env.ElementOnOtherEvent A EventType.EVENT_FOCUS_OUT s.world).2 B) A = true →
        oldFocusAtRevert env
          (env.ElementOnOtherEvent A EventType.EVENT_FOCUS_OUT s.world).2 A B = some A)) ∧
    (s.focused_element_ = none →
      (env.ElementOnOtherEvent B EventType.EVENT_FOCUS_IN s.world).1
        = EventResult.EVENT_RESULT_CANCELED →
      (SetFocus env s (some B)).log =
        s.log ++ [Action.ElementOnOtherEvent B EventType.EVENT_FOCUS_IN] ∧
      (SetFocus env s (some B)).focused_element_ = none) ∧
    ((SetFocus env s (some B)).focused_element_ = s.focused_element_ ∨
      (SetFocus env s (some B)).focused_element_ = some B ∨
      (SetFocus env s (some B)).focused_element_ = none) := by
  refine ⟨?_, ?_, SetFocus_focus_cases env s (some B)⟩
  · intro A h_focus h_ne h_out h_B h_rejected
    have hold : oldFocusAtRevert env
        (env.ElementOnOtherEvent A EventType.EVENT_FOCUS_OUT s.world).2 A B = some A ∨
        oldFocusAtRevert env
        (env.ElementOnOtherEvent A EventType.EVENT_FOCUS_OUT s.world).2 A B = none := by
      unfold oldFocusAtRevert
      rcases holderSync_cases env
        (env.ElementOnOtherEvent A EventType.EVENT_FOCUS_OUT s.world).2 (some A) with h | h
      · rw [h]; exact holderSync_cases _ _ _
      · rw [h]; right; rfl
    obtain ⟨x, hxw, hxl, hS⟩ := SetFocus_reverts env s A B h_focus h_ne h_enabled h_out h_B
      h_rejected
    obtain ⟨k1, k2⟩ := focusRevert_spec env x A _ hold
    rw [hS]
    refine ⟨?_, ?_, ?_⟩
    · rw [k1, hxl]
    · rw [k2, hxw]
    · intro h1 h2
      simp [oldFocusAtRevert, holderSync_some, h1, h2]
  · intro h_none h_cancel
    have hguard : (some B != s.focused_element_ &&
        (match some B with
         | some e => env.IsReallyEnabled s.world e
         | none => true)) = true := by
      simp [h_none, h_enabled]
    have hrm : removeFocus env s (some B) = (false, s, some B) := by
      unfold removeFocus
      rw [h_none]
    unfold SetFocus
    rw [if_pos hguard, hrm]
    simp only [Bool.not_false, if_true, h_enabled, Bool.not_true, Bool.false_eq_true,
      if_false, h_cancel, beq_self_eq_true, h_none, holderSync_none, focusRevert_none,
      afterCall_log, and_self]

/-- C4, witness: focus on element `1`; element `2` cancels `EVENT_FOCUS_IN`;
after `SetFocus(2)` the focus is back on `1`, which got `EVENT_FOCUS_IN`
again. -/
theorem C4_focus_revert_witness :
    (SetFocus refusingEnv focusOneView (some 2)).log =
      focusOneView.log ++ [Action.ElementOnOtherEvent 1 EventType.EVENT_FOCUS_OUT] ++
        focusInAttempt refusingEnv (refusingEnv.ElementOnOtherEvent 1
          EventType.EVENT_FOCUS_OUT focusOneView.world).2 2 ++
        (if oldFocusAtRevert refusingEnv (refusingEnv.ElementOnOtherEvent 1
            EventType.EVENT_FOCUS_OUT focusOneView.world).2 1 2 = some 1
          then [Action.ElementOnOtherEvent 1 EventType.EVENT_FOCUS_IN] else []) :=
  ((C4_focus_revert refusingEnv focusOneView 2 rfl).1 1 rfl (by decide) (by decide) rfl
    rfl).1

/-- C4, counterexample: element `1` has the focus and removes itself in its
`EVENT_FOCUS_OUT` handler (which does not cancel); element `2` cancels
`EVENT_FOCUS_IN`.  After `SetFocus(2)` no `EVENT_FOCUS_IN` was retried on `1`
and the focus is none, although no retried `EVENT_FOCUS_IN` was canceled. -/
theorem C4_counterexample :
    focusOneView.focused_element_ = some 1 ∧
    selfRemovingEnv.IsReallyEnabled focusOneView.world 2 = true ∧
    (selfRemovingEnv.ElementOnOtherEvent 1 EventType.EVENT_FOCUS_OUT focusOneView.world).1
      ≠ EventResult.EVENT_RESULT_CANCELED ∧
    (SetFocus selfRemovingEnv focusOneView (some 2)).log =
      [Action.ElementOnOtherEvent 1 EventType.EVENT_FOCUS_OUT,
       Action.ElementOnOtherEvent 2 EventType.EVENT_FOCUS_IN] ∧
    (SetFocus selfRemovingEnv focusOneView (some 2)).focused_element_ = none := by
  decide

/-- C6 (as amended): with a grab on a really enabled element `G` and the left
button held, an `EVENT_MOUSE_MOVE`, `EVENT_MOUSE_UP` or `EVENT_MOUSE_CLICK` is
routed to `G` and the dispatch returns the result of `G`'s handler; after a
click the grab is null; after a move or an up the view has not released the
grab: it is still `G` whenever `G` still exists when its handler returns (the
tracker is a weak reference and reads null otherwise). -/
theorem C6_grab_release_on_click (env : Env W) (s : View W) (G : ElementId)
    (e : MouseEvent)
    (h_grab : s.grabmouse_element_ = some G)
    (h_enabled : env.IsReallyEnabled s.world G = true)
    (h_left : leftDown env e = true)
    (h_type : e.type = EventType.EVENT_MOUSE_MOVE ∨ e.type = EventType.EVENT_MOUSE_UP ∨
      e.type = EventType.EVENT_MOUSE_CLICK) :
    (SendMouseEventToChildren env s e).1 =
      (env.ElementOnMouseEvent G (MapChildMouseEvent env s.world e G e) true s.world).result ∧
    (e.type = EventType.EVENT_MOUSE_CLICK →
      (SendMouseEventToChildren env s e).2.grabmouse_element_ = none) ∧
    (e.type ≠ EventType.EVENT_MOUSE_CLICK →
      (SendMouseEventToChildren env s e).2.grabmouse_element_ = holderSync env
        (env.ElementOnMouseEvent G (MapChildMouseEvent env s.world e G e) true s.world).world
        (some G)) ∧
    (e.type ≠ EventType.EVENT_MOUSE_CLICK →
      env.alive (env.ElementOnMouseEvent G (MapChildMouseEvent env s.world e G e) true
        s.world).world G = true →
      (SendMouseEventToChildren env s e).2.grabmouse_element_ = some G) := by
  have hne : e.type ≠ EventType.EVENT_MOUSE_OVER := by
    rcases h_type with ht | ht | ht <;> simp [ht]
  rw [send_of_routed env s e _ hne (grabDispatch_routed env s G e h_grab h_enabled h_left h_type)]
  obtain ⟨h1, h2, _⟩ := routeToGrab_spec env s G e h_grab
  refine ⟨h1, ?_, ?_, ?_⟩
  · intro hc
    rw [h2, if_pos hc]
  · intro hnc
    rw [h2, if_neg hnc]
  · intro hnc ha
    rw [h2, if_neg hnc, holderSync_some, ha]
    rfl

/-- C6, witness: in the scene element `1` grabs the mouse; a release with the
left button held at `x = 150` returns its handler's result and keeps the
grab. -/
theorem C6_grab_release_on_click_witness :
    (SendMouseEventToChildren sceneEnv grabOneView
      (mouseAt EventType.EVENT_MOUSE_UP 150 1)).2.grabmouse_element_ = some 1 :=
  (C6_grab_release_on_click sceneEnv grabOneView 1 (mouseAt EventType.EVENT_MOUSE_UP 150 1)
    rfl rfl rfl (by decide)).2.2.2 (by decide) rfl

/-- C6, counterexample: element `1` is really enabled and grabs the mouse; its
handler removes it from the view on `EVENT_MOUSE_UP`.  After an
`EVENT_MOUSE_UP` with the left button held has been routed to it, the grab is
null, not `1`. -/
theorem C6_counterexample :
    grabOneView.grabmouse_element_ = some 1 ∧
    closingEnv.IsReallyEnabled grabOneView.world 1 = true ∧
    (SendMouseEventToChildren closingEnv grabOneView
      (mouseAt EventType.EVENT_MOUSE_UP 50 1)).2.log =
      [Action.ElementOnMouseEvent 1 (mouseAt EventType.EVENT_MOUSE_UP 50 1) true] ∧
    (SendMouseEventToChildren closingEnv grabOneView
      (mouseAt EventType.EVENT_MOUSE_UP 50 1)).2.grabmouse_element_ = none := by
  decide

/-- The only caller of `SendMouseEventToChildren` (view.cc 608-618) never hands
it an `EVENT_MOUSE_OVER`: such an event is turned into an `EVENT_MOUSE_MOVE`
first, and every other event is handed over as it is. -/
theorem toChildren_event (env : Env W) (f : EventResult × View W) (ev : MouseEvent)
    (h : f.1 ≠ EventResult.EVENT_RESULT_CANCELED) :
    ∃ ev', ev'.type ≠ EventType.EVENT_MOUSE_OVER ∧
      (ev.type ≠ EventType.EVENT_MOUSE_OVER → ev' = ev) ∧
      toChildren env f ev = SendMouseEventToChildren env f.2 ev' := by
  have hc : (f.1 != EventResult.EVENT_RESULT_CANCELED) = true := by simpa using h
  unfold toChildren
  rw [if_pos hc]
  by_cases ht : ev.type = EventType.EVENT_MOUSE_OVER
  · refine ⟨fakeEvent env EventType.EVENT_MOUSE_MOVE ev, ?_, fun hne => absurd ht hne, ?_⟩
    · show EventType.EVENT_MOUSE_MOVE ≠ EventType.EVENT_MOUSE_OVER
      decide
    · rw [if_pos (by simpa using ht)]
  · refine ⟨ev, ht, fun _ => rfl, ?_⟩
    rw [if_neg (by simpa using ht)]

/-- With a grab set and no left button in the event, the grab is reset before
anything else and the event takes the path of an event that arrives with no
grab set. -/
theorem grab_cleared (env : Env W) (s : View W) (g : ElementId) (e : MouseEvent)
    (h_grab : s.grabmouse_element_ = some g)
    (h_noleft : leftDown env e = false)
    (h_type : e.type ≠ EventType.EVENT_MOUSE_OVER) :
    grabDispatch env s e = Sum.inr { s with grabmouse_element_ := none } ∧
    SendMouseEventToChildren env s e =
      (if e.type == EventType.EVENT_MOUSE_OUT
        then mouseOutDispatch env { s with grabmouse_element_ := none } e
        else ((childrenDispatch env { s with grabmouse_element_ := none } e).1,
          finishDispatch env (childrenDispatch env { s with grabmouse_element_ := none } e).2.2.2
            e (childrenDispatch env { s with grabmouse_element_ := none } e).2.1
            (childrenDispatch env { s with grabmouse_element_ := none } e).2.2.1)) ∧
    SendMouseEventToChildren env s e =
      SendMouseEventToChildren env { s with grabmouse_element_ := none } e := by
  have hg : grabDispatch env s e = Sum.inr { s with grabmouse_element_ := none } := by
    unfold grabDispatch
    simp [h_grab, h_noleft]
  have hn : grabDispatch env ({ s with grabmouse_element_ := none } : View W) e
      = Sum.inr { s with grabmouse_element_ := none } :=
    grabDispatch_none env _ e rfl
  have hover : ¬ (e.type == EventType.EVENT_MOUSE_OVER) = true := by simpa using h_type
  refine ⟨hg, ?_, ?_⟩
  · unfold SendMouseEventToChildren
    simp only [hg]
    rw [if_neg hover]
  · unfold SendMouseEventToChildren
    simp only [hg, hn]
    rw [if_neg hover, if_neg hover]

/-- Claim C7: for every mouse event that arrives at the dispatch while
`grabmouse_element_` is set and whose button state does not include the left
button, the dispatch first resets `grabmouse_element_` to null without calling
the formerly grabbing element, and then handles the event by the normal path:
the mouse-out branch for `EVENT_MOUSE_OUT`, the popup / children dispatch
otherwise. The outcome is that of the same event arriving with no grab set. An
event that arrives at the dispatch is never an `EVENT_MOUSE_OVER`: the only
caller (view.cc 608-618) turns an `EVENT_MOUSE_OVER` into an `EVENT_MOUSE_MOVE`
before the call, so the same holds for every event the caller hands over,
whatever the type of the event the caller was given. -/
theorem C7_defensive_grab_clear (env : Env W) (s : View W) (g : ElementId) (e : MouseEvent)
    (h_grab : s.grabmouse_element_ = some g)
    (h_noleft : leftDown env e = false)
    (h_type : e.type ≠ EventType.EVENT_MOUSE_OVER) :
    grabDispatch env s e = Sum.inr { s with grabmouse_element_ := none } ∧
    SendMouseEventToChildren env s e =
      (if e.type == EventType.EVENT_MOUSE_OUT
        then mouseOutDispatch env { s with grabmouse_element_ := none } e
        else ((childrenDispatch env { s with grabmouse_element_ := none } e).1,
          finishDispatch env (childrenDispatch env { s with grabmouse_element_ := none } e).2.2.2
            e (childrenDispatch env { s with grabmouse_element_ := none } e).2.1
            (childrenDispatch env { s with grabmouse_element_ := none } e).2.2.1)) ∧
    SendMouseEventToChildren env s e =
      SendMouseEventToChildren env { s with grabmouse_element_ := none } e ∧
    (∀ (f : EventResult × View W) (ev : MouseEvent),
      f.1 ≠ EventResult.EVENT_RESULT_CANCELED →
      ∃ ev', ev'.type ≠ EventType.EVENT_MOUSE_OVER ∧
        (ev.type ≠ EventType.EVENT_MOUSE_OVER → ev' = ev) ∧
        toChildren env f ev = SendMouseEventToChildren env f.2 ev' ∧
        (∀ g', f.2.grabmouse_element_ = some g' → leftDown env ev' = false →
          grabDispatch env f.2 ev' = Sum.inr { f.2 with grabmouse_element_ := none } ∧
          toChildren env f ev =
            SendMouseEventToChildren env { f.2 with grabmouse_element_ := none } ev')) := by
  obtain ⟨h1, h2, h3⟩ := grab_cleared env s g e h_grab h_noleft h_type
  refine ⟨h1, h2, h3, ?_⟩
  intro f ev hf
  obtain ⟨ev', hne, hsame, hto⟩ := toChildren_event env f ev hf
  refine ⟨ev', hne, hsame, hto, ?_⟩
  intro g' hg' hl
  obtain ⟨k1, _, k3⟩ := grab_cleared env f.2 g' ev' hg' hl hne
  exact ⟨k1, hto.trans k3⟩

/-- C7, witness: element `1` grabs the mouse and a move without any button
arrives; the grab is reset and the move goes to the children, which fire it on
element `2` under the cursor. -/
theorem C7_defensive_grab_clear_witness :
    grabDispatch sceneEnv grabOneView (mouseAt EventType.EVENT_MOUSE_MOVE 150 0) =
      Sum.inr { grabOneView with grabmouse_element_ := none } ∧
    (SendMouseEventToChildren sceneEnv grabOneView
      (mouseAt EventType.EVENT_MOUSE_MOVE 150 0)).2.grabmouse_element_ = none ∧
    (SendMouseEventToChildren sceneEnv grabOneView
      (mouseAt EventType.EVENT_MOUSE_MOVE 150 0)).2.log.head?
      = some (Action.ChildrenOnMouseEvent (mouseAt EventType.EVENT_MOUSE_MOVE 150 0)) :=
  ⟨(C7_defensive_grab_clear sceneEnv grabOneView 1 (mouseAt EventType.EVENT_MOUSE_MOVE 150 0)
    rfl rfl (by decide)).1, by decide, by decide⟩

theorem addDamage_queued (env : Env W) (v : View W) (r : Rectangle)
    (hq : v.draw_queued_ = true) :
    (addDamage env v r).draw_queued_ = true ∧
    (addDamage env v r).log = v.log ∧
    (addDamage env v r).canvas_cache_ = v.canvas_cache_ ∧
    (addDamage env v r).need_redraw_ = v.need_redraw_ ∧
    (addDamage env v r).clip_region_enabled_ = v.clip_region_enabled_ ∧
    (addDamage env v r).world = v.world := by
  have hstep : ∀ (x : View W), x.draw_queued_ = true → View.QueueDraw x = x := by
    intro x hx
    unfold View.QueueDraw
    simp [hx]
  unfold addDamage
  by_cases hc : (v.clip_region_enabled_ && v.enable_cache_) = true
  · rw [if_pos hc, hstep ({ v with clip_region_ := (env.ClipAddRectangle v.clip_region_ r) }
      : View W) hq]
    exact ⟨hq, rfl, rfl, rfl, rfl, rfl⟩
  · rw [if_neg hc, hstep v hq]
    exact ⟨hq, rfl, rfl, rfl, rfl, rfl⟩

/-- Damage registered while a draw is queued changes neither the log, the
canvas cache, the flags nor the world. -/
theorem applyDamage_queued (env : Env W) (rects : List Rectangle) :
    ∀ (v : View W), v.draw_queued_ = true →
      (applyDamage env v rects).log = v.log ∧
      (applyDamage env v rects).canvas_cache_ = v.canvas_cache_ ∧
      (applyDamage env v rects).need_redraw_ = v.need_redraw_ ∧
      (applyDamage env v rects).clip_region_enabled_ = v.clip_region_enabled_ ∧
      (applyDamage env v rects).world = v.world := by
  induction rects with
  | nil => intro v _; exact ⟨rfl, rfl, rfl, rfl, rfl⟩
  | cons r rs ih =>
    intro v hq
    obtain ⟨h0, h1, h2, h3, h4, h5⟩ := addDamage_queued env v r hq
    obtain ⟨i1, i2, i3, i4, i5⟩ := ih (addDamage env v r) h0
    have hcons : applyDamage env v (r :: rs) = applyDamage env (addDamage env v r) rs := rfl
    rw [hcons]
    exact ⟨i1.trans h1, i2.trans h2, i3.trans h3, i4.trans h4, i5.trans h5⟩

/-- The layout pass of `Draw` logs the layout and leaves the cache and the
flags alone. -/
theorem layoutPass_fields (env : Env W) (s : View W) :
    (layoutPass env s).log = s.log ++ [Action.ChildrenLayout] ∧
    (layoutPass env s).canvas_cache_ = s.canvas_cache_ ∧
    (layoutPass env s).need_redraw_ = s.need_redraw_ ∧
    (layoutPass env s).clip_region_enabled_ = s.clip_region_enabled_ ∧
    (layoutPass env s).world = (env.ChildrenLayout s.world).1 := by
  unfold layoutPass childrenLayout
  exact applyDamage_queued env _ _ rfl

theorem layoutPass_nodamage (env : Env W) (s : View W)
    (h : (env.ChildrenLayout s.world).2 = []) :
    (layoutPass env s).clip_region_ = s.clip_region_ := by
  unfold layoutPass childrenLayout
  simp only [h]
  rfl

theorem redraw_clean (env : Env W) (s2 : View W) (canvas : CanvasId) :
    (redraw env s2 canvas).clip_region_ = [] ∧ (redraw env s2 canvas).need_redraw_ = false := by
  unfold redraw
  exact ⟨rfl, rfl⟩

/-- The blit-only path of `Draw` (view.cc 864-871). -/
theorem Draw_blit (env : Env W) (s : View W) (canvas cache : CanvasId)
    (h_clip : (layoutPass env s).clip_region_ = [])
    (h_enabled : (layoutPass env s).clip_region_enabled_ = true)
    (h_cache : (layoutPass env s).canvas_cache_ = some cache)
    (h_redraw : (layoutPass env s).need_redraw_ = false) :
    Draw env s canvas =
      { layoutPass env s with
        log := (layoutPass env s).log ++ [Action.DrawCanvas canvas 0 0 cache] } := by
  have hb : blitOnly (layoutPass env s) = true := by
    simp [blitOnly, h_clip, h_enabled, h_cache, h_redraw]
  unfold Draw
  simp only [hb, if_true, h_cache]

/-- C8 (as amended): for every call of `Draw`, if after the layout pass the
accumulated clip region is empty, clip regions are enabled, a canvas cache
exists and `need_redraw_` is false, then `Draw` performs exactly one
`DrawCanvas(0, 0, cache)` on the destination canvas and nothing else after the
layout: children and popup are not drawn, and the cache, the clip region and
the redraw flag are unchanged. -/
theorem C8_draw_fast_path (env : Env W) (s : View W) (canvas cache : CanvasId)
    (h_clip : (layoutPass env s).clip_region_ = [])
    (h_enabled : (layoutPass env s).clip_region_enabled_ = true)
    (h_cache : (layoutPass env s).canvas_cache_ = some cache)
    (h_redraw : (layoutPass env s).need_redraw_ = false) :
    Draw env s canvas =
      { layoutPass env s with
        log := (layoutPass env s).log ++ [Action.DrawCanvas canvas 0 0 cache] } ∧
    (Draw env s canvas).log =
      s.log ++ [Action.ChildrenLayout, Action.DrawCanvas canvas 0 0 cache] ∧
    (Draw env s canvas).canvas_cache_ = some cache ∧
    (Draw env s canvas).clip_region_ = [] ∧
    (Draw env s canvas).need_redraw_ = false := by
  have hd := Draw_blit env s canvas cache h_clip h_enabled h_cache h_redraw
  obtain ⟨l1, _, _, _, _⟩ := layoutPass_fields env s
  rw [hd]
  refine ⟨rfl, ?_, h_cache, h_clip, h_redraw⟩
  show (layoutPass env s).log ++ [Action.DrawCanvas canvas 0 0 cache] = _
  rw [l1]
  simp

/-- C8, witness: the painted scene view is drawn again on canvas `0`. -/
theorem C8_draw_fast_path_witness :
    (Draw sceneEnv paintedView 0).log =
      paintedView.log ++ [Action.ChildrenLayout, Action.DrawCanvas 0 0 0 7] :=
  (C8_draw_fast_path sceneEnv paintedView 0 7 rfl rfl rfl rfl).2.1

/-- C8, counterexample: clip regions are switched off.  After the layout pass
the clip region is empty, the canvas cache exists and `need_redraw_` is false,
yet `Draw` clears the cache and draws the children again before blitting. -/
theorem C8_counterexample :
    (layoutPass sceneEnv unclippedView).clip_region_ = [] ∧
    (layoutPass sceneEnv unclippedView).canvas_cache_ = some 7 ∧
    (layoutPass sceneEnv unclippedView).need_redraw_ = false ∧
    (Draw sceneEnv unclippedView 0).log =
      [Action.ChildrenLayout, Action.FirePostedSizeEvents, Action.PushState 7,
       Action.IntersectGeneralClipRegion 7 [], Action.ClearRect 7 0 0 200 100,
       Action.ChildrenDraw 7, Action.PopState 7, Action.DrawCanvas 0 0 0 7] := by
  decide

/-- C9: for every view and every `(w, h)` equal to the current `(width_,
height_)`, `SetSize(w, h)` changes nothing: the canvas cache, the clip region
and the default size are unchanged and no layout, `onsize` event or host
`QueueResize` is logged. -/
theorem C9_set_same_size (env : Env W) (s : View W) (w h : Int)
    (h_w : w = s.width_) (h_h : h = s.height_) :
    SetSize env s w h = s ∧
    (SetSize env s w h).canvas_cache_ = s.canvas_cache_ ∧
    (SetSize env s w h).clip_region_ = s.clip_region_ ∧
    (SetSize env s w h).default_width_ = s.default_width_ ∧
    (SetSize env s w h).default_height_ = s.default_height_ ∧
    (SetSize env s w h).log = s.log := by
  have hs : SetSize env s w h = s := by
    unfold SetSize
    simp [h_w, h_h]
  rw [hs]
  exact ⟨rfl, rfl, rfl, rfl, rfl, rfl⟩

/-- C9, witness: the painted 200 x 100 scene view is sized to 200 x 100. -/
theorem C9_set_same_size_witness : SetSize sceneEnv paintedView 200 100 = paintedView :=
  (C9_set_same_size sceneEnv paintedView 200 100 rfl rfl).1

/-- C10: after every `Draw` that takes the full redraw path into a canvas cache
`c`, the clip region is empty and `need_redraw_` is false; an immediately
following `Draw`, with clip regions enabled and no damage added by its layout
pass, only runs the layout and blits the cache: the children are not drawn. -/
theorem C10_draw_leaves_clean (env : Env W) (s : View W) (canvas canvas2 c : CanvasId)
    (h_full : blitOnly (layoutPass env s) = false)
    (h_cache : (Draw env s canvas).canvas_cache_ = some c)
    (h_enabled : (Draw env s canvas).clip_region_enabled_ = true)
    (h_nodamage : (env.ChildrenLayout (Draw env s canvas).world).2 = []) :
    (Draw env s canvas).clip_region_ = [] ∧
    (Draw env s canvas).need_redraw_ = false ∧
    (Draw env (Draw env s canvas) canvas2).log =
      (Draw env s canvas).log ++ [Action.ChildrenLayout, Action.DrawCanvas canvas2 0 0 c] := by
  have hd : Draw env s canvas = redraw env (layoutPass env s) canvas := by
    unfold Draw
    simp only [h_full, Bool.false_eq_true, if_false]
  have hclean : (Draw env s canvas).clip_region_ = [] ∧
      (Draw env s canvas).need_redraw_ = false := by
    rw [hd]
    exact redraw_clean env _ canvas
  refine ⟨hclean.1, hclean.2, ?_⟩
  generalize Draw env s canvas = v at h_cache h_enabled h_nodamage hclean
  obtain ⟨l1, l2, l3, l4, _⟩ := layoutPass_fields env v
  have hblit := Draw_blit env v canvas2 c
    ((layoutPass_nodamage env v h_nodamage).trans hclean.1) (l4.trans h_enabled)
    (l2.trans h_cache) (l3.trans hclean.2)
  rw [hblit]
  show (layoutPass env v).log ++ [Action.DrawCanvas canvas2 0 0 c] = _
  rw [l1]
  simp

/-- C10, witness: the freshly constructed scene view is drawn twice. -/
theorem C10_draw_leaves_clean_witness :
    (Draw sceneEnv (Draw sceneEnv sceneView 0) 0).log =
      (Draw sceneEnv sceneView 0).log ++ [Action.ChildrenLayout, Action.DrawCanvas 0 0 0 7] :=
  (C10_draw_leaves_clean sceneEnv sceneView 0 0 7 rfl rfl rfl rfl).2.2

/-! Timers. -/

theorem Call_duration (w : TimerWatchCallback) (t f : Nat) :
    (w.Call t f).watch.duration_ = w.duration_ := by
  unfold TimerWatchCallback.Call
  by_cases h1 : 0 < w.duration_
  · simp [h1]
  · by_cases h2 : w.duration_ = 0
    · simp [h2]
    · simp [h1, h2]

theorem Call_ret_negative (w : TimerWatchCallback) (t f : Nat) (h : w.duration_ < 0) :
    (w.Call t f).ret = true := by
  unfold TimerWatchCallback.Call
  have h1 : ¬ 0 < w.duration_ := by omega
  have h2 : ¬ w.duration_ = 0 := by omega
  simp [h1, h2]

theorem runCalls_duration (calls : List (Nat × Nat)) :
    ∀ w : TimerWatchCallback, (runCalls w calls).duration_ = w.duration_ := by
  induction calls with
  | nil => intro w; rfl
  | cons c rest ih =>
    intro w
    obtain ⟨t, f⟩ := c
    simp only [runCalls]
    rw [ih, Call_duration]

theorem subUInt64_of_le (a b : Nat) (h : b ≤ a) (ha : a < 18446744073709551616) :
    subUInt64 a b = a - b := by
  unfold subUInt64
  omega

theorem wrapInt32_id (x : Int) (h1 : -2147483648 ≤ x) (h2 : x < 2147483648) : wrapInt32 x = x := by
  unfold wrapInt32
  omega

theorem roundDiv_nonneg_bounds (p δ d : Int) (hd : 0 < d) (hp0 : 0 ≤ p) (hpd : p ≤ d) (hδ : 0 ≤ δ) :
    0 ≤ roundDiv (p * δ) d ∧ roundDiv (p * δ) d ≤ δ := by
  have hn : 0 ≤ p * δ := mul_nonneg hp0 hδ
  have hle : p * δ ≤ d * δ := mul_le_mul_of_nonneg_right hpd hδ
  unfold roundDiv
  rw [if_pos hn]
  constructor
  · apply Int.ediv_nonneg <;> omega
  · have : (2 * (p * δ) + d) / (2 * d) < δ + 1 := by
      apply Int.ediv_lt_of_lt_mul (by omega)
      nlinarith
    omega

theorem roundDiv_nonpos_bounds (p δ d : Int) (hd : 0 < d) (hp0 : 0 ≤ p) (hpd : p ≤ d) (hδ : δ ≤ 0) :
    δ ≤ roundDiv (p * δ) d ∧ roundDiv (p * δ) d ≤ 0 := by
  have hn : p * δ ≤ 0 := mul_nonpos_of_nonneg_of_nonpos hp0 hδ
  have hle : d * δ ≤ p * δ := mul_le_mul_of_nonpos_right hpd hδ
  unfold roundDiv
  by_cases h0 : 0 ≤ p * δ
  · have hz : p * δ = 0 := le_antisymm hn h0
    rw [if_pos h0, hz]
    have : (2 * 0 + d) / (2 * d) = 0 := by
      apply Int.ediv_eq_zero_of_lt <;> omega
    rw [this]
    exact ⟨hδ, le_refl _⟩
  · rw [if_neg h0]
    have h1 : 0 ≤ (2 * (-(p * δ)) + d) / (2 * d) := by
      apply Int.ediv_nonneg <;> omega
    have h2 : (2 * (-(p * δ)) + d) / (2 * d) < -δ + 1 := by
      apply Int.ediv_lt_of_lt_mul (by omega)
      nlinarith
    constructor <;> omega

theorem Call_animation (w : TimerWatchCallback) (t f : Nat) (hd : 0 < w.duration_) :
    (w.Call t f).value = w.animationValue t ∧
    (w.Call t f).ret = w.progressBelowOne t ∧
    (w.Call t f).watch.last_value_ = w.animationValue t ∧
    ((w.Call t f).invoked = true → w.animationValue t ≠ w.last_value_) := by
  have hc : w.Call t f =
      { ret := w.progressBelowOne t,
        invoked := decide (w.animationValue t ≠ w.last_value_) &&
          (decide (w.duration_ = 0) ||
            decide (kMinInterval < subUInt64 t w.last_finished_time_)),
        value := w.animationValue t,
        watch := { w with last_value_ := w.animationValue t, last_finished_time_ := f } } := by
    unfold TimerWatchCallback.Call
    simp only [if_pos hd]
  rw [hc]
  refine ⟨rfl, rfl, rfl, ?_⟩
  intro h
  simp only [Bool.and_eq_true, decide_eq_true_eq] at h
  exact h.1

/-- Where the clock has not gone back behind `start_time_` and `end_ - start_`
fits `int`, the animation branch of `Call` computes the linear interpolation:
the value lies between start and end, `Call` returns true exactly while the
elapsed time is below the duration, and the slot is invoked only when the value
differs from the previous one. -/
theorem animation_in_range (w : TimerWatchCallback) (t f : Nat) (hd : 0 < w.duration_)
    (ht : w.start_time_ ≤ t) (ht2 : t < 18446744073709551616)
    (hs1 : -2147483648 ≤ w.start_) (hs2 : w.start_ < 2147483648)
    (he1 : -2147483648 ≤ w.end_) (he2 : w.end_ < 2147483648)
    (hδ1 : -2147483648 ≤ w.end_ - w.start_) (hδ2 : w.end_ - w.start_ < 2147483648) :
    (w.Call t f).value =
      w.start_ + roundDiv (min w.duration_ ((t - w.start_time_ : Nat) : Int)
        * (w.end_ - w.start_)) w.duration_ ∧
    ((w.start_ ≤ (w.Call t f).value ∧ (w.Call t f).value ≤ w.end_) ∨
      (w.end_ ≤ (w.Call t f).value ∧ (w.Call t f).value ≤ w.start_)) ∧
    ((w.Call t f).ret = true ↔ ((t - w.start_time_ : Nat) : Int) < w.duration_) ∧
    ((w.Call t f).invoked = true → (w.Call t f).value ≠ w.last_value_) := by
  obtain ⟨hv, hr, _, hi⟩ := Call_animation w t f hd
  have hsub : subUInt64 t w.start_time_ = t - w.start_time_ :=
    subUInt64_of_le t w.start_time_ ht ht2
  have hp : progressNum (subUInt64 t w.start_time_) w.duration_
      = min w.duration_ ((t - w.start_time_ : Nat) : Int) := by
    unfold progressNum
    rw [hsub, max_eq_right (Int.ofNat_nonneg _)]
  have hp0 : 0 ≤ min w.duration_ ((t - w.start_time_ : Nat) : Int) := by
    apply le_min <;> omega
  have hpd : min w.duration_ ((t - w.start_time_ : Nat) : Int) ≤ w.duration_ := min_le_left _ _
  have hw : wrapInt32 (w.end_ - w.start_) = w.end_ - w.start_ := wrapInt32_id _ hδ1 hδ2
  have hbounds : (0 ≤ roundDiv (min w.duration_ ((t - w.start_time_ : Nat) : Int)
        * (w.end_ - w.start_)) w.duration_ ∧
      roundDiv (min w.duration_ ((t - w.start_time_ : Nat) : Int)
        * (w.end_ - w.start_)) w.duration_ ≤ w.end_ - w.start_) ∨
      (w.end_ - w.start_ ≤ roundDiv (min w.duration_ ((t - w.start_time_ : Nat) : Int)
        * (w.end_ - w.start_)) w.duration_ ∧
      roundDiv (min w.duration_ ((t - w.start_time_ : Nat) : Int)
        * (w.end_ - w.start_)) w.duration_ ≤ 0) := by
    by_cases h0 : 0 ≤ w.end_ - w.start_
    · exact Or.inl (roundDiv_nonneg_bounds _ _ _ hd hp0 hpd h0)
    · exact Or.inr (roundDiv_nonpos_bounds _ _ _ hd hp0 hpd (by omega))
  have hval : w.animationValue t =
      w.start_ + roundDiv (min w.duration_ ((t - w.start_time_ : Nat) : Int)
        * (w.end_ - w.start_)) w.duration_ := by
    unfold TimerWatchCallback.animationValue
    rw [hp, hw]
    apply wrapInt32_id
    · rcases hbounds with h | h <;> omega
    · rcases hbounds with h | h <;> omega
  refine ⟨hv.trans hval, ?_, ?_, ?_⟩
  · rw [hv, hval]
    rcases hbounds with h | h
    · left; constructor <;> omega
    · right; constructor <;> omega
  · rw [hr]
    unfold TimerWatchCallback.progressBelowOne
    rw [hp, decide_eq_true_eq]
    constructor
    · intro h
      by_contra hc
      rw [min_eq_left (by omega)] at h
      omega
    · intro h
      rw [min_eq_right (by omega)]
      exact h
  · intro h
    rw [hv]
    exact hi h

/-- Claim C11, evaluated at two inputs where `Call` leaves the stated
arithmetic. An animation from -2000000000 to 2000000000 computes, half way
through, the value -2147483648, which is not between start and end, and hands
it to the slot: `end_ - start_` does not fit `int`. An animation begun at clock reading 1000 and called
at reading 999 computes progress 1, not 0: the `uint64_t` difference wraps, so
the value is `end_`, the slot is invoked and `Call` returns false. -/
theorem C11_animation_arithmetic_defects :
    (wideAnimation.Call 1500 1500).value = -2147483648 ∧
    ¬ (wideAnimation.start_ ≤ (wideAnimation.Call 1500 1500).value ∧
        (wideAnimation.Call 1500 1500).value ≤ wideAnimation.end_) ∧
    (wideAnimation.Call 1500 1500).invoked = true ∧
    wrapInt32 (wideAnimation.end_ - wideAnimation.start_) = -294967296 ∧
    subUInt64 999 shortAnimation.start_time_ = 18446744073709551615 ∧
    (shortAnimation.Call 999 999).value = shortAnimation.end_ ∧
    (shortAnimation.Call 999 999).invoked = true ∧
    (shortAnimation.Call 999 999).ret = false := by
  refine ⟨by decide, by decide, by decide, by decide, by decide, by decide, by decide,
    by decide⟩

/-- Claim C12: the timer made by `SetTimeout` (duration 0) invokes its slot on
its first `Call`, at any clock reading, and that `Call` returns false; the timer
made by `SetInterval` (duration -1) returns true from every `Call`, whatever
`Call`s came before. -/
theorem C12_timeout_and_interval (slot : SlotId) (d t f : Nat) (calls : List (Nat × Nat)) :
    (∃ w, SetTimeout (some slot) d = some w ∧ w.duration_ = 0 ∧
      (w.Call t f).invoked = true ∧ (w.Call t f).ret = false) ∧
    (∃ w, SetInterval (some slot) d = some w ∧ w.duration_ < 0 ∧
      ((runCalls w calls).Call t f).ret = true) := by
  constructor
  · refine ⟨TimerWatchCallback.new slot 0 0 0 0 true, rfl, rfl, ?_, ?_⟩
    · simp [TimerWatchCallback.Call, TimerWatchCallback.new]
    · simp [TimerWatchCallback.Call, TimerWatchCallback.new]
  · have hneg : (TimerWatchCallback.new slot 0 0 (-1) 0 true).duration_ < 0 := by
      show (-1 : Int) < 0
      decide
    refine ⟨TimerWatchCallback.new slot 0 0 (-1) 0 true, rfl, hneg, ?_⟩
    apply Call_ret_negative
    rw [runCalls_duration]
    exact hneg

theorem setMap_map (c : ImageCache) (m m' : ImageMapId) (f : ImageMap) :
    (c.setMap m f).map m' = if m' = m then f else c.map m' := by
  cases m <;> cases m' <;> rfl

theorem setMap_heap (c : ImageCache) (m : ImageMapId) (f : ImageMap) :
    (c.setMap m f).heap = c.heap := by
  cases m <;> rfl

theorem setMap_next (c : ImageCache) (m : ImageMapId) (f : ImageMap) :
    (c.setMap m f).next = c.next := by
  cases m <;> rfl

theorem setMap_log (c : ImageCache) (m : ImageMapId) (f : ImageMap) :
    (c.setMap m f).log = c.log := by
  cases m <;> rfl

theorem localMap_ne_globalMap (a b : Bool) : localMap a ≠ globalMap b := by
  cases a <;> cases b <;> decide

theorem Ref_map (c : ImageCache) (id : SharedImageId) (m : ImageMapId) :
    (c.Ref id).map m = c.map m := by
  unfold ImageCache.Ref
  cases c.heap id <;> cases m <;> rfl

theorem Ref_log (c : ImageCache) (id : SharedImageId) : (c.Ref id).log = c.log := by
  unfold ImageCache.Ref
  cases c.heap id <;> rfl

theorem Ref_next (c : ImageCache) (id : SharedImageId) : (c.Ref id).next = c.next := by
  unfold ImageCache.Ref
  cases c.heap id <;> rfl

theorem Ref_heap_self (c : ImageCache) (id : SharedImageId) (o : SharedImage)
    (h : c.heap id = some o) :
    (c.Ref id).heap id = some { o with ref_ := wrapInt32 (o.ref_ + 1) } := by
  unfold ImageCache.Ref
  rw [h]
  simp

theorem Ref_heap_other (c : ImageCache) (id id' : SharedImageId) (hne : id' ≠ id) :
    (c.Ref id).heap id' = c.heap id' := by
  unfold ImageCache.Ref
  cases h : c.heap id with
  | none => rfl
  | some o => simp [Function.update, hne]

theorem LoadImage_local_hit (env : CacheEnv) (c : ImageCache) (fm : Bool) (tag : String)
    ( is_mask : Bool) (it : SharedImageId) (h_tag : tag ≠ "")
    (h : c.map (localMap is_mask) tag = some it) :
    c.LoadImage env true fm (some tag) is_mask = (some it, c.Ref it) := by
  unfold ImageCache.LoadImage
  simp [h_tag, h]

theorem LoadImage_global_hit (env : CacheEnv) (c : ImageCache) (fm : Bool) (tag : String)
    ( is_mask : Bool) (it : SharedImageId) (h_tag : tag ≠ "")
    (h1 : c.map (localMap is_mask) tag = none)
    (h2 : c.map (globalMap is_mask) tag = some it) :
    c.LoadImage env true fm (some tag) is_mask = (some it, c.Ref it) := by
  unfold ImageCache.LoadImage
  simp [h_tag, h1, h2]

theorem LoadImage_miss (env : CacheEnv) (c : ImageCache) (fm : Bool) (tag : String)
    ( is_mask : Bool) (h_tag : tag ≠ "")
    (h1 : c.map (localMap is_mask) tag = none)
    (h2 : c.map (globalMap is_mask) tag = none) :
    c.LoadImage env true fm (some tag) is_mask = c.loadNew env fm tag is_mask := by
  unfold ImageCache.LoadImage
  simp [h_tag, h1, h2]

theorem store_fst (c : ImageCache) (tag : String) (m : ImageMapId) (img : Option ImageId) :
    (c.store tag m img).1 = c.next := rfl

theorem store_map_self (c : ImageCache) (tag : String) (m : ImageMapId) (img : Option ImageId) :
    (c.store tag m img).2.map m tag = some c.next := by
  unfold ImageCache.store
  simp [setMap_map]

theorem store_map_other (c : ImageCache) (tag : String) (m : ImageMapId) (img : Option ImageId)
    (m' : ImageMapId) (t' : String) (hne : ¬ (m' = m ∧ t' = tag)) :
    (c.store tag m img).2.map m' t' = c.map m' t' := by
  unfold ImageCache.store
  simp only [setMap_map]
  by_cases hm : m' = m
  · subst hm
    have ht : t' ≠ tag := fun h => hne ⟨rfl, h⟩
    simp only [if_true]
    rw [Function.update_noteq ht]
    cases m' <;> rfl
  · rw [if_neg hm]
    cases m' <;> rfl

theorem store_heap_self (c : ImageCache) (tag : String) (m : ImageMapId) (img : Option ImageId) :
    (c.store tag m img).2.heap c.next =
      some { tag_ := tag, owner_ := some m, image_ := img, ref_ := 1 } := by
  unfold ImageCache.store
  simp [setMap_heap]

theorem store_heap_other (c : ImageCache) (tag : String) (m : ImageMapId) (img : Option ImageId)
    (id : SharedImageId) (hne : id ≠ c.next) :
    (c.store tag m img).2.heap id = c.heap id := by
  unfold ImageCache.store
  simp [setMap_heap, Function.update, hne]

theorem store_next (c : ImageCache) (tag : String) (m : ImageMapId) (img : Option ImageId) :
    (c.store tag m img).2.next = c.next + 1 := by
  unfold ImageCache.store
  simp [setMap_next]

theorem store_log (c : ImageCache) (tag : String) (m : ImageMapId) (img : Option ImageId) :
    (c.store tag m img).2.log = c.log := by
  unfold ImageCache.store
  simp [setMap_log]

theorem readAndDecode_map (env : CacheEnv) (fm : Bool) (tag : String) ( is_mask : Bool) :
    (readAndDecode env fm tag is_mask).2.1 = localMap is_mask ∨
    (readAndDecode env fm tag is_mask).2.1 = globalMap is_mask := by
  unfold readAndDecode
  cases h1 : (if fm then env.ReadFile tag else none) with
  | some d => exact Or.inl rfl
  | none =>
    cases h2 : (if env.global_fm then env.GlobalReadFile tag else none) with
    | some d => exact Or.inr rfl
    | none => exact Or.inl rfl

theorem readAndDecode_fail (env : CacheEnv) (fm : Bool) (tag : String) ( is_mask : Bool)
    (h1 : fm = false ∨ env.ReadFile tag = none)
    (h2 : env.global_fm = false ∨ env.GlobalReadFile tag = none) :
    (readAndDecode env fm tag is_mask).1 = none ∧
    (readAndDecode env fm tag is_mask).2.1 = localMap is_mask := by
  have e1 : (if fm then env.ReadFile tag else none) = none := by
    rcases h1 with h | h
    · simp [h]
    · simp [h]
  have e2 : (if env.global_fm then env.GlobalReadFile tag else none) = none := by
    rcases h2 with h | h
    · simp [h]
    · simp [h]
  unfold readAndDecode
  rw [e1, e2]
  exact ⟨rfl, rfl⟩

theorem loadNew_fst (env : CacheEnv) (c : ImageCache) (fm : Bool) (tag : String)
    ( is_mask : Bool) : (c.loadNew env fm tag is_mask).1 = some c.next := rfl

theorem loadNew_map_self (env : CacheEnv) (c : ImageCache) (fm : Bool) (tag : String)
    ( is_mask : Bool) :
    (c.loadNew env fm tag is_mask).2.map (readAndDecode env fm tag is_mask).2.1 tag
      = some c.next := by
  unfold ImageCache.loadNew
  exact store_map_self _ _ _ _

theorem loadNew_map_other (env : CacheEnv) (c : ImageCache) (fm : Bool) (tag : String)
    ( is_mask : Bool) (m' : ImageMapId) (t' : String)
    (hne : ¬ (m' = (readAndDecode env fm tag is_mask).2.1 ∧ t' = tag)) :
    (c.loadNew env fm tag is_mask).2.map m' t' = c.map m' t' := by
  unfold ImageCache.loadNew
  rw [store_map_other _ _ _ _ _ _ hne]
  cases m' <;> rfl

theorem loadNew_heap_self (env : CacheEnv) (c : ImageCache) (fm : Bool) (tag : String)
    ( is_mask : Bool) :
    (c.loadNew env fm tag is_mask).2.heap c.next =
      some { tag_ := tag, owner_ := some (readAndDecode env fm tag is_mask).2.1,
             image_ := (readAndDecode env fm tag is_mask).1, ref_ := 1 } := by
  unfold ImageCache.loadNew
  exact store_heap_self _ _ _ _

theorem loadNew_heap_other (env : CacheEnv) (c : ImageCache) (fm : Bool) (tag : String)
    ( is_mask : Bool) (id : SharedImageId) (hne : id ≠ c.next) :
    (c.loadNew env fm tag is_mask).2.heap id = c.heap id := by
  unfold ImageCache.loadNew
  exact store_heap_other _ _ _ _ _ hne

theorem loadNew_next (env : CacheEnv) (c : ImageCache) (fm : Bool) (tag : String)
    ( is_mask : Bool) : (c.loadNew env fm tag is_mask).2.next = c.next + 1 := by
  unfold ImageCache.loadNew
  exact store_next _ _ _ _

theorem wrapInt32_add (x y : Int) : wrapInt32 (wrapInt32 x + y) = wrapInt32 (x + y) := by
  unfold wrapInt32
  omega

theorem wrapInt32_idem (x : Int) : wrapInt32 (wrapInt32 x) = wrapInt32 x := by
  unfold wrapInt32
  omega

theorem Unref_keep (c : ImageCache) (id : SharedImageId) (o : SharedImage)
    (h : c.heap id = some o) (hr : wrapInt32 (o.ref_ - 1) ≠ 0) :
    c.Unref id =
      { c with heap := Function.update c.heap id (some { o with ref_ := wrapInt32 (o.ref_ - 1) }) } := by
  unfold ImageCache.Unref
  rw [h]
  simp only [if_neg hr]

theorem Unref_last (c : ImageCache) (id : SharedImageId) (o : SharedImage) (m : ImageMapId)
    (h : c.heap id = some o) (hr : wrapInt32 (o.ref_ - 1) = 0) (hm : o.owner_ = some m) :
    (c.Unref id).heap id = none ∧
    (∀ id', id' ≠ id → (c.Unref id).heap id' = c.heap id') ∧
    (c.Unref id).map m o.tag_ = none ∧
    (∀ m' t', ¬ (m' = m ∧ t' = o.tag_) → (c.Unref id).map m' t' = c.map m' t') ∧
    (c.Unref id).next = c.next ∧
    (c.Unref id).log = c.log ++ imageDestroyCalls o.image_ := by
  unfold ImageCache.Unref
  rw [h]
  simp only [if_pos hr, hm]
  refine ⟨?_, ?_, ?_, ?_, ?_, ?_⟩
  · cases o.image_ <;> simp
  · intro id' hne
    cases o.image_ <;> simp [Function.update, hne, setMap_heap]
  · cases o.image_ <;> cases m <;> simp [ImageCache.setMap, ImageCache.map]
  · intro m' t' hne
    have key : ((c.setMap m (Function.update (c.map m) o.tag_ none)).map m' t') = c.map m' t' := by
      rw [setMap_map]
      by_cases hmm : m' = m
      · subst hmm
        have ht : t' ≠ o.tag_ := fun h => hne ⟨rfl, h⟩
        simp only [if_true]
        exact Function.update_noteq ht _ _
      · rw [if_neg hmm]
    cases o.image_
    · exact key
    · exact key
  · cases o.image_ <;> simp [setMap_next]
  · cases o.image_ <;> simp [setMap_log, imageDestroyCalls]

theorem wellFormed_empty : ImageCache.empty.wellFormed := by
  constructor
  · intro m tag id h
    cases m <;> simp [ImageCache.empty, ImageCache.map] at h
  · intro id o h
    simp [ImageCache.empty] at h

theorem wellFormed_Ref (c : ImageCache) (id : SharedImageId) (h : c.wellFormed)
    (hb : ∀ o, c.heap id = some o → o.ref_ < 2147483647) :
    (c.Ref id).wellFormed := by
  obtain ⟨h1, h2⟩ := h
  constructor
  · intro m tag id' hm
    rw [Ref_map] at hm
    obtain ⟨o, ho, ht, hw, hr, hr2⟩ := h1 m tag id' hm
    by_cases hid : id' = id
    · subst hid
      have hlt := hb o ho
      have e : wrapInt32 (o.ref_ + 1) = o.ref_ + 1 := wrapInt32_id _ (by omega) (by omega)
      refine ⟨{ o with ref_ := wrapInt32 (o.ref_ + 1) }, Ref_heap_self c id' o ho, ht, hw, ?_, ?_⟩
      · show 1 ≤ wrapInt32 (o.ref_ + 1)
        rw [e]
        omega
      · show wrapInt32 (o.ref_ + 1) ≤ 2147483647
        rw [e]
        omega
    · exact ⟨o, by rw [Ref_heap_other c id id' hid]; exact ho, ht, hw, hr, hr2⟩
  · intro id' o ho
    rw [Ref_next]
    by_cases hid : id' = id
    · subst hid
      cases hc : c.heap id' with
      | none =>
        unfold ImageCache.Ref at ho
        rw [hc] at ho
        simp [hc] at ho
      | some o' => exact h2 id' o' hc
    · rw [Ref_heap_other c id id' hid] at ho
      exact h2 id' o ho

theorem wellFormed_loadNew (env : CacheEnv) (c : ImageCache) (fm : Bool) (tag : String)
    ( is_mask : Bool) (h : c.wellFormed) : (c.loadNew env fm tag is_mask).2.wellFormed := by
  obtain ⟨h1, h2⟩ := h
  constructor
  · intro m t id hm
    by_cases hk : m = (readAndDecode env fm tag is_mask).2.1 ∧ t = tag
    · obtain ⟨rfl, rfl⟩ := hk
      rw [loadNew_map_self] at hm
      cases hm
      exact ⟨_, loadNew_heap_self env c fm t is_mask, rfl, rfl, le_refl _,
        by show (1 : Int) ≤ 2147483647; decide⟩
    · rw [loadNew_map_other env c fm tag is_mask m t hk] at hm
      obtain ⟨o, ho, ht, hw, hr⟩ := h1 m t id hm
      have hlt := h2 id o ho
      exact ⟨o, by rw [loadNew_heap_other env c fm tag is_mask id (Nat.ne_of_lt hlt)]; exact ho,
        ht, hw, hr⟩
  · intro id o ho
    rw [loadNew_next]
    by_cases hid : id = c.next
    · rw [hid]
      exact Nat.lt_succ_self _
    · rw [loadNew_heap_other env c fm tag is_mask id hid] at ho
      exact Nat.lt_succ_of_lt (h2 id o ho)

theorem wellFormed_LoadImage (env : CacheEnv) (c : ImageCache) (gfx fm : Bool)
    (filename : Option String) ( is_mask : Bool) (h : c.wellFormed)
    (hb : ∀ id o, c.heap id = some o → o.ref_ < 2147483647) :
    (c.LoadImage env gfx fm filename is_mask).2.wellFormed := by
  unfold ImageCache.LoadImage
  cases filename with
  | none => exact h
  | some tag =>
    by_cases hg : (!gfx || decide (tag = "")) = true
    · simp only [hg, if_true]
      exact h
    · simp only [hg]
      cases h1 : c.map (localMap is_mask) tag with
      | some it => exact wellFormed_Ref c it h (hb it)
      | none =>
        cases h2 : c.map (globalMap is_mask) tag with
        | some it => exact wellFormed_Ref c it h (hb it)
        | none => exact wellFormed_loadNew env c fm tag is_mask h

theorem wellFormed_Unref (c : ImageCache) (id : SharedImageId) (h : c.wellFormed) :
    (c.Unref id).wellFormed := by
  obtain ⟨h1, h2⟩ := h
  cases hc : c.heap id with
  | none =>
    have : c.Unref id = c := by
      unfold ImageCache.Unref
      rw [hc]
    rw [this]
    exact ⟨h1, h2⟩
  | some o =>
    by_cases hr : wrapInt32 (o.ref_ - 1) = 0
    · cases hown : o.owner_ with
      | none =>
        have e : c.Unref id =
            { (match o.image_ with
                | some img => { c with log := c.log ++ [CacheAction.ImageDestroy img] }
                | none => c) with
              heap := Function.update
                (match o.image_ with
                  | some img => { c with log := c.log ++ [CacheAction.ImageDestroy img] }
                  | none => c).heap id none } := by
          unfold ImageCache.Unref
          rw [hc]
          simp only [if_pos hr, hown]
        have hmap : ∀ m, (c.Unref id).map m = c.map m := by
          intro m
          rw [e]
          cases o.image_ <;> cases m <;> rfl
        have hheap : ∀ id', id' ≠ id → (c.Unref id).heap id' = c.heap id' := by
          intro id' hne
          rw [e]
          cases o.image_ <;> simp [Function.update, hne]
        have hself : (c.Unref id).heap id = none := by
          rw [e]
          cases o.image_ <;> simp
        have hnext : (c.Unref id).next = c.next := by
          rw [e]
          cases o.image_ <;> rfl
        constructor
        · intro m tag id' hm
          rw [hmap] at hm
          obtain ⟨o', ho', ht, hw, hr'⟩ := h1 m tag id' hm
          have hne : id' ≠ id := by
            intro heq
            subst heq
            rw [hc] at ho'
            cases ho'
            rw [hown] at hw
            cases hw
          exact ⟨o', by rw [hheap id' hne]; exact ho', ht, hw, hr'⟩
        · intro id' o' ho'
          rw [hnext]
          by_cases hne : id' = id
          · subst hne
            rw [hself] at ho'
            cases ho'
          · rw [hheap id' hne] at ho'
            exact h2 id' o' ho'
      | some m0 =>
        obtain ⟨hself, hheap, hmself, hmother, hnext, _⟩ := Unref_last c id o m0 hc hr hown
        constructor
        · intro m tag id' hm
          by_cases hk : m = m0 ∧ tag = o.tag_
          · obtain ⟨rfl, rfl⟩ := hk
            rw [hmself] at hm
            cases hm
          · rw [hmother m tag hk] at hm
            obtain ⟨o', ho', ht, hw, hr'⟩ := h1 m tag id' hm
            have hne : id' ≠ id := by
              intro heq
              subst heq
              rw [hc] at ho'
              cases ho'
              apply hk
              rw [hown] at hw
              cases hw
              exact ⟨rfl, ht.symm⟩
            exact ⟨o', by rw [hheap id' hne]; exact ho', ht, hw, hr'⟩
        · intro id' o' ho'
          rw [hnext]
          by_cases hne : id' = id
          · subst hne
            rw [hself] at ho'
            cases ho'
          · rw [hheap id' hne] at ho'
            exact h2 id' o' ho'
    · rw [Unref_keep c id o hc hr]
      constructor
      · intro m tag id' hm
        have hm' : c.map m tag = some id' := by
          cases m <;> exact hm
        obtain ⟨o', ho', ht, hw, hr', hr2⟩ := h1 m tag id' hm'
        by_cases hne : id' = id
        · subst hne
          rw [hc] at ho'
          cases ho'
          have e : wrapInt32 (o.ref_ - 1) = o.ref_ - 1 := wrapInt32_id _ (by omega) (by omega)
          rw [e] at hr
          refine ⟨{ o with ref_ := wrapInt32 (o.ref_ - 1) }, by simp, ht, hw, ?_, ?_⟩
          · show 1 ≤ wrapInt32 (o.ref_ - 1)
            rw [e]
            omega
          · show wrapInt32 (o.ref_ - 1) ≤ 2147483647
            rw [e]
            omega
        · exact ⟨o', by simp [Function.update, hne]; exact ho', ht, hw, hr', hr2⟩
      · intro id' o' ho'
        show id' < c.next
        by_cases hne : id' = id
        · subst hne
          exact h2 id' o hc
        · simp [Function.update, hne] at ho'
          exact h2 id' o' ho'

theorem entryAt_load (env : CacheEnv) (c : ImageCache) (fm : Bool) (tag : String)
    ( is_mask : Bool) (m : ImageMapId) (h : SharedImageId) (img : Option ImageId) (n : Int)
    (h_tag : tag ≠ "") (he : c.entryAt tag is_mask m h img n) :
    c.LoadImage env true fm (some tag) is_mask = (some h, c.Ref h) ∧
    (c.Ref h).entryAt tag is_mask m h img (wrapInt32 (n + 1)) ∧ (c.Ref h).log = c.log := by
  obtain ⟨hm, hmap, hheap, hloc⟩ := he
  have hload : c.LoadImage env true fm (some tag) is_mask = (some h, c.Ref h) := by
    rcases hm with hm | hm
    · subst hm
      exact LoadImage_local_hit env c fm tag is_mask h h_tag hmap
    · have hl := hloc hm
      subst hm
      exact LoadImage_global_hit env c fm tag is_mask h h_tag hl hmap
  refine ⟨hload, ⟨hm, ?_, ?_, ?_⟩, Ref_log c h⟩
  · rw [Ref_map]; exact hmap
  · rw [Ref_heap_self c h _ hheap]
  · intro hg
    rw [Ref_map]
    exact hloc hg

theorem entryAt_loadTimes (env : CacheEnv) (fm : Bool) (tag : String) ( is_mask : Bool)
    (m : ImageMapId) (h : SharedImageId) (img : Option ImageId) (h_tag : tag ≠ "") (k : Nat) :
    ∀ (c : ImageCache) (n : Int), c.entryAt tag is_mask m h img n → wrapInt32 n = n →
      (loadTimes env true fm (some tag) is_mask k c).entryAt tag is_mask m h img
        (wrapInt32 (n + k)) ∧
      (loadTimes env true fm (some tag) is_mask k c).log = c.log ∧
      (c.LoadImage env true fm (some tag) is_mask).1 = some h := by
  induction k with
  | zero =>
    intro c n he hn
    have e : wrapInt32 (n + ((0 : Nat) : Int)) = n := by
      rw [Nat.cast_zero, add_zero]
      exact hn
    refine ⟨?_, rfl, ?_⟩
    · rw [e]
      exact he
    · rw [(entryAt_load env c fm tag is_mask m h img n h_tag he).1]
  | succ k ih =>
    intro c n he _
    obtain ⟨hl, he2, hlog⟩ := entryAt_load env c fm tag is_mask m h img n h_tag he
    obtain ⟨ih1, ih2, _⟩ := ih (c.Ref h) (wrapInt32 (n + 1)) he2 (wrapInt32_idem _)
    simp only [loadTimes]
    rw [hl]
    refine ⟨?_, ?_, rfl⟩
    · have e : wrapInt32 (n + ((k + 1 : Nat) : Int)) = wrapInt32 (wrapInt32 (n + 1) + (k : Int)) := by
        rw [wrapInt32_add]
        congr 1
        push_cast
        ring
      rw [e]
      exact ih1
    · rw [ih2, hlog]

theorem entryAt_first (env : CacheEnv) (c : ImageCache) (fm : Bool) (tag : String)
    ( is_mask : Bool) (h_tag : tag ≠ "")
    (h1 : c.map (localMap is_mask) tag = none) (h2 : c.map (globalMap is_mask) tag = none) :
    c.LoadImage env true fm (some tag) is_mask = c.loadNew env fm tag is_mask ∧
    (c.loadNew env fm tag is_mask).1 = some c.next ∧
    (c.loadNew env fm tag is_mask).2.entryAt tag is_mask
      (readAndDecode env fm tag is_mask).2.1 c.next (readAndDecode env fm tag is_mask).1 1 := by
  refine ⟨LoadImage_miss env c fm tag is_mask h_tag h1 h2, rfl, readAndDecode_map env fm tag is_mask,
    loadNew_map_self env c fm tag is_mask, loadNew_heap_self env c fm tag is_mask, ?_⟩
  intro hg
  rw [loadNew_map_other env c fm tag is_mask]
  · exact h1
  · rw [hg]
    intro hc
    exact localMap_ne_globalMap is_mask is_mask hc.1

theorem entryAt_destroy_keep (c : ImageCache) (tag : String) ( is_mask : Bool) (m : ImageMapId)
    (h : SharedImageId) (img : Option ImageId) (n : Int) (hn : wrapInt32 (n - 1) ≠ 0)
    (he : c.entryAt tag is_mask m h img n) :
    (c.Destroy h).entryAt tag is_mask m h img (wrapInt32 (n - 1)) ∧
      (c.Destroy h).log = c.log := by
  obtain ⟨hm, hmap, hheap, hloc⟩ := he
  unfold ImageCache.Destroy
  rw [Unref_keep c h _ hheap hn]
  refine ⟨⟨hm, ?_, ?_, ?_⟩, rfl⟩
  · cases m <;> exact hmap
  · simp
  · intro hg
    have := hloc hg
    cases is_mask <;> exact this

theorem entryAt_destroy_last (c : ImageCache) (tag : String) ( is_mask : Bool) (m : ImageMapId)
    (h : SharedImageId) (img : Option ImageId)
    (he : c.entryAt tag is_mask m h img 1) :
    (c.Destroy h).map m tag = none ∧ (c.Destroy h).heap h = none ∧
    (c.Destroy h).log = c.log ++ imageDestroyCalls img := by
  obtain ⟨_, _, hheap, _⟩ := he
  have hr : wrapInt32
      (({ tag_ := tag, owner_ := some m, image_ := img, ref_ := 1 } : SharedImage).ref_ - 1)
      = 0 := by
    show wrapInt32 ((1 : Int) - 1) = 0
    decide
  obtain ⟨hs, _, hm, _, _, hl⟩ :=
    Unref_last c h { tag_ := tag, owner_ := some m, image_ := img, ref_ := 1 } m hheap hr rfl
  exact ⟨hm, hs, hl⟩

theorem entryAt_destroyTimes (tag : String) ( is_mask : Bool) (m : ImageMapId)
    (h : SharedImageId) (img : Option ImageId) (j : Nat) :
    ∀ (c : ImageCache) (n : Nat), j < n → n ≤ 2147483647 → c.entryAt tag is_mask m h img n →
      (destroyTimes h j c).entryAt tag is_mask m h img ((n - j : Nat) : Int) ∧
      (destroyTimes h j c).log = c.log := by
  induction j with
  | zero =>
    intro c n _ _ he
    exact ⟨he, rfl⟩
  | succ j ih =>
    intro c n hlt hmax he
    have e : wrapInt32 (((n : Nat) : Int) - 1) = ((n - 1 : Nat) : Int) := by
      rw [wrapInt32_id _ (by omega) (by omega)]
      omega
    have hn : wrapInt32 (((n : Nat) : Int) - 1) ≠ 0 := by
      rw [e]
      omega
    obtain ⟨he2, hlog⟩ := entryAt_destroy_keep c tag is_mask m h img n hn he
    rw [e] at he2
    obtain ⟨ih1, ih2⟩ := ih (c.Destroy h) (n - 1) (by omega) (by omega) he2
    simp only [destroyTimes]
    have e2 : n - 1 - j = n - (j + 1) := by omega
    rw [e2] at ih1
    exact ⟨ih1, by rw [ih2, hlog]⟩

theorem wellFormed_loadTimes (env : CacheEnv) (fm : Bool) (tag : String) ( is_mask : Bool)
    (m : ImageMapId) (h : SharedImageId) (img : Option ImageId) (h_tag : tag ≠ "") (k : Nat) :
    ∀ (c : ImageCache) (n : Int), c.wellFormed → c.entryAt tag is_mask m h img n →
      n + k ≤ 2147483647 → (loadTimes env true fm (some tag) is_mask k c).wellFormed := by
  induction k with
  | zero => intro c n hw _ _; exact hw
  | succ k ih =>
    intro c n hw he hb
    obtain ⟨hl, he2, _⟩ := entryAt_load env c fm tag is_mask m h img n h_tag he
    have hheap := he.2.2.1
    obtain ⟨o, ho, _, _, hr1, _⟩ := hw.1 m tag h he.2.1
    have hn1 : 1 ≤ n := by
      rw [hheap] at ho
      cases ho
      exact hr1
    have hk : n + ((k + 1 : Nat) : Int) = n + 1 + (k : Int) := by push_cast; ring
    have hlt : n < 2147483647 := by omega
    have hw2 : (c.Ref h).wellFormed := by
      apply wellFormed_Ref c h hw
      intro o2 ho2
      rw [hheap] at ho2
      cases ho2
      exact hlt
    have e : wrapInt32 (n + 1) = n + 1 := wrapInt32_id _ (by omega) (by omega)
    rw [e] at he2
    simp only [loadTimes]
    rw [hl]
    exact ih (c.Ref h) (n + 1) hw2 he2 (by omega)

theorem wellFormed_destroyTimes (id : SharedImageId) (j : Nat) :
    ∀ c : ImageCache, c.wellFormed → (destroyTimes id j c).wellFormed := by
  induction j with
  | zero => intro c h; exact h
  | succ j ih =>
    intro c h
    exact ih _ (wellFormed_Unref c id h)

theorem destroyTimes_succ (id : SharedImageId) (j : Nat) :
    ∀ c : ImageCache, destroyTimes id (j + 1) c = (destroyTimes id j c).Destroy id := by
  induction j with
  | zero => intro c; rfl
  | succ j ih =>
    intro c
    show destroyTimes id (j + 1) (c.Destroy id) = _
    rw [ih]
    rfl

theorem loadTimes_succ (env : CacheEnv) (gfx fm : Bool) (filename : Option String)
    ( is_mask : Bool) (k : Nat) (c : ImageCache) :
    loadTimes env gfx fm filename is_mask (k + 1) c =
      loadTimes env gfx fm filename is_mask k (c.LoadImage env gfx fm filename is_mask).2 := rfl

theorem entryAt_loadTimes_fresh (env : CacheEnv) (c : ImageCache) (fm : Bool) (tag : String)
    ( is_mask : Bool) (h_tag : tag ≠ "")
    (h_local : c.map (localMap is_mask) tag = none)
    (h_global : c.map (globalMap is_mask) tag = none) (k : Nat) (hk : 1 ≤ k) :
    (loadTimes env true fm (some tag) is_mask k c).entryAt tag is_mask
      (readAndDecode env fm tag is_mask).2.1 c.next (readAndDecode env fm tag is_mask).1
      (wrapInt32 (k : Int)) ∧
    ((loadTimes env true fm (some tag) is_mask k c).LoadImage env true fm (some tag)
      is_mask).1 = some c.next ∧
    (loadTimes env true fm (some tag) is_mask k c).log
      = (c.loadNew env fm tag is_mask).2.log := by
  obtain ⟨i, rfl⟩ : ∃ i, k = i + 1 := ⟨k - 1, by omega⟩
  obtain ⟨hmiss, _, hfirst⟩ := entryAt_first env c fm tag is_mask h_tag h_local h_global
  rw [loadTimes_succ, hmiss]
  have h := entryAt_loadTimes env fm tag is_mask _ c.next _ h_tag i _ 1 hfirst (by decide)
  have e : wrapInt32 ((i + 1 : Nat) : Int) = wrapInt32 (1 + (i : Int)) := by
    congr 1
    push_cast
    ring
  rw [e]
  exact ⟨h.1, congrArg Prod.fst (entryAt_load env _ fm tag is_mask _ c.next _ _ h_tag h.1).1,
    h.2.1⟩

theorem entryAt_hit (env : CacheEnv) (c : ImageCache) (fm : Bool) (tag : String)
    ( is_mask : Bool) (m : ImageMapId) (h : SharedImageId) (img : Option ImageId) (n : Int)
    (h_tag : tag ≠ "") (he : c.entryAt tag is_mask m h img n) :
    (c.LoadImage env true fm (some tag) is_mask).1 = some h ∧
    (c.LoadImage env true fm (some tag) is_mask).2.heap h
      = some { tag_ := tag, owner_ := some m, image_ := img, ref_ := wrapInt32 (n + 1) } := by
  obtain ⟨hl, he2, _⟩ := entryAt_load env c fm tag is_mask m h img n h_tag he
  rw [hl]
  exact ⟨rfl, he2.2.2.1⟩

theorem cacheEnv_reads :
    (readAndDecode cacheEnv true "a.png" false).2.1 = ImageMapId.images_ ∧
    (readAndDecode cacheEnv true "a.png" false).1 = some 7 ∧
    ImageCache.empty.next = 1 := by
  decide

theorem loadedToIntMax_entry :
    loadedToIntMax.entryAt "a.png" false ImageMapId.images_ 1 (some 7) 2147483647 := by
  have h := (entryAt_loadTimes_fresh cacheEnv ImageCache.empty true "a.png" false (by decide)
    rfl rfl 2147483647 (by decide)).1
  have e : wrapInt32 ((2147483647 : Nat) : Int) = 2147483647 := by decide
  rw [e, cacheEnv_reads.1, cacheEnv_reads.2.1, cacheEnv_reads.2.2] at h
  exact h

/-- Claim C14, as stated, fails when the count of the entry is 2^31 - 1:
"a.png" has been loaded 2^31 - 1 times, so its entry in the local map of images
has the count 2147483647; the next `LoadImage` of the key returns that entry,
and its count is then -2147483648, not one more than before. -/
theorem C14_counterexample :
    loadedToIntMax.map ImageMapId.images_ "a.png" = some 1 ∧
    loadedToIntMax.heap 1
      = some { tag_ := "a.png", owner_ := some ImageMapId.images_, image_ := some 7,
               ref_ := 2147483647 } ∧
    (loadedToIntMax.LoadImage cacheEnv true true (some "a.png") false).1 = some 1 ∧
    (loadedToIntMax.LoadImage cacheEnv true true (some "a.png") false).2.heap 1
      = some { tag_ := "a.png", owner_ := some ImageMapId.images_, image_ := some 7,
               ref_ := -2147483648 } := by
  have he := loadedToIntMax_entry
  have hl := entryAt_hit cacheEnv loadedToIntMax true "a.png" false ImageMapId.images_ 1 (some 7)
    2147483647 (by decide) he
  have e : wrapInt32 (2147483647 + 1) = -2147483648 := by decide
  rw [e] at hl
  obtain ⟨_, h2, h3, _⟩ := he
  exact ⟨h2, h3, hl.1, hl.2⟩

/-- Claim C14, amended: with a graphics backend and a non-empty filename, when
the local map of the kind holds the tag `LoadImage` returns that entry, and
otherwise when the global map of the kind holds it `LoadImage` returns that
entry; the handle is the stored object, and when its count, an `int`, is below
2^31 - 1 the count grows by exactly one; every other object and all four maps
are unchanged, and no call (file read, decode) is made. Images and masks are
distinct entries: loading an unknown filename as an image and then as a mask
stores two different objects in two different maps. -/
theorem C14_lookup_order (env : CacheEnv) (c : ImageCache) (fm : Bool) (tag : String)
    ( is_mask : Bool) (it : SharedImageId) (o : SharedImage) (h_tag : tag ≠ "")
    (h_live : c.heap it = some o)
    (h_int : -2147483648 ≤ o.ref_) (h_count : o.ref_ < 2147483647)
    (h_hit : c.map (localMap is_mask) tag = some it ∨
      (c.map (localMap is_mask) tag = none ∧ c.map (globalMap is_mask) tag = some it)) :
    (c.LoadImage env true fm (some tag) is_mask).1 = some it ∧
    (c.LoadImage env true fm (some tag) is_mask).2.heap it
      = some { o with ref_ := o.ref_ + 1 } ∧
    (∀ id, id ≠ it → (c.LoadImage env true fm (some tag) is_mask).2.heap id = c.heap id) ∧
    (∀ m, (c.LoadImage env true fm (some tag) is_mask).2.map m = c.map m) ∧
    (c.LoadImage env true fm (some tag) is_mask).2.log = c.log ∧
    (∀ c0 : ImageCache, (∀ m, c0.map m tag = none) →
      (c0.LoadImage env true fm (some tag) false).1 = some c0.next ∧
      ((c0.LoadImage env true fm (some tag) false).2.LoadImage env true fm (some tag) true).1
        = some (c0.next + 1) ∧
      ∃ m1 m2, m1 ≠ m2 ∧
        ((c0.LoadImage env true fm (some tag) false).2.LoadImage env true fm (some tag) true).2.map
          m1 tag = some c0.next ∧
        ((c0.LoadImage env true fm (some tag) false).2.LoadImage env true fm (some tag) true).2.map
          m2 tag = some (c0.next + 1)) := by
  have hl : c.LoadImage env true fm (some tag) is_mask = (some it, c.Ref it) := by
    rcases h_hit with h | ⟨h1, h2⟩
    · exact LoadImage_local_hit env c fm tag is_mask it h_tag h
    · exact LoadImage_global_hit env c fm tag is_mask it h_tag h1 h2
  have hcount : (c.Ref it).heap it = some { o with ref_ := o.ref_ + 1 } := by
    rw [Ref_heap_self c it o h_live, wrapInt32_id _ (by omega) (by omega)]
  rw [hl]
  refine ⟨rfl, hcount, fun id hne => Ref_heap_other c it id hne,
    fun m => Ref_map c it m, Ref_log c it, ?_⟩
  intro c0 habs
  have e1 := LoadImage_miss env c0 fm tag false h_tag (habs _) (habs _)
  have hm1 := readAndDecode_map env fm tag false
  have hm2 := readAndDecode_map env fm tag true
  have hne12 : (readAndDecode env fm tag false).2.1 ≠ (readAndDecode env fm tag true).2.1 := by
    rcases hm1 with h1 | h1 <;> rcases hm2 with h2 | h2 <;> rw [h1, h2] <;> decide
  have habs2 : ∀ m, m = localMap true ∨ m = globalMap true →
      (c0.loadNew env fm tag false).2.map m tag = none := by
    intro m hm
    rw [loadNew_map_other env c0 fm tag false m tag]
    · exact habs m
    · intro hc
      rcases hm1 with h1 | h1 <;> rcases hm with h2 | h2 <;> rw [h1, h2] at hc <;>
        exact absurd hc.1 (by decide)
  have e2 := LoadImage_miss env (c0.loadNew env fm tag false).2 fm tag true h_tag
    (habs2 _ (Or.inl rfl)) (habs2 _ (Or.inr rfl))
  rw [e1, e2]
  refine ⟨rfl, ?_, (readAndDecode env fm tag false).2.1, (readAndDecode env fm tag true).2.1,
    hne12, ?_, ?_⟩
  · rw [loadNew_fst, loadNew_next]
  · rw [loadNew_map_other env _ fm tag true _ tag (fun hc => hne12 hc.1)]
    exact loadNew_map_self env c0 fm tag false
  · rw [loadNew_map_self, loadNew_next]

theorem C14_lookup_order_witness :
    (loadedOnce.LoadImage cacheEnv true true (some "a.png") false).1 = some 1 ∧
    (loadedOnce.LoadImage cacheEnv true true (some "a.png") false).2.heap 1
      = some { tag_ := "a.png", owner_ := some ImageMapId.images_, image_ := some 7, ref_ := 2 } ∧
    (loadedOnce.LoadImage cacheEnv true true (some "a.png") false).2.log = loadedOnce.log :=
  have h := C14_lookup_order cacheEnv loadedOnce true "a.png" false 1
    { tag_ := "a.png", owner_ := some ImageMapId.images_, image_ := some 7, ref_ := 1 }
    (by decide) rfl (by decide) (by decide) (Or.inl rfl)
  ⟨h.1, h.2.1, h.2.2.2.2.1⟩

/-- Claim C15, as stated, fails for `k` = 2^31: after "a.png" has been loaded
2^31 times and never destroyed, its entry is still in the local map but the
count of the object is -2147483648, not 2^31 and not at least 1. -/
theorem C15_counterexample :
    (loadTimes cacheEnv true true (some "a.png") false 2147483648 ImageCache.empty).map
      ImageMapId.images_ "a.png" = some 1 ∧
    (loadTimes cacheEnv true true (some "a.png") false 2147483648 ImageCache.empty).heap 1
      = some { tag_ := "a.png", owner_ := some ImageMapId.images_, image_ := some 7,
               ref_ := -2147483648 } ∧
    ¬ (loadTimes cacheEnv true true (some "a.png") false 2147483648
        ImageCache.empty).wellFormed := by
  have h := (entryAt_loadTimes_fresh cacheEnv ImageCache.empty true "a.png" false (by decide)
    rfl rfl 2147483648 (by decide)).1
  have e : wrapInt32 ((2147483648 : Nat) : Int) = -2147483648 := by decide
  rw [e, cacheEnv_reads.1, cacheEnv_reads.2.1, cacheEnv_reads.2.2] at h
  obtain ⟨_, hmap, hheap, _⟩ := h
  refine ⟨hmap, hheap, ?_⟩
  intro hw
  obtain ⟨o, ho, _, _, hr, _⟩ := hw.1 _ _ _ hmap
  rw [hheap] at ho
  cases ho
  exact absurd hr (by decide)

/-- Claim C15, amended: a key absent from both maps of its kind and loaded `k`
times, with `k` at least 1 and at most 2^31 - 1 (the count is an `int`), yields
one handle, returned by every call, whose count is `k` and which is stored under
its tag in its owning map. After `j` calls of `Destroy` with `j` below `k` the
count is `k - j`, the entry is still in the map and nothing has been destroyed;
the `k`-th `Destroy` erases the entry, deletes the object and destroys the
decoded image, if any. `Destroy`, and `LoadImage` on a cache whose counts are
all below 2^31 - 1, keep the invariant that every entry of a map points to a
live object with a count of at least 1 stored under its own tag in the map it
names as owner. -/
theorem C15_reference_counting (env : CacheEnv) (c : ImageCache) (fm : Bool) (tag : String)
    ( is_mask : Bool) (k j : Nat) (h_tag : tag ≠ "") (hk : 1 ≤ k) (h_bound : k ≤ 2147483647)
    (h_wf : c.wellFormed)
    (h_local : c.map (localMap is_mask) tag = none)
    (h_global : c.map (globalMap is_mask) tag = none) :
    (∀ i, i < k →
      ((loadTimes env true fm (some tag) is_mask i c).LoadImage env true fm (some tag) is_mask).1
        = some c.next) ∧
    (loadTimes env true fm (some tag) is_mask k c).entryAt tag is_mask
      (readAndDecode env fm tag is_mask).2.1 c.next (readAndDecode env fm tag is_mask).1 k ∧
    (j < k →
      (destroyTimes c.next j (loadTimes env true fm (some tag) is_mask k c)).entryAt tag is_mask
        (readAndDecode env fm tag is_mask).2.1 c.next (readAndDecode env fm tag is_mask).1
        ((k - j : Nat) : Int) ∧
      (destroyTimes c.next j (loadTimes env true fm (some tag) is_mask k c)).log
        = (loadTimes env true fm (some tag) is_mask k c).log) ∧
    ((destroyTimes c.next k (loadTimes env true fm (some tag) is_mask k c)).map
        (readAndDecode env fm tag is_mask).2.1 tag = none ∧
      (destroyTimes c.next k (loadTimes env true fm (some tag) is_mask k c)).heap c.next = none ∧
      (destroyTimes c.next k (loadTimes env true fm (some tag) is_mask k c)).log
        = (loadTimes env true fm (some tag) is_mask k c).log
            ++ imageDestroyCalls (readAndDecode env fm tag is_mask).1) ∧
    (loadTimes env true fm (some tag) is_mask k c).wellFormed ∧
    (destroyTimes c.next j (loadTimes env true fm (some tag) is_mask k c)).wellFormed ∧
    (∀ (c0 : ImageCache) (gfx0 fm0 : Bool) (filename0 : Option String) (mask0 : Bool)
      (id0 : SharedImageId), c0.wellFormed →
        ((∀ id o, c0.heap id = some o → o.ref_ < 2147483647) →
          (c0.LoadImage env gfx0 fm0 filename0 mask0).2.wellFormed) ∧
        (c0.Destroy id0).wellFormed) := by
  obtain ⟨k, rfl⟩ : ∃ k0, k = k0 + 1 := ⟨k - 1, by omega⟩
  obtain ⟨hmiss, _, hfirst⟩ := entryAt_first env c fm tag is_mask h_tag h_local h_global
  have hentry : (loadTimes env true fm (some tag) is_mask (k + 1) c).entryAt tag is_mask
      (readAndDecode env fm tag is_mask).2.1 c.next (readAndDecode env fm tag is_mask).1
      ((k + 1 : Nat) : Int) := by
    have h := (entryAt_loadTimes_fresh env c fm tag is_mask h_tag h_local h_global (k + 1)
      (by omega)).1
    rw [wrapInt32_id _ (by omega) (by omega)] at h
    exact h
  have hwf : (loadTimes env true fm (some tag) is_mask (k + 1) c).wellFormed := by
    rw [loadTimes_succ, hmiss]
    exact wellFormed_loadTimes env fm tag is_mask _ c.next _ h_tag k _ 1
      (wellFormed_loadNew env c fm tag is_mask h_wf) hfirst (by omega)
  refine ⟨?_, hentry, ?_, ?_, hwf, wellFormed_destroyTimes _ _ _ hwf,
    fun c0 gfx0 fm0 filename0 mask0 id0 h0 =>
      ⟨fun hb => wellFormed_LoadImage env c0 gfx0 fm0 filename0 mask0 h0 hb,
        wellFormed_Unref c0 id0 h0⟩⟩
  · intro i _
    cases i with
    | zero =>
      show (c.LoadImage env true fm (some tag) is_mask).1 = some c.next
      rw [hmiss]
      rfl
    | succ i =>
      exact (entryAt_loadTimes_fresh env c fm tag is_mask h_tag h_local h_global (i + 1)
        (by omega)).2.1
  · intro hj
    exact entryAt_destroyTimes tag is_mask _ c.next _ j _ (k + 1) hj h_bound hentry
  · rw [destroyTimes_succ]
    obtain ⟨he, hlog⟩ :=
      entryAt_destroyTimes tag is_mask _ c.next _ k _ (k + 1) (by omega) h_bound hentry
    have e : ((k + 1 - k : Nat) : Int) = 1 := by
      have : k + 1 - k = 1 := by omega
      rw [this]
      rfl
    rw [e] at he
    obtain ⟨h1, h2, h3⟩ := entryAt_destroy_last _ tag is_mask _ c.next _ he
    exact ⟨h1, h2, by rw [h3, hlog]⟩

theorem C15_reference_counting_witness :
    (loadTimes cacheEnv true true (some "a.png") false 3 ImageCache.empty).heap 1
      = some { tag_ := "a.png", owner_ := some ImageMapId.images_, image_ := some 7, ref_ := 3 } ∧
    (destroyTimes 1 2 (loadTimes cacheEnv true true (some "a.png") false 3 ImageCache.empty)).heap 1
      = some { tag_ := "a.png", owner_ := some ImageMapId.images_, image_ := some 7, ref_ := 1 } ∧
    (destroyTimes 1 3 (loadTimes cacheEnv true true (some "a.png") false 3 ImageCache.empty)).map
      ImageMapId.images_ "a.png" = none ∧
    (destroyTimes 1 3 (loadTimes cacheEnv true true (some "a.png") false 3 ImageCache.empty)).heap 1
      = none :=
  have h := C15_reference_counting cacheEnv ImageCache.empty true "a.png" false 3 2
    (by decide) (by decide) (by decide) wellFormed_empty rfl rfl
  ⟨h.2.1.2.2.1, (h.2.2.1 (by decide)).1.2.2.1, h.2.2.2.1.1, h.2.2.2.1.2.1⟩

/-- Claim C16: with a graphics backend and a non-empty filename that is in
neither map of its kind and that neither file manager can read, `LoadImage`
returns a handle whose tag is the filename and whose width and height are 0; the
handle is stored in the local map of the kind, and a second `LoadImage` of the
same key returns the same handle. -/
theorem C16_placeholder (env : CacheEnv) (c : ImageCache) (fm : Bool) (tag : String)
    ( is_mask : Bool) (h_tag : tag ≠ "")
    (h_local : c.map (localMap is_mask) tag = none)
    (h_global : c.map (globalMap is_mask) tag = none)
    (h_fm : fm = false ∨ env.ReadFile tag = none)
    (h_gfm : env.global_fm = false ∨ env.GlobalReadFile tag = none) :
    ∃ h, (c.LoadImage env true fm (some tag) is_mask).1 = some h ∧
      (c.LoadImage env true fm (some tag) is_mask).2.GetTag h = some tag ∧
      (c.LoadImage env true fm (some tag) is_mask).2.GetWidth env h = some 0 ∧
      (c.LoadImage env true fm (some tag) is_mask).2.GetHeight env h = some 0 ∧
      (c.LoadImage env true fm (some tag) is_mask).2.map (localMap is_mask) tag = some h ∧
      ((c.LoadImage env true fm (some tag) is_mask).2.LoadImage env true fm (some tag) is_mask).1
        = some h := by
  obtain ⟨himg, hmap⟩ := readAndDecode_fail env fm tag is_mask h_fm h_gfm
  have hmiss := LoadImage_miss env c fm tag is_mask h_tag h_local h_global
  have hheap := loadNew_heap_self env c fm tag is_mask
  have hself := loadNew_map_self env c fm tag is_mask
  rw [himg, hmap] at hheap
  rw [hmap] at hself
  rw [hmiss]
  refine ⟨c.next, rfl, ?_, ?_, ?_, hself, ?_⟩
  · simp [ImageCache.GetTag, hheap]
  · simp [ImageCache.GetWidth, hheap]
  · simp [ImageCache.GetHeight, hheap]
  · rw [LoadImage_local_hit env _ fm tag is_mask c.next h_tag hself]

theorem C16_placeholder_witness :
    ∃ h, (ImageCache.empty.LoadImage cacheEnv true true (some "none.png") false).1 = some h ∧
      (ImageCache.empty.LoadImage cacheEnv true true (some "none.png") false).2.GetTag h
        = some "none.png" ∧
      (ImageCache.empty.LoadImage cacheEnv true true (some "none.png") false).2.GetWidth cacheEnv h
        = some 0 ∧
      (ImageCache.empty.LoadImage cacheEnv true true (some "none.png") false).2.GetHeight cacheEnv h
        = some 0 ∧
      (ImageCache.empty.LoadImage cacheEnv true true (some "none.png") false).2.map
        (localMap false) "none.png" = some h ∧
      ((ImageCache.empty.LoadImage cacheEnv true true (some "none.png") false).2.LoadImage
        cacheEnv true true (some "none.png") false).1 = some h :=
  C16_placeholder cacheEnv ImageCache.empty true "none.png" false (by decide) rfl rfl
    (Or.inr (by decide)) (Or.inr (by decide))

/-! Elements by name. -/

theorem AddElementToClipRegion_names (env : Env W) (s : View W) (e : ElementId) :
    (View.AddElementToClipRegion env s e).all_elements_ = s.all_elements_ ∧
    (View.AddElementToClipRegion env s e).world = s.world ∧
    (View.AddElementToClipRegion env s e).tooltip_element_ = s.tooltip_element_ := by
  unfold View.AddElementToClipRegion
  split <;> exact ⟨rfl, rfl, rfl⟩

theorem SetTooltip_names (s : View W) (t : Option String) :
    (s.SetTooltip t).all_elements_ = s.all_elements_ := by
  unfold View.SetTooltip
  split <;> rfl

/-- The names map after `OnElementRemove`: the entry under the element's name
is erased when it is that element, and nothing else changes. -/
theorem OnElementRemove_names (env : Env W) (s : View W) (e : ElementId) :
    (View.OnElementRemove env s e).world = s.world ∧
    (View.OnElementRemove env s e).all_elements_ =
      if env.GetName s.world e ≠ "" ∧ s.all_elements_ (env.GetName s.world e) = some e
      then Function.update s.all_elements_ (env.GetName s.world e) none
      else s.all_elements_ := by
  obtain ⟨h1, h2, h3⟩ := AddElementToClipRegion_names env s e
  have hw : ∀ t : View W, (if t.tooltip_element_ = some e then t.SetTooltip none else t).world
      = t.world := by
    intro t
    split
    · exact SetTooltip_world t none
    · rfl
  have hn : ∀ t : View W,
      (if t.tooltip_element_ = some e then t.SetTooltip none else t).all_elements_
      = t.all_elements_ := by
    intro t
    split
    · exact SetTooltip_names t none
    · rfl
  have key : ∀ t : View W, t.world = s.world → t.all_elements_ = s.all_elements_ →
      (if env.GetName t.world e ≠ "" ∧ t.all_elements_ (env.GetName t.world e) = some e then
        { t with all_elements_ := Function.update t.all_elements_ (env.GetName t.world e) none }
      else t).world = s.world ∧
      (if env.GetName t.world e ≠ "" ∧ t.all_elements_ (env.GetName t.world e) = some e then
        { t with all_elements_ := Function.update t.all_elements_ (env.GetName t.world e) none }
      else t).all_elements_ =
        if env.GetName s.world e ≠ "" ∧ s.all_elements_ (env.GetName s.world e) = some e
        then Function.update s.all_elements_ (env.GetName s.world e) none
        else s.all_elements_ := by
    intro t tw tn
    by_cases hc : env.GetName s.world e ≠ "" ∧ s.all_elements_ (env.GetName s.world e) = some e
    · have hc2 : env.GetName t.world e ≠ "" ∧ t.all_elements_ (env.GetName t.world e) = some e := by
        rw [tw, tn]; exact hc
      rw [if_pos hc2, if_pos hc]
      refine ⟨tw, ?_⟩
      show Function.update t.all_elements_ (env.GetName t.world e) none = _
      rw [tw, tn]
    · have hc2 : ¬ (env.GetName t.world e ≠ "" ∧ t.all_elements_ (env.GetName t.world e) = some e) := by
        rw [tw, tn]; exact hc
      rw [if_neg hc2, if_neg hc]
      exact ⟨tw, tn⟩
  exact key _ ((hw _).trans h2) ((hn _).trans h1)

/-- The names map after `OnElementAdd`. -/
theorem OnElementAdd_names (env : Env W) (s : View W) (e : ElementId) :
    (View.OnElementAdd env s e).2.world = s.world ∧
    ((View.OnElementAdd env s e).2.all_elements_ = s.all_elements_ ∨
     (env.GetName s.world e ≠ "" ∧
      (View.OnElementAdd env s e).2.all_elements_
        = Function.update s.all_elements_ (env.GetName s.world e) (some e))) := by
  unfold View.OnElementAdd
  by_cases h0 : (env.IsContentArea s.world e &&
      (holderSync env s.world s.content_area_element_).isSome) = true
  · rw [if_pos h0]
    exact ⟨rfl, Or.inl rfl⟩
  · rw [if_neg h0]
    by_cases h1 : env.IsContentArea s.world e = true
    · simp only [h1, if_true]
      by_cases h2 : env.GetName s.world e ≠ "" ∧ s.all_elements_ (env.GetName s.world e) = none
      · rw [if_pos h2]
        exact ⟨rfl, Or.inr ⟨h2.1, rfl⟩⟩
      · rw [if_neg h2]
        exact ⟨rfl, Or.inl rfl⟩
    · simp only [h1]
      by_cases h2 : env.GetName s.world e ≠ "" ∧ s.all_elements_ (env.GetName s.world e) = none
      · simp only [Bool.false_eq_true, if_false]
        rw [if_pos h2]
        exact ⟨rfl, Or.inr ⟨h2.1, rfl⟩⟩
      · simp only [Bool.false_eq_true, if_false]
        rw [if_neg h2]
        exact ⟨rfl, Or.inl rfl⟩

theorem namesConsistent_step (env : Env W) (s : View W) (c : HookCall W)
    (h_names : ∀ w w' e, env.GetName w e = env.GetName w' e)
    (h : s.namesConsistent env) : (runHooks env s [c]).namesConsistent env := by
  cases c with
  | add e =>
    show (View.OnElementAdd env s e).2.namesConsistent env
    obtain ⟨hw, hm⟩ := OnElementAdd_names env s e
    intro n e' hn
    rw [hw]
    rcases hm with hm | ⟨hne, hm⟩
    · rw [hm] at hn
      exact h n e' hn
    · rw [hm] at hn
      by_cases hk : n = env.GetName s.world e
      · subst hk
        rw [Function.update_same] at hn
        cases hn
        exact ⟨hne, rfl⟩
      · rw [Function.update_noteq hk] at hn
        exact h n e' hn
  | remove e =>
    show (View.OnElementRemove env s e).namesConsistent env
    obtain ⟨hw, hm⟩ := OnElementRemove_names env s e
    intro n e' hn
    rw [hw]
    rw [hm] at hn
    split at hn
    · by_cases hk : n = env.GetName s.world e
      · subst hk
        rw [Function.update_same] at hn
        cases hn
      · rw [Function.update_noteq hk] at hn
        exact h n e' hn
    · exact h n e' hn
  | other w =>
    intro n e' hn
    have := h n e' hn
    exact ⟨this.1, (h_names w s.world e').trans this.2⟩

theorem runHooks_cons (env : Env W) (s : View W) (c : HookCall W) (rest : List (HookCall W)) :
    runHooks env s (c :: rest) = runHooks env (runHooks env s [c]) rest := by
  cases c <;> rfl

theorem namesConsistent_run (env : Env W) (cs : List (HookCall W))
    (h_names : ∀ w w' e, env.GetName w e = env.GetName w' e) :
    ∀ s : View W, s.namesConsistent env → (runHooks env s cs).namesConsistent env := by
  induction cs with
  | nil => intro s h; exact h
  | cons c rest ih =>
    intro s h
    rw [runHooks_cons]
    exact ih _ (namesConsistent_step env s c h_names h)

theorem notFound_after_remove (env : Env W) (s : View W) (E : ElementId)
    (h : s.namesConsistent env) :
    ∀ n, (View.OnElementRemove env s E).all_elements_ n ≠ some E := by
  obtain ⟨_, hm⟩ := OnElementRemove_names env s E
  intro n hn
  rw [hm] at hn
  split at hn
  · by_cases hk : n = env.GetName s.world E
    · subst hk
      rw [Function.update_same] at hn
      cases hn
    · rw [Function.update_noteq hk] at hn
      exact hk (h n E hn).2.symm
  · rename_i hc
    obtain ⟨h1, h2⟩ := h n E hn
    apply hc
    rw [h2]
    exact ⟨h1, hn⟩

theorem notFound_step (env : Env W) (s : View W) (E : ElementId) (c : HookCall W)
    (hc : HookCall.notAdd E c) (h : ∀ n, s.all_elements_ n ≠ some E) :
    ∀ n, (runHooks env s [c]).all_elements_ n ≠ some E := by
  cases c with
  | add e =>
    show ∀ n, (View.OnElementAdd env s e).2.all_elements_ n ≠ some E
    obtain ⟨_, hm⟩ := OnElementAdd_names env s e
    intro n hn
    rcases hm with hm | ⟨_, hm⟩
    · rw [hm] at hn
      exact h n hn
    · rw [hm] at hn
      by_cases hk : n = env.GetName s.world e
      · subst hk
        rw [Function.update_same] at hn
        cases hn
        exact hc rfl
      · rw [Function.update_noteq hk] at hn
        exact h n hn
  | remove e =>
    show ∀ n, (View.OnElementRemove env s e).all_elements_ n ≠ some E
    obtain ⟨_, hm⟩ := OnElementRemove_names env s e
    intro n hn
    rw [hm] at hn
    split at hn
    · by_cases hk : n = env.GetName s.world e
      · subst hk
        rw [Function.update_same] at hn
        cases hn
      · rw [Function.update_noteq hk] at hn
        exact h n hn
    · exact h n hn
  | other w => exact h

theorem notFound_run (env : Env W) (E : ElementId) (cs : List (HookCall W)) :
    ∀ s : View W, (∀ c ∈ cs, HookCall.notAdd E c) → (∀ n, s.all_elements_ n ≠ some E) →
      ∀ n, (runHooks env s cs).all_elements_ n ≠ some E := by
  induction cs with
  | nil => intro s _ h; exact h
  | cons c rest ih =>
    intro s hc h
    rw [runHooks_cons]
    exact ih _ (fun c' hc' => hc c' (List.mem_cons_of_mem _ hc'))
      (notFound_step env s E c (hc c (List.mem_cons_self _ _)) h)

/-- Claim C17: in a run of `OnElementAdd` / `OnElementRemove` calls and other
activity during which element names do not change, started from a names map in
which every entry is stored under the non-empty name of its element (the empty
map of a new view is one), once `OnElementRemove(E)` has run
`GetElementByName(n)` is different from `E` for every name `n`, and stays so
until `OnElementAdd(E)` is called again. -/
theorem C17_removed_not_found (env : Env W) (s : View W) (E : ElementId)
    (before after : List (HookCall W))
    (h_names : ∀ w w' e, env.GetName w e = env.GetName w' e)
    (h_start : s.namesConsistent env)
    (h_after : ∀ c ∈ after, HookCall.notAdd E c) :
    ∀ n, (runHooks env (View.OnElementRemove env (runHooks env s before) E) after).GetElementByName n
      ≠ some E := by
  have h1 := namesConsistent_run env before h_names s h_start
  exact notFound_run env E after _ h_after (notFound_after_remove env _ E h1)

theorem C17_removed_not_found_witness :
    (runHooks sceneEnv sceneView [HookCall.add 1, HookCall.add 2]).GetElementByName "one"
      = some 1 ∧
    ∀ n, (runHooks sceneEnv
        (View.OnElementRemove sceneEnv
          (runHooks sceneEnv sceneView [HookCall.add 1, HookCall.add 2]) 1)
        [HookCall.remove 2, HookCall.add 2]).GetElementByName n ≠ some 1 :=
  ⟨by decide,
   C17_removed_not_found sceneEnv sceneView 1 [HookCall.add 1, HookCall.add 2]
    [HookCall.remove 2, HookCall.add 2] (fun _ _ _ => rfl)
    (fun n e h => by cases h)
    (by
      intro c hc
      simp only [List.mem_cons, List.mem_singleton, List.not_mem_nil, or_false] at hc
      rcases hc with rfl | rfl
      · trivial
      · show (2 : ElementId) ≠ 1
        decide)⟩

theorem logExtends_refl (p : Action → Bool) (x : View W) : logExtends p x.log x :=
  ⟨[], by simp, by simp⟩

theorem logExtends_snoc (p : Action → Bool) (l : List Action) (x y : View W) (a : Action)
    (h : logExtends p l x) (hy : y.log = x.log ++ [a]) (ha : p a = true) :
    logExtends p l y := by
  obtain ⟨c, hc, hall⟩ := h
  refine ⟨c ++ [a], ?_, ?_⟩
  · rw [hy, hc, List.append_assoc]
  · intro b hb
    rcases List.mem_append.mp hb with h1 | h1
    · exact hall b h1
    · simp only [List.mem_singleton] at h1
      rw [h1]
      exact ha

theorem afterCall_mouse_over (env : Env W) (s : View W) (a : Action) (w : W) :
    (s.afterCall env a w).mouse_over_ = s.mouse_over_ := rfl

theorem afterCall_gadget (env : Env W) (s : View W) (a : Action) (w : W) :
    (s.afterCall env a w).gadget_ = s.gadget_ := rfl

theorem OnMouseEventFuel_total_out (env : Env W) (s : View W) (event : MouseEvent) (fuel : Nat)
    (h : event.type = EventType.EVENT_MOUSE_OUT) :
    (View.OnMouseEventFuel env (fuel + 1) s event).isSome = true := by
  have ht : transparentAt env s event = false := by
    unfold transparentAt
    rw [h]
    rfl
  unfold View.OnMouseEventFuel
  simp only [ht, h]
  cases s.mouse_over_ <;> rfl

theorem OnMouseEventFuel_total_over (env : Env W) (s : View W) (event : MouseEvent) (fuel : Nat)
    (h : event.type = EventType.EVENT_MOUSE_OVER) :
    (View.OnMouseEventFuel env (fuel + 2) s event).isSome = true := by
  have hout := OnMouseEventFuel_total_out env s (fakeEvent env EventType.EVENT_MOUSE_OUT event)
    fuel rfl
  unfold View.OnMouseEventFuel
  cases ht : transparentAt env s event
  · simp only [h]
    cases s.mouse_over_ <;> rfl
  · simp only [if_true]
    cases hm : s.mouse_over_
    · rfl
    · simp only [if_true]
      cases hr : View.OnMouseEventFuel env (fuel + 1) s
          (fakeEvent env EventType.EVENT_MOUSE_OUT event) with
      | none => rw [hr] at hout; cases hout
      | some r => rfl

/-- `OnMouseEvent` returns: three levels of calls are never exceeded. -/
theorem OnMouseEvent_total (env : Env W) (s : View W) (event : MouseEvent) :
    (View.OnMouseEvent env s event).isSome = true := by
  have hout := OnMouseEventFuel_total_out env s (fakeEvent env EventType.EVENT_MOUSE_OUT event)
    1 rfl
  have hover := OnMouseEventFuel_total_over env s (fakeEvent env EventType.EVENT_MOUSE_OVER event)
    0 rfl
  unfold View.OnMouseEvent View.OnMouseEventFuel
  cases ht : transparentAt env s event
  · simp only [Bool.false_eq_true, if_false]
    split
    · rfl
    · split
      · rfl
      · split
        · cases hr : View.OnMouseEventFuel env 2 s
              (fakeEvent env EventType.EVENT_MOUSE_OVER event) with
          | none => rw [hr] at hover; cases hover
          | some r => rfl
        · rfl
  · simp only [if_true]
    cases hm : s.mouse_over_
    · rfl
    · simp only [if_true]
      cases hr : View.OnMouseEventFuel env 2 s
          (fakeEvent env EventType.EVENT_MOUSE_OUT event) with
      | none => rw [hr] at hout; cases hout
      | some r => rfl

/-- The leave branch with a dragover element `d`: `d` receives the event, as
`EVENT_DRAG_OUT` unless the stored result is `EVENT_RESULT_HANDLED`, and
afterwards no dragover element is set and the stored result is
`EVENT_RESULT_UNHANDLED`. -/
theorem dragSend_with_element (env : Env W) (s : View W) (event : DragEvent) (d : ElementId)
    (h : s.dragover_element_ = some d) :
    (dragSend env s event).2.2.dragover_element_ = none ∧
    (dragSend env s event).2.2.dragover_result_ = EventResult.EVENT_RESULT_UNHANDLED ∧
    (dragSend env s event).2.2.log = s.log ++
      [Action.ElementOnDragEvent d
        (MapChildPositionEvent env s.world event d
          (dragEventOf (if s.dragover_result_ != EventResult.EVENT_RESULT_HANDLED
            then EventType.EVENT_DRAG_OUT else event.type) event)) true] ∧
    (dragSend env s event).1 = (if s.dragover_result_ != EventResult.EVENT_RESULT_HANDLED
      then EventType.EVENT_DRAG_OUT else event.type) := by
  unfold dragSend
  rw [h]
  exact ⟨rfl, rfl, rfl, rfl⟩

/-- The leave branch without a dragover element: nothing is dispatched and the
view, the stored result included, is left as it is. -/
theorem dragSend_without_element (env : Env W) (s : View W) (event : DragEvent)
    (h : s.dragover_element_ = none) :
    dragSend env s event = (event.type, EventResult.EVENT_RESULT_UNHANDLED, s) := by
  unfold dragSend
  rw [h]

theorem SetInUserInteraction_drag (s : View W) (flag : Bool) :
    (s.SetInUserInteraction flag).2.dragover_element_ = s.dragover_element_ ∧
    (s.SetInUserInteraction flag).2.dragover_result_ = s.dragover_result_ ∧
    (s.SetInUserInteraction flag).2.world = s.world ∧
    (s.SetInUserInteraction flag).2.gadget_ = s.gadget_ :=
  ⟨rfl, rfl, rfl, rfl⟩

/-- `OnDragEvent` for `EVENT_DRAG_OUT` or `EVENT_DRAG_DROP` when no dragover
element is set: it returns `EVENT_RESULT_UNHANDLED`, calls nothing but the
gadget's flag, and leaves the stored dragover result as it was. -/
theorem dragLeave_without_element (env : Env W) (s : View W) (event : DragEvent)
    (h : s.dragover_element_ = none) :
    (dragLeave env s event).1 = EventResult.EVENT_RESULT_UNHANDLED ∧
    (dragLeave env s event).2.dragover_element_ = none ∧
    (dragLeave env s event).2.dragover_result_ = s.dragover_result_ ∧
    logExtends Action.isGadgetFlag s.log (dragLeave env s event).2 := by
  unfold dragLeave
  by_cases hg : (s.gadget_ && event.type == EventType.EVENT_DRAG_DROP) = true
  · simp only [hg, if_true]
    rw [dragSend_without_element env (s.SetInUserInteraction false).2 event h]
    simp only []
    have hg2 : ((s.SetInUserInteraction false).2.gadget_ &&
        event.type == EventType.EVENT_DRAG_DROP) = true := hg
    rw [if_pos hg2]
    refine ⟨trivial, h, rfl, ?_⟩
    apply logExtends_snoc Action.isGadgetFlag s.log (s.SetInUserInteraction false).2 _
      (Action.GadgetSetInUserInteraction (s.SetInUserInteraction false).1)
    · exact logExtends_snoc Action.isGadgetFlag s.log s _
        (Action.GadgetSetInUserInteraction false) (logExtends_refl _ s) rfl rfl
    · rfl
    · rfl
  · simp only [hg, Bool.false_eq_true, if_false]
    rw [dragSend_without_element env s event h]
    simp only []
    rw [if_neg hg]
    exact ⟨trivial, h, rfl, logExtends_refl _ s⟩

/-- Claim C20, evaluated. A drag moves over element 1, whose `EVENT_DRAG_OVER`
handler accepts the drag and removes the element from the view: no dragover
element is set and the stored result is `EVENT_RESULT_HANDLED`. The
`EVENT_DRAG_DROP` that follows returns `EVENT_RESULT_UNHANDLED` and dispatches
nothing, but leaves the stored result at `EVENT_RESULT_HANDLED`; a later
`EVENT_DRAG_MOTION` over no element then returns `EVENT_RESULT_HANDLED`. -/
theorem C20_stale_dragover_result :
    dragStaleView.dragover_element_ = none ∧
    dragStaleView.dragover_result_ = EventResult.EVENT_RESULT_HANDLED ∧
    (View.OnDragEvent acceptAndLeaveEnv dragStaleView (dragAt EventType.EVENT_DRAG_DROP 50)).1
      = EventResult.EVENT_RESULT_UNHANDLED ∧
    (View.OnDragEvent acceptAndLeaveEnv dragStaleView
      (dragAt EventType.EVENT_DRAG_DROP 50)).2.dragover_element_ = none ∧
    (View.OnDragEvent acceptAndLeaveEnv dragStaleView
      (dragAt EventType.EVENT_DRAG_DROP 50)).2.dragover_result_
      = EventResult.EVENT_RESULT_HANDLED ∧
    (View.OnDragEvent acceptAndLeaveEnv
      (View.OnDragEvent acceptAndLeaveEnv dragStaleView
        (dragAt EventType.EVENT_DRAG_DROP 50)).2
      (dragAt EventType.EVENT_DRAG_MOTION 250)).1 = EventResult.EVENT_RESULT_HANDLED := by
  refine ⟨by decide, by decide, by decide, by decide, by decide, by decide⟩

/-! Zoom of the graphics backend. -/

theorem Double.le_zero_of_not_pos (z : Double) (hn : z ≠ Double.nan)
    (h : Double.zero.lt z = false) : z.le Double.zero = true := by
  cases z with
  | nan => exact absurd rfl hn
  | ninf => rfl
  | pinf => cases h
  | fin q =>
    simp only [Double.zero, Double.lt, decide_eq_false_iff_not, not_lt] at h
    simp only [Double.le, Double.zero, Double.lt, Double.eq, Bool.or_eq_true, decide_eq_true_eq]
    exact lt_or_eq_of_le h

theorem Double.not_le_zero_of_pos (z : Double) (h : Double.zero.lt z = true) :
    z.le Double.zero = false := by
  cases z with
  | nan => cases h
  | ninf => cases h
  | pinf => rfl
  | fin q =>
    simp only [Double.zero, Double.lt, decide_eq_true_eq] at h
    simp only [Double.le, Double.zero, Double.lt, Double.eq, Bool.or_eq_false_iff,
      decide_eq_false_iff_not, not_lt]
    exact ⟨le_of_lt h, ne_of_gt h⟩

/-- For every zoom argument other than not-a-number the constructor stores the
argument when it is greater than 0 and 1 otherwise. -/
theorem new_zoom_of_number (z : Double) (hn : z ≠ Double.nan) :
    (CairoGraphics.new z).GetZoom = clampedZoom z := by
  unfold CairoGraphics.new CairoGraphics.GetZoom clampedZoom
  cases h : Double.zero.lt z
  · simp [Double.le_zero_of_not_pos z hn h]
  · simp [Double.not_le_zero_of_pos z h]

theorem Double.eq_pos (a z : Double) (h : a.ne z = false) (ha : Double.zero.lt a = true) :
    a = z ∧ Double.zero.lt z = true := by
  cases a <;> cases z <;>
    simp only [Double.ne, Double.eq, Bool.not_eq_false', decide_eq_true_eq, Bool.not_false,
      Bool.not_true] at h <;> first
    | exact ⟨rfl, ha⟩
    | (subst h; exact ⟨rfl, ha⟩)
    | cases h

/-- In every state whose zoom is greater than 0 or not-a-number, `SetZoom(z)`
leaves the zoom at `z` when `z` is greater than 0 and at 1 otherwise, also when
`z` is not-a-number. -/
theorem SetZoom_zoom (g : CairoGraphics) (z : Double)
    (hg : Double.zero.lt g.zoom_ = true ∨ g.zoom_ = Double.nan) :
    (g.SetZoom z).GetZoom = clampedZoom z := by
  unfold CairoGraphics.SetZoom CairoGraphics.GetZoom clampedZoom
  cases hne : g.zoom_.ne z
  · rcases hg with hg | hg
    · obtain ⟨e, hz⟩ := Double.eq_pos g.zoom_ z hne hg
      simp [hz, e]
    · rw [hg] at hne
      cases z <;> cases hne
  · simp

/-- Claim C21, evaluated. Constructed with not-a-number, `CairoGraphics` keeps
not-a-number as its zoom: the zoom is neither the value the claim gives (1) nor
greater than 0. `SetZoom` with the same argument stores 1. For every other
argument the constructor stores the value the claim gives. -/
theorem C21_zoom_not_a_number :
    (CairoGraphics.new Double.nan).GetZoom = Double.nan ∧
    clampedZoom Double.nan = Double.one ∧
    Double.zero.lt (CairoGraphics.new Double.nan).GetZoom = false ∧
    ((CairoGraphics.new Double.nan).SetZoom Double.nan).GetZoom = Double.one ∧
    (∀ z : Double, z ≠ Double.nan → (CairoGraphics.new z).GetZoom = clampedZoom z) ∧
    (∀ (g : CairoGraphics) (z : Double),
      Double.zero.lt g.zoom_ = true ∨ g.zoom_ = Double.nan →
        (g.SetZoom z).GetZoom = clampedZoom z) :=
  ⟨rfl, rfl, rfl, rfl, new_zoom_of_number, SetZoom_zoom⟩

/-! Textures. -/

/-- The calls of `Draw` for a colour texture whose opacity is greater than 0. -/
theorem Draw_color (color : Color) (opacity x y width height : Double)
    (h : Double.zero.lt opacity = true) :
    (Texture.ofColor color opacity).Draw x y width height =
      (if opacity.ne Double.one
        then [CanvasCall.PushState, CanvasCall.MultiplyOpacity opacity] else [])
      ++ [CanvasCall.DrawFilledRect x x width height color]
      ++ (if opacity.ne Double.one then [CanvasCall.PopState] else []) := by
  unfold Texture.Draw Texture.ofColor
  simp only [h, if_true]

/-- Claim C28, evaluated. A fully opaque colour texture drawn at (10, 20) with
size 30 x 40 issues `DrawFilledRect(10, 10, 30, 40, colour)`: the second
argument is `x`, not `y`. This holds for every colour and rectangle, also under
`PushState` / `MultiplyOpacity` / `PopState` when the opacity is one half. -/
theorem C28_filled_rect_at_x_x :
    (∀ (color : Color) (x y width height : Double),
      (Texture.ofColor color Double.one).Draw x y width height
        = [CanvasCall.DrawFilledRect x x width height color]) ∧
    (∀ (color : Color) (x y width height : Double),
      (Texture.ofColor color (Double.fin (1 / 2))).Draw x y width height
        = [CanvasCall.PushState, CanvasCall.MultiplyOpacity (Double.fin (1 / 2)),
           CanvasCall.DrawFilledRect x x width height color, CanvasCall.PopState]) ∧
    (∀ color : Color,
      (Texture.ofColor color Double.one).Draw (Double.fin 10) (Double.fin 20) (Double.fin 30)
          (Double.fin 40)
        ≠ [CanvasCall.DrawFilledRect (Double.fin 10) (Double.fin 20) (Double.fin 30)
            (Double.fin 40) color]) := by
  have h1 : Double.zero.lt Double.one = true := by
    simp [Double.zero, Double.one, Double.lt]
  have h2 : Double.zero.lt (Double.fin (1 / 2)) = true := by
    simp [Double.zero, Double.lt]
  have n1 : Double.one.ne Double.one = false := by
    simp [Double.one, Double.ne, Double.eq]
  have n2 : (Double.fin (1 / 2)).ne Double.one = true := by
    simp only [Double.one, Double.ne, Double.eq, Bool.not_eq_true', decide_eq_false_iff_not]
    norm_num
  refine ⟨?_, ?_, ?_⟩
  · intro color x y width height
    rw [Draw_color color _ x y width height h1, n1]
    rfl
  · intro color x y width height
    rw [Draw_color color _ x y width height h2, n2]
    rfl
  · intro color
    rw [Draw_color color _ _ _ _ _ h1, n1]
    simp only [Bool.false_eq_true, if_false, List.nil_append, List.append_nil, ne_eq,
      List.cons.injEq, CanvasCall.DrawFilledRect.injEq, Double.fin.injEq, and_true, true_and]
    norm_num

/-! Conversion of script values to native strings. -/

/-- `ConvertJSToNativeUTF16String` never returns `JS_TRUE`. -/
theorem ConvertJSToNativeUTF16String_false (env : ConverterEnv) (js_val : JSVal)
    (native_val : NativeValue) :
    (ConvertJSToNativeUTF16String env js_val native_val).1 = false := by
  unfold ConvertJSToNativeUTF16String
  cases js_val.isStringConvertible
  · rfl
  · cases env.JS_ValueToString js_val <;> rfl

/-- Claim C22, evaluated. With a prototype of type `TYPE_UTF16STRING`
`ConvertJSToNative` returns `JS_FALSE` for every value, although for the string
"ab" it has stored the converted string; with `TYPE_STRING` the same value is
converted and `JS_TRUE` is returned. -/
theorem C22_utf16_conversion_fails :
    (∀ (env : ConverterEnv) (js_val : JSVal) (native_val : NativeValue),
      (ConvertJSToNative env VariantType.TYPE_UTF16STRING js_val native_val).1 = false) ∧
    ConvertJSToNative converterEnv VariantType.TYPE_UTF16STRING (JSVal.string 1)
      (NativeValue.other 0) = (false, NativeValue.utf16string (some [97, 98])) ∧
    ConvertJSToNative converterEnv VariantType.TYPE_STRING (JSVal.string 1)
      (NativeValue.other 0) = (true, NativeValue.string "ab") :=
  ⟨fun env js_val native_val => ConvertJSToNativeUTF16String_false env js_val native_val,
   by decide, by decide⟩

/-! JSON encoding and decoding. -/

/-- Claim C23, evaluated. `JSONDecode` evaluates the texts `abc`, `truex` and
`truef(nulla)` as script: a word that ends the text is never tested, a word is
only compared by its first four or five letters, and the character that ends a
word is not tested against the valid characters. -/
theorem C23_loose_validation :
    JSONDecode (some "abc".toList) = DecodeOutcome.evaluate "(abc)".toList ∧
    JSONDecode (some "truex,".toList) = DecodeOutcome.evaluate "(truex,)".toList ∧
    JSONDecode (some "true(".toList) = DecodeOutcome.evaluate "(true()".toList ∧
    JSONDecode (some "truef(nulla)".toList) = DecodeOutcome.evaluate "(truef(nulla))".toList ∧
    kValidChars.contains '(' = false ∧ kValidChars.contains ')' = false ∧
    JSONDecode (some "(".toList) = DecodeOutcome.invalid ∧
    JSONDecode (some "tru,".toList) = DecodeOutcome.invalid := by
  refine ⟨by decide, by decide, by decide, by decide, by decide, by decide, by decide,
    by decide⟩

/-- Claim C24, evaluated. On the text of a double quote followed by a
backslash, and on any text that ends with a backslash inside a string literal,
the cursor of the validation loop skips the terminating NUL and the loop test
reads beyond it. -/
theorem C24_scan_reads_beyond :
    scan ['"', '\\'] 0 ['"', '\\'] = ScanResult.overread ∧
    JSONDecode (some ['"', '\\']) = DecodeOutcome.overread ∧
    JSONDecode (some "[\"ab\\".toList) = DecodeOutcome.overread ∧
    (∀ word_start : List Char, scan ['\\'] 2 word_start = ScanResult.overread) := by
  refine ⟨by decide, by decide, by decide, fun _ => rfl⟩

theorem scan_open (rest word_start : List Char) :
    scan ('"' :: rest) 0 word_start = scan rest 2 word_start := by
  rw [scan.eq_def]
  simp [isLowerLetter]

theorem scan_close (rest word_start : List Char) :
    scan ('"' :: rest) 2 word_start = scan rest 0 word_start := by
  rw [scan.eq_def]
  simp

theorem scan_plain (c : Char) (rest word_start : List Char) (h : plainInString c = true) :
    scan (c :: rest) 2 word_start = scan rest 2 word_start := by
  simp only [plainInString, Bool.and_eq_true, decide_eq_true_eq, bne_iff_ne, ne_eq] at h
  obtain ⟨⟨⟨h1, _⟩, h2⟩, h3⟩ := h
  have h0 : c ≠ '\x00' := by
    intro e
    rw [e] at h1
    exact absurd h1 (by decide)
  rw [scan.eq_def]
  simp [h0, h2, h3]

theorem scan_escaped (d : Char) (rest word_start : List Char) (h : d ≠ '\x00') :
    scan ('\\' :: d :: rest) 2 word_start = scan rest 2 word_start := by
  rw [scan.eq_def]
  simp [h]

theorem hexDigit_plain (n : Nat) : plainInString (hexDigit n) = true := by
  unfold hexDigit
  have h : n % 16 < 16 := Nat.mod_lt _ (by decide)
  generalize n % 16 = m at h
  interval_cases m <;> decide

theorem ofNat_plain (c : Nat) (h1 : ¬ (c ≥ 0x7f ∨ c < 0x20)) (h2 : c ≠ 34) (h3 : c ≠ 92) :
    plainInString (Char.ofNat c) = true := by
  have ha : 0x20 ≤ c := by omega
  have hb : c < 0x7f := by omega
  interval_cases c <;> first | decide | exact absurd rfl h2 | exact absurd rfl h3

/-- The text `escapeChar` appends for one code unit is passed over by the
validation loop in state 2, and consists of printable ASCII characters. -/
theorem scan_escapeChar (c : Nat) (rest word_start : List Char) :
    scan (escapeChar c ++ rest) 2 word_start = scan rest 2 word_start ∧
    ∀ x ∈ escapeChar c, 0x20 ≤ x.toNat ∧ x.toNat ≤ 0x7E := by
  unfold escapeChar
  by_cases e1 : c = 34
  · rw [if_pos e1]
    exact ⟨scan_escaped _ _ _ (by decide), by decide⟩
  rw [if_neg e1]
  by_cases e2 : c = 92
  · rw [if_pos e2]
    exact ⟨scan_escaped _ _ _ (by decide), by decide⟩
  rw [if_neg e2]
  by_cases e3 : c = 10
  · rw [if_pos e3]
    exact ⟨scan_escaped _ _ _ (by decide), by decide⟩
  rw [if_neg e3]
  by_cases e4 : c = 13
  · rw [if_pos e4]
    exact ⟨scan_escaped _ _ _ (by decide), by decide⟩
  rw [if_neg e4]
  by_cases e5 : c ≥ 0x7f ∨ c < 0x20
  · rw [if_pos e5]
    have hp : ∀ n, 0x20 ≤ (hexDigit n).toNat ∧ (hexDigit n).toNat ≤ 0x7E := by
      intro n
      have := hexDigit_plain n
      simp only [plainInString, Bool.and_eq_true, decide_eq_true_eq] at this
      exact this.1.1
    constructor
    · show scan ('\\' :: 'u' :: hexDigit (c / 4096) :: hexDigit (c / 256) :: hexDigit (c / 16)
          :: hexDigit c :: rest) 2 word_start = _
      rw [scan_escaped _ _ _ (by decide), scan_plain _ _ _ (hexDigit_plain _),
        scan_plain _ _ _ (hexDigit_plain _), scan_plain _ _ _ (hexDigit_plain _),
        scan_plain _ _ _ (hexDigit_plain _)]
    · intro x hx
      simp only [unicodeEscape, List.mem_cons, List.mem_singleton, List.not_mem_nil,
        or_false] at hx
      rcases hx with rfl | rfl | rfl | rfl | rfl | rfl
      · decide
      · decide
      · exact hp _
      · exact hp _
      · exact hp _
      · exact hp _
  · rw [if_neg e5]
    have hpl := ofNat_plain c e5 e1 e2
    constructor
    · exact scan_plain _ _ _ hpl
    · intro x hx
      simp only [List.mem_singleton] at hx
      rw [hx]
      simp only [plainInString, Bool.and_eq_true, decide_eq_true_eq] at hpl
      exact hpl.1.1

theorem scan_escaped_string (chars : List Nat) (rest word_start : List Char) :
    scan (chars.flatMap escapeChar ++ rest) 2 word_start = scan rest 2 word_start ∧
    ∀ x ∈ chars.flatMap escapeChar, 0x20 ≤ x.toNat ∧ x.toNat ≤ 0x7E := by
  induction chars with
  | nil => exact ⟨rfl, by simp⟩
  | cons c cs ih =>
    obtain ⟨h1, h2⟩ := scan_escapeChar c (cs.flatMap escapeChar ++ rest) word_start
    constructor
    · rw [List.flatMap_cons, List.append_assoc, h1]
      exact ih.1
    · intro x hx
      rw [List.flatMap_cons] at hx
      rcases List.mem_append.mp hx with h | h
      · exact h2 x h
      · exact ih.2 x h

/-- The literal `AppendStringToJSON` makes for a UTF-16 string consists of
printable ASCII characters, and the validation loop in state 0 scans it as one
string literal: it is back in state 0 right after the final quote. -/
theorem string_literal_scanned (chars : List Nat) (rest word_start : List Char) :
    scan (AppendStringToJSON (some chars) [] ++ rest) 0 word_start = scan rest 0 word_start ∧
    ∀ x ∈ AppendStringToJSON (some chars) [], 0x20 ≤ x.toNat ∧ x.toNat ≤ 0x7E := by
  obtain ⟨h1, h2⟩ := scan_escaped_string chars ('"' :: rest) word_start
  constructor
  · show scan ((([] ++ ['"']) ++ chars.flatMap escapeChar ++ ['"']) ++ rest) 0 word_start = _
    simp only [List.nil_append, List.append_assoc, List.singleton_append, List.cons_append]
    rw [scan_open, h1, scan_close]
  · intro x hx
    have hx2 : x ∈ (([] ++ ['"']) ++ chars.flatMap escapeChar ++ ['"']) := hx
    simp only [List.nil_append, List.mem_append, List.mem_singleton] at hx2
    rcases hx2 with (rfl | h) | rfl
    · decide
    · exact h2 x h
    · decide

/-- Claim C25, evaluated. For the number 1e21, whose text is `1e+21`,
`JSONEncode` gives `1e+21` and `JSONDecode` returns `JS_FALSE` on it: the letter
`e` starts a word although it is one of the valid characters. The same holds
inside an array. -/
theorem C25_exponent_rejected :
    JSONEncode (JSValue.number (some "1e+21".toList)) = "1e+21".toList ∧
    JSONDecode (some (JSONEncode (JSValue.number (some "1e+21".toList)))) = DecodeOutcome.invalid ∧
    kValidChars.contains 'e' = true ∧
    isLowerLetter 'e' = true ∧
    JSONEncode (JSValue.array
      (JSValues.cons (JSValue.boolean true)
        (JSValues.cons (JSValue.number (some "1e+21".toList)) JSValues.nil)))
      = "[true,1e+21]".toList ∧
    JSONDecode (some "[true,1e+21]".toList) = DecodeOutcome.invalid ∧
    JSONDecode (some "[true,1000]".toList) = DecodeOutcome.evaluate "([true,1000])".toList ∧
    (∀ (chars : List Nat) (rest word_start : List Char),
      scan (AppendStringToJSON (some chars) [] ++ rest) 0 word_start = scan rest 0 word_start ∧
      ∀ x ∈ AppendStringToJSON (some chars) [], 0x20 ≤ x.toNat ∧ x.toNat ≤ 0x7E) := by
  refine ⟨by decide, by decide, by decide, by decide, by decide, by decide, by decide,
    string_literal_scanned⟩

/-! Lookup by name after a removal. -/

/-- The names map after `OnElementAdd` of an element that is not a content
area. -/
theorem OnElementAdd_plain (env : Env W) (s : View W) (e : ElementId)
    (hc : env.IsContentArea s.world e = false) :
    (View.OnElementAdd env s e).2.world = s.world ∧
    (View.OnElementAdd env s e).2.all_elements_ =
      if env.GetName s.world e ≠ "" ∧ s.all_elements_ (env.GetName s.world e) = none
      then Function.update s.all_elements_ (env.GetName s.world e) (some e)
      else s.all_elements_ := by
  unfold View.OnElementAdd
  simp only [hc, Bool.false_and, Bool.false_eq_true, if_false]
  by_cases h2 : env.GetName s.world e ≠ "" ∧ s.all_elements_ (env.GetName s.world e) = none
  · rw [if_pos h2, if_pos h2]
    exact ⟨rfl, rfl⟩
  · rw [if_neg h2, if_neg h2]
    exact ⟨rfl, rfl⟩

/-- Claim C26 as stated fails: elements 1 and 2, both named "twin", are added
in that order and element 1 is removed; element 2 has been added and not
removed, and `GetElementByName("twin")` returns null. -/
theorem C26_counterexample :
    twinEnv.GetName sceneView.world 1 = "twin" ∧
    twinEnv.GetName sceneView.world 2 = "twin" ∧
    (runHooks twinEnv sceneView [HookCall.add 1, HookCall.add 2]).GetElementByName "twin"
      = some 1 ∧
    (runHooks twinEnv sceneView
      [HookCall.add 1, HookCall.add 2, HookCall.remove 1]).GetElementByName "twin" = none := by
  refine ⟨by decide, by decide, by decide, by decide⟩

/-- Claim C26, amended: when no element is registered under the non-empty name
`n`, `OnElementAdd` of an element named `n` registers it and
`GetElementByName(n)` returns it; a second element named `n` added meanwhile is
not registered, and `GetElementByName(n)` still returns the first; when the
first is removed `GetElementByName(n)` returns null, although the second has
been added and not removed. -/
theorem C26_first_registered_wins (env : Env W) (s : View W) (E1 E2 : ElementId) (n : String)
    (h_n : n ≠ "")
    (h_name1 : env.GetName s.world E1 = n) (h_name2 : env.GetName s.world E2 = n)
    (h_plain1 : env.IsContentArea s.world E1 = false)
    (h_plain2 : env.IsContentArea s.world E2 = false)
    (h_free : s.all_elements_ n = none) :
    (runHooks env s [HookCall.add E1]).GetElementByName n = some E1 ∧
    (runHooks env s [HookCall.add E1, HookCall.add E2]).GetElementByName n = some E1 ∧
    (runHooks env s [HookCall.add E1, HookCall.add E2, HookCall.remove E1]).GetElementByName n
      = none := by
  obtain ⟨w1, m1⟩ := OnElementAdd_plain env s E1 h_plain1
  rw [h_name1, if_pos ⟨h_n, h_free⟩] at m1
  have l1 : (View.OnElementAdd env s E1).2.all_elements_ n = some E1 := by
    rw [m1, Function.update_same]
  obtain ⟨w2, m2⟩ := OnElementAdd_plain env (View.OnElementAdd env s E1).2 E2
    (by rw [w1]; exact h_plain2)
  rw [w1, h_name2] at m2
  rw [if_neg (by rw [l1]; simp)] at m2
  have l2 : (View.OnElementAdd env (View.OnElementAdd env s E1).2 E2).2.all_elements_ n
      = some E1 := by
    rw [m2, l1]
  obtain ⟨_, m3⟩ := OnElementRemove_names env
    (View.OnElementAdd env (View.OnElementAdd env s E1).2 E2).2 E1
  rw [w2, w1, h_name1, if_pos ⟨h_n, l2⟩] at m3
  refine ⟨l1, l2, ?_⟩
  show (View.OnElementRemove env
    (View.OnElementAdd env (View.OnElementAdd env s E1).2 E2).2 E1).all_elements_ n = none
  rw [m3, Function.update_same]

theorem C26_first_registered_wins_witness :
    (runHooks twinEnv sceneView [HookCall.add 1]).GetElementByName "twin" = some 1 ∧
    (runHooks twinEnv sceneView [HookCall.add 1, HookCall.add 2]).GetElementByName "twin"
      = some 1 ∧
    (runHooks twinEnv sceneView
      [HookCall.add 1, HookCall.add 2, HookCall.remove 1]).GetElementByName "twin" = none :=
  C26_first_registered_wins twinEnv sceneView 1 2 "twin" (by decide) rfl rfl rfl rfl rfl

/-! The last value of an animation. -/

/-- Claim C27, evaluated. An animation from 0 to 10 over 100 ms, begun at clock
reading 1000, is called at 1050, where its slot is invoked with 5 and is done at
1098, and at 1100: this `Call` computes the end value 10 and returns false, but
only 2 ms have passed since the last `Call` finished, so the slot is not
invoked. The slot has never been invoked with the end value. -/
theorem C27_end_value_dropped :
    shortAnimation.start_ = 0 ∧ shortAnimation.end_ = 10 ∧ shortAnimation.duration_ = 100 ∧
    callReturns shortAnimation [(1050, 1098), (1100, 1101)] = [true, false] ∧
    firedValues shortAnimation [(1050, 1098), (1100, 1101)] = [5] ∧
    ((shortAnimation.Call 1050 1098).watch.Call 1100 1101).value = 10 ∧
    ((shortAnimation.Call 1050 1098).watch.Call 1100 1101).invoked = false ∧
    subUInt64 1100 (shortAnimation.Call 1050 1098).watch.last_finished_time_ = 2 := by
  refine ⟨rfl, rfl, rfl, by decide, by decide, by decide, by decide, by decide⟩

/-! Cropped images. -/

/-- Claim C30: for an image of positive width and height, `DoDraw` in crop
mode true or photo makes one call `StretchDraw(x, y, w, h)` with
`w * imgh = h * imgw`, `w >= pxwidth`, `h >= pxheight`,
`x = (pxwidth - w) / 2 <= 0`, `x + w >= pxwidth` and `y + h >= pxheight`; in
mode true `y = (pxheight - h) / 2`, and in photo mode `y` is 0 whenever
`(pxheight - h) / 2 < 0`, so `y` is never negative there. -/
theorem C30_crop_covers (e : ImgElement) (image : SourceImage)
    (h_image : e.image = some image) (h_w : 0 < image.width) (h_h : 0 < image.height)
    (h_crop : e.crop_ = CropMaintainAspect.CROP_TRUE ∨ e.crop_ = CropMaintainAspect.CROP_PHOTO) :
    ∃ x y w h, e.DoDraw = [ImgDrawCall.StretchDraw x y w h] ∧
      w * image.height = h * image.width ∧
      e.pxwidth ≤ w ∧ e.pxheight ≤ h ∧
      x = (e.pxwidth - w) / 2 ∧ x ≤ 0 ∧
      e.pxwidth ≤ x + w ∧ e.pxheight ≤ y + h ∧
      (e.crop_ = CropMaintainAspect.CROP_TRUE → y = (e.pxheight - h) / 2) ∧
      (e.crop_ = CropMaintainAspect.CROP_PHOTO → (e.pxheight - h) / 2 < 0 → y = 0) ∧
      (e.crop_ = CropMaintainAspect.CROP_PHOTO → 0 ≤ y) := by
  have hcf : e.crop_ ≠ CropMaintainAspect.CROP_FALSE := by
    rcases h_crop with h | h <;> rw [h] <;> decide
  have hpos : ¬ (image.width ≤ 0 ∨ image.height ≤ 0) := by
    intro h
    rcases h with h | h
    · exact absurd h_w (not_lt.mpr h)
    · exact absurd h_h (not_lt.mpr h)
  have hw : e.pxwidth ≤ max (e.pxwidth / image.width) (e.pxheight / image.height) * image.width := by
    have := le_max_left (e.pxwidth / image.width) (e.pxheight / image.height)
    calc e.pxwidth = e.pxwidth / image.width * image.width := by field_simp
      _ ≤ _ := mul_le_mul_of_nonneg_right this (le_of_lt h_w)
  have hh : e.pxheight ≤ max (e.pxwidth / image.width) (e.pxheight / image.height) * image.height := by
    have := le_max_right (e.pxwidth / image.width) (e.pxheight / image.height)
    calc e.pxheight = e.pxheight / image.height * image.height := by field_simp
      _ ≤ _ := mul_le_mul_of_nonneg_right this (le_of_lt h_h)
  refine ⟨(e.pxwidth - max (e.pxwidth / image.width) (e.pxheight / image.height) * image.width) / 2,
    (if e.crop_ = CropMaintainAspect.CROP_PHOTO ∧
        (e.pxheight - max (e.pxwidth / image.width) (e.pxheight / image.height) * image.height) / 2
          < 0
      then 0
      else (e.pxheight - max (e.pxwidth / image.width) (e.pxheight / image.height) * image.height)
        / 2),
    max (e.pxwidth / image.width) (e.pxheight / image.height) * image.width,
    max (e.pxwidth / image.width) (e.pxheight / image.height) * image.height, ?_, ?_, hw, hh, rfl,
    ?_, ?_, ?_, ?_, ?_, ?_⟩
  · unfold ImgElement.DoDraw
    rw [h_image]
    simp only [if_neg hcf, if_neg hpos]
  · ring
  · linarith
  · linarith
  · split
    · linarith
    · linarith
  · intro ht
    rw [if_neg]
    rw [ht]
    intro hc
    exact absurd hc.1 (by decide)
  · intro hp hneg
    rw [if_pos ⟨hp, hneg⟩]
  · intro hp
    split
    · exact le_refl _
    · rename_i hc
      have : ¬ ((e.pxheight -
          max (e.pxwidth / image.width) (e.pxheight / image.height) * image.height) / 2 < 0) :=
        fun hlt => hc ⟨hp, hlt⟩
      exact not_lt.mp this

theorem C30_crop_covers_witness :
    ∃ x y w h, photoElement.DoDraw = [ImgDrawCall.StretchDraw x y w h] ∧
      w * (50 : ℚ) = h * 100 ∧
      photoElement.pxwidth ≤ w ∧ photoElement.pxheight ≤ h ∧
      x = (photoElement.pxwidth - w) / 2 ∧ x ≤ 0 ∧
      photoElement.pxwidth ≤ x + w ∧ photoElement.pxheight ≤ y + h ∧
      (photoElement.crop_ = CropMaintainAspect.CROP_TRUE → y = (photoElement.pxheight - h) / 2) ∧
      (photoElement.crop_ = CropMaintainAspect.CROP_PHOTO →
        (photoElement.pxheight - h) / 2 < 0 → y = 0) ∧
      (photoElement.crop_ = CropMaintainAspect.CROP_PHOTO → 0 ≤ y) :=
  C30_crop_covers photoElement { width := 100, height := 50 } rfl (by norm_num) (by norm_num)
    (Or.inr rfl)

/-! The plugin list. -/

/-- When `ParsePluginsXML` returns false after `EnsureInitialized`, the plugin
map is as before; when the XML does not parse, so is `latest_plugin_time_`. -/
theorem ParsePluginsXMLBody_false (env : MetadataEnv) (s : GadgetsMetadata) (contents : String)
    ( full_update : Bool) :
    ((ParsePluginsXMLBody env s contents full_update).1 = false →
      (ParsePluginsXMLBody env s contents full_update).2.plugins_ = s.plugins_) ∧
    (env.ParseXMLIntoXPathMap contents = none →
      ParsePluginsXMLBody env s contents full_update = (false, s)) := by
  unfold ParsePluginsXMLBody
  cases hp : env.ParseXMLIntoXPathMap contents with
  | none => exact ⟨fun _ => rfl, fun _ => rfl⟩
  | some new_plugins =>
    refine ⟨?_, fun h => by cases h⟩
    simp only
    split
    · intro h
      cases h
    · intro _
      rfl

/-- Claim C29, evaluated. The state holds plugin A and `latest_plugin_time_`
1000. An incremental update whose text holds only a partial record of the
unknown plugin B returns false and leaves `latest_plugin_time_` at 0; one whose
text holds a full record dated 2000 before that partial record returns false
and leaves it at 2000; a full update with the partial record returns false and
leaves it at 0. The plugin map is unchanged each time, and a text that does
not parse changes nothing. -/
theorem C29_latest_time_clobbered :
    loadedMetadata.latest_plugin_time_ = 1000 ∧
    loadedMetadata.plugins_.map Prod.fst = ["A"] ∧
    (ParsePluginsXML metadataEnv loadedMetadata "unknown" false).1 = false ∧
    (ParsePluginsXML metadataEnv loadedMetadata "unknown" false).2.latest_plugin_time_ = 0 ∧
    (ParsePluginsXML metadataEnv loadedMetadata "unknown" false).2.plugins_
      = loadedMetadata.plugins_ ∧
    (ParsePluginsXML metadataEnv loadedMetadata "partial" false).1 = false ∧
    (ParsePluginsXML metadataEnv loadedMetadata "partial" false).2.latest_plugin_time_ = 2000 ∧
    (ParsePluginsXML metadataEnv loadedMetadata "partial" false).2.plugins_
      = loadedMetadata.plugins_ ∧
    (ParsePluginsXML metadataEnv loadedMetadata "unknown" true).1 = false ∧
    (ParsePluginsXML metadataEnv loadedMetadata "unknown" true).2.latest_plugin_time_ = 0 ∧
    ParsePluginsXML metadataEnv loadedMetadata "garbage" false = (false, loadedMetadata) ∧
    (∀ (env : MetadataEnv) (s : GadgetsMetadata) (contents : String) (full : Bool),
      (ParsePluginsXMLBody env s contents full).1 = false →
        (ParsePluginsXMLBody env s contents full).2.plugins_ = s.plugins_) := by
  refine ⟨by decide, by decide, by decide, by decide, by decide, by decide, by decide,
    by decide, by decide, by decide, by decide,
    fun env s contents full => (ParsePluginsXMLBody_false env s contents full).1⟩

end ggadget
